import Mathlib

/-!
Verification development for the glTF serialization core (`GLTFWriter.write`
and its helpers).  The TypeScript source is shallowly embedded: pure helper
functions become Lean functions, the writer's mutable JSON/state object is
threaded explicitly, thrown exceptions become `Except String`, and JavaScript
`ArrayBuffer` contents are tracked as symbolic byte segments of known length.
All machine numbers involved (byte lengths, offsets, counts, indices) are
modelled as `Nat`/`Int`; none of the arithmetic in the writer can overflow a
JS double for realistic inputs, and no wrap-around semantics are used by the
source.
-/

/-! ## JSON values (for `clean` and for the opaque `extras` bags)

`clean` inspects a value only through `Array.isArray(value) && value.length
=== 0`, `value === null` and `value === ''`; nested objects are never
traversed.  Arrays and nested objects are therefore modelled by their size
alone. -/

inductive JValue where
  | jnull : JValue
  | jbool (b : Bool) : JValue
  | jnum (n : Int) : JValue
  | jstr (s : String) : JValue
  | jarr (length : Nat) : JValue
  | jobj (size : Nat) : JValue
deriving DecidableEq, Repr

/-- A JavaScript object, as an insertion-ordered list of key/value pairs. -/
abbrev JObject := List (String × JValue)

/-- One step of the first loop of `clean`: the key pushed onto `unused` for a
given entry.  The source pushes the KEY for an empty array, but pushes the
VALUE for `null` / `''` (`unused.push(value)`); `delete object[null]` then
deletes the property named `"null"` (JS coerces the property key to a
string), and `delete object['']` deletes the property named `""`. -/
def cleanCollect : JObject → List String
  | [] => []
  | (key, value) :: rest =>
    (match value with
     | JValue.jarr 0 => [key]
     | JValue.jnull => ["null"]
     | JValue.jstr "" => [""]
     | _ => []) ++ cleanCollect rest

/-- `clean(object)` from the source: gather `unused` over the top-level
entries, then `delete object[key]` for each gathered key. -/
def clean (object : JObject) : JObject :=
  let unused := cleanCollect object
  object.filter (fun kv => !(unused.contains kv.1))

/-! ## Generic property definitions (`createPropertyDef`) -/

/-- The data every graph `Property` exposes to `createPropertyDef`:
`getName()`, `getExtras()` and `getExtensions()` (the latter two are opaque
JSON objects). -/
structure PropertyCommon where
  name : String := ""
  extras : JObject := []
  extensions : JObject := []
deriving DecidableEq, Repr

/-- The generic JSON definition produced by `createPropertyDef`.  The glTF
schema would also allow an `extensions` field; the source never writes it,
and we keep the slot here so that that fact is expressible. -/
structure PropertyDef where
  name : Option String := none
  extras : Option JObject := none
  extensions : Option JObject := none
deriving DecidableEq, Repr

/-- `createPropertyDef(property)`: copy `name` if truthy (non-empty), copy
`extras` if it has keys, then copy `extensions` — into the `extras` slot —
if it has keys. -/
def createPropertyDef (property : PropertyCommon) : PropertyDef :=
  let d0 : PropertyDef := {}
  let d1 := if property.name ≠ "" then { d0 with name := some property.name } else d0
  let d2 := if property.extras.length > 0 then { d1 with extras := some property.extras } else d1
  if property.extensions.length > 0 then { d2 with extras := some property.extensions } else d2

/-! ## Claim C1 — the post-processor (`clean`) -/

/-- C1: the claim says `clean` deletes every top-level key whose value is an
empty array, `null`, or the empty string, and leaves every other key.  The
code instead pushes the VALUE for the `null`/`''` cases, so on the object
`{"a": null, "null": 1}` it keeps `"a"` (whose value is `null`) and deletes
the innocent key `"null"`; the claim demands exactly the opposite. -/
theorem C1_clean_failing_eval :
    clean [("a", JValue.jnull), ("null", JValue.jnum 1)] = [("a", JValue.jnull)] := by
  rfl

/-! ## Claim C10 — extensions overwrite extras -/

/-- C10: whenever `getExtensions()` is non-empty, the resulting def's
`extras` field is the extensions object (overwriting any extras copied
beforehand), and the def never carries a separate `extensions` field. -/
theorem C10_extensions_overwrite_extras (property : PropertyCommon)
    (h : property.extensions ≠ []) :
    (createPropertyDef property).extras = some property.extensions ∧
    (createPropertyDef property).extensions = none := by
  have hlen : property.extensions.length > 0 := by
    cases hx : property.extensions with
    | nil => exact absurd hx h
    | cons a l => simp [hx]
  constructor
  · simp only [createPropertyDef, hlen, if_pos]
  · simp only [createPropertyDef]
    split <;> split <;> split <;> rfl

/-- A concrete property carrying both extras and extensions, for the C10
witness. -/
def propBoth : PropertyCommon :=
  { name := "p", extras := [("a", JValue.jnum 1)], extensions := [("e", JValue.jnum 2)] }

/-- Witness for C10 at a concrete property with both extras and extensions. -/
theorem C10_extensions_overwrite_extras_witness :
    propBoth.extensions ≠ [] ∧
    ((createPropertyDef propBoth).extras = some propBoth.extensions ∧
      (createPropertyDef propBoth).extensions = none) :=
  ⟨by decide, C10_extensions_overwrite_extras propBoth (by decide)⟩

/-! ## Accessors and the buffer-view packers

`BufferUtils.pad` / `BufferUtils.padNumber` are part of the library's utils
module, whose code is not in this repository snapshot.  Modelled from the
spec: padding rounds a byte length up to the next multiple of 4 ("pad length
to the next multiple of 4 with zero bytes"; "padTo4"). -/

def padNumber (n : Nat) : Nat := ((n + 3) / 4) * 4

theorem padNumber_mod_four (n : Nat) : padNumber n % 4 = 0 := Nat.mul_mod_left _ 4

/-- glTF accessor component types; the graph interface guarantees the
component type is one of exactly these six, so the `default: throw` branch of
the interleaver's dispatch is unreachable in the model. -/
inductive ComponentType where
  | float
  | byte
  | short
  | unsignedByte
  | unsignedShort
  | unsignedInt
deriving DecidableEq, Repr

/-- Size in bytes of one component (`accessor.getComponentSize()`). -/
def componentSize : ComponentType → Nat
  | ComponentType.float => 4
  | ComponentType.byte => 1
  | ComponentType.short => 2
  | ComponentType.unsignedByte => 1
  | ComponentType.unsignedShort => 2
  | ComponentType.unsignedInt => 4

/-- glTF accessor element types. -/
inductive ElementType where
  | scalar
  | vec2
  | vec3
  | vec4
  | mat2
  | mat3
  | mat4
deriving DecidableEq, Repr

/-- Components per element (`accessor.getElementSize()`). -/
def elementSize : ElementType → Nat
  | ElementType.scalar => 1
  | ElementType.vec2 => 2
  | ElementType.vec3 => 3
  | ElementType.vec4 => 4
  | ElementType.mat2 => 4
  | ElementType.mat3 => 9
  | ElementType.mat4 => 16

/-- The kind of a non-Root graph link whose child is an accessor: an
`AttributeLink` (carrying the owning primitive), an `IndexLink`, or any
other link. -/
inductive LinkKind where
  | attribute (primitive : Nat)
  | index
  | other
deriving DecidableEq, Repr

/-- An input `Accessor`.  `id` models JS object identity, `buffer` is the
root-order index of the `Buffer` this accessor belongs to (it is a
`listParents()` entry of that buffer), and `links` are the non-Root graph
links whose child is this accessor, in graph order.  `array` holds the
scalars of the backing typed array (numeric values are carried verbatim;
their 4/2/1-byte little-endian encodings are abstracted). -/
structure Accessor where
  id : Nat
  common : PropertyCommon := {}
  type : ElementType
  componentType : ComponentType
  count : Nat
  array : List Int := []
  max : List Int := []
  min : List Int := []
  normalized : Bool := false
  buffer : Nat := 0
  links : List LinkKind := []
deriving DecidableEq, Repr

/-- Accessor JSON definition (`bufferView`/`byteOffset` are filled in by the
packers after `createAccessorDef`). -/
structure AccessorDef where
  base : PropertyDef := {}
  type : ElementType
  componentType : ComponentType
  count : Nat
  max : List Int := []
  min : List Int := []
  normalized : Bool := false
  bufferView : Nat := 0
  byteOffset : Nat := 0
deriving DecidableEq, Repr

/-- Buffer view JSON definition.  `byteOffset` is an `Int` because the image
code path stores the placeholder `-1` before the real offset is known. -/
structure BufferViewDef where
  buffer : Nat
  byteOffset : Int
  byteLength : Nat
  byteStride : Option Nat := none
  target : Option Nat := none
deriving DecidableEq, Repr

/-- The two buffer-view target constants. -/
def BufferViewTarget.ARRAY_BUFFER : Nat := 34962

/-- Target constant for index data. -/
def BufferViewTarget.ELEMENT_ARRAY_BUFFER : Nat := 34963

/-- A symbolic byte blob appended to a buffer: either one accessor's padded
raw bytes, one interleaved vertex block, or one image's bytes.  Only lengths
and provenance are tracked; byte contents are abstracted. -/
inductive ByteSeg where
  | accessorBytes (accessorId : Nat) (byteLength : Nat)
  | interleavedBytes (byteLength : Nat)
  | imageBytes (imageIndex : Nat) (byteLength : Nat)
deriving DecidableEq, Repr

/-- Byte length of one symbolic segment. -/
def ByteSeg.len : ByteSeg → Nat
  | ByteSeg.accessorBytes _ n => n
  | ByteSeg.interleavedBytes n => n
  | ByteSeg.imageBytes _ n => n

/-- `createAccessorDef(accessor)` from the source. -/
def createAccessorDef (accessor : Accessor) : AccessorDef :=
  { base := createPropertyDef accessor.common,
    type := accessor.type,
    componentType := accessor.componentType,
    count := accessor.count,
    max := accessor.max,
    min := accessor.min,
    normalized := accessor.normalized }

/-- `BufferUtils.pad(accessor.getArray().buffer).byteLength`: the typed
array's raw byte length (scalar count × component size), zero-padded to the
next multiple of 4. -/
def accessorPaddedByteLength (accessor : Accessor) : Nat :=
  padNumber (accessor.array.length * componentSize accessor.componentType)

/-- Result of packing a group of accessors into one buffer view. -/
structure ConcatResult where
  accessorDefs : List AccessorDef
  indexEntries : List (Nat × Nat)
  bufferViewDef : BufferViewDef
  byteLength : Nat
  segs : List ByteSeg
deriving DecidableEq, Repr

/-- The accessor loop of `concatAccessors`: per accessor, build its def with
`bufferView` pointing at the upcoming view and `byteOffset` the running
length, push its padded bytes, and record its index (`accBase` is
`json.accessors.length` at entry, `viewIndex` is `json.bufferViews.length`).-/
def concatLoop : List Accessor → Nat → Nat → Nat →
    List AccessorDef × List (Nat × Nat) × List ByteSeg × Nat
  | [], _, _, byteLength => ([], [], [], byteLength)
  | accessor :: rest, viewIndex, accBase, byteLength =>
    let accessorDef := { createAccessorDef accessor with
      bufferView := viewIndex, byteOffset := byteLength }
    let dataLen := accessorPaddedByteLength accessor
    let r := concatLoop rest viewIndex (accBase + 1) (byteLength + dataLen)
    (accessorDef :: r.1, (accessor.id, accBase) :: r.2.1,
      ByteSeg.accessorBytes accessor.id dataLen :: r.2.2.1, r.2.2.2)

/-- `concatAccessors(accessors, bufferIndex, bufferByteOffset,
bufferViewTarget?)` from the source; `accBase`/`viewIndex` are the lengths
of `json.accessors`/`json.bufferViews` at the call (the writer's mutable
pushes are threaded as explicit indices). -/
def concatAccessors (accessors : List Accessor) (bufferIndex bufferByteOffset accBase viewIndex : Nat)
    (bufferViewTarget : Option Nat) : ConcatResult :=
  let r := concatLoop accessors viewIndex accBase 0
  let bufferViewDef : BufferViewDef :=
    { buffer := bufferIndex, byteOffset := (bufferByteOffset : Int),
      byteLength := r.2.2.2, target := bufferViewTarget }
  { accessorDefs := r.1, indexEntries := r.2.1, segs := r.2.2.1, byteLength := r.2.2.2,
    bufferViewDef := bufferViewDef }

/-- One `DataView` store performed by the interleaver: the byte offset it
writes at, the component type governing the width (1, 2 or 4 bytes,
little-endian for the multi-byte types), and the value written. -/
structure InterleaveWrite where
  viewByteOffset : Nat
  componentType : ComponentType
  value : Int
deriving DecidableEq, Repr

/-- `accessors[0].getCount()` (0 for the empty list, which the writer never
passes). -/
def vertexCountOf : List Accessor → Nat
  | [] => 0
  | accessor :: _ => accessor.count

/-- First pass of `interleaveAccessors`: build the accessor defs with
`byteOffset` the running stride, accumulating the vertex byte stride. -/
def interleaveDefsLoop : List Accessor → Nat → Nat → Nat →
    List AccessorDef × List (Nat × Nat) × Nat
  | [], _, _, byteStride => ([], [], byteStride)
  | accessor :: rest, viewIndex, accBase, byteStride =>
    let accessorDef := { createAccessorDef accessor with
      bufferView := viewIndex, byteOffset := byteStride }
    let step := padNumber (elementSize accessor.type * componentSize accessor.componentType)
    let r := interleaveDefsLoop rest viewIndex (accBase + 1) (byteStride + step)
    (accessorDef :: r.1, (accessor.id, accBase) :: r.2.1, r.2.2)

/-- Inner loop of the interleaver's second pass for a fixed vertex `i`: walk
the accessors threading the running `vertexByteOffset`, and for each
component `j` record the store of `array[i*elementSize + j]` at
`i*byteStride + vertexByteOffset + j*componentSize` (the component-type
switch writes 1/2/4 little-endian bytes; out-of-range reads — impossible for
well-formed accessors — are modelled as 0). -/
def interleaveInner : List Accessor → Nat → Nat → Nat → List InterleaveWrite
  | [], _, _, _ => []
  | accessor :: rest, i, byteStride, vertexByteOffset =>
    let es := elementSize accessor.type
    let cs := componentSize accessor.componentType
    ((List.range es).map (fun j =>
      { viewByteOffset := i * byteStride + vertexByteOffset + j * cs,
        componentType := accessor.componentType,
        value := accessor.array.getD (i * es + j) 0 })) ++
      interleaveInner rest i byteStride (vertexByteOffset + padNumber (es * cs))

/-- Second pass of `interleaveAccessors`: one inner sweep per vertex. -/
def interleaveWrites (accessors : List Accessor) (vertexCount byteStride : Nat) :
    List InterleaveWrite :=
  (List.range vertexCount).flatMap (fun i => interleaveInner accessors i byteStride 0)

/-- Result of interleaving a group of accessors into one buffer view. -/
structure InterleaveResult where
  accessorDefs : List AccessorDef
  indexEntries : List (Nat × Nat)
  bufferViewDef : BufferViewDef
  byteLength : Nat
  writes : List InterleaveWrite
deriving DecidableEq, Repr

/-- `interleaveAccessors(accessors, bufferIndex, bufferByteOffset)` from the
source; as with `concatAccessors`, `accBase`/`viewIndex` thread the lengths
of the JSON lists at the call. -/
def interleaveAccessors (accessors : List Accessor)
    (bufferIndex bufferByteOffset accBase viewIndex : Nat) : InterleaveResult :=
  let vertexCount := vertexCountOf accessors
  let r := interleaveDefsLoop accessors viewIndex accBase 0
  let byteStride := r.2.2
  let byteLength := vertexCount * byteStride
  let bufferViewDef : BufferViewDef :=
    { buffer := bufferIndex, byteOffset := (bufferByteOffset : Int),
      byteLength := byteLength, byteStride := some byteStride,
      target := some BufferViewTarget.ARRAY_BUFFER }
  { accessorDefs := r.1, indexEntries := r.2.1, bufferViewDef := bufferViewDef,
    byteLength := byteLength,
    writes := interleaveWrites accessors vertexCount byteStride }

/-! ## Claim C7 — interleaved layout -/

/-- Padded per-vertex footprint of one accessor: `padTo4(elementSize ×
componentSize)`. -/
def vertexPad (accessor : Accessor) : Nat :=
  padNumber (elementSize accessor.type * componentSize accessor.componentType)

/-- Sum of padded per-vertex footprints over a list of accessors. -/
def vertexPadSum (accessors : List Accessor) : Nat :=
  (accessors.map vertexPad).sum

/-- Placeholder accessor used as the default of `List.getD`. -/
def dummyAccessor : Accessor :=
  { id := 0, type := ElementType.scalar, componentType := ComponentType.float, count := 0 }

/-- Placeholder accessor def used as the default of `List.getD`. -/
def dummyAccessorDef : AccessorDef :=
  { type := ElementType.scalar, componentType := ComponentType.float, count := 0 }

theorem interleaveDefsLoop_stride (accessors : List Accessor) (v b s : Nat) :
    (interleaveDefsLoop accessors v b s).2.2 = s + vertexPadSum accessors := by
  induction accessors generalizing b s with
  | nil => simp [interleaveDefsLoop, vertexPadSum]
  | cons a rest ih =>
    simp only [interleaveDefsLoop, ih, vertexPadSum, List.map_cons, List.sum_cons, vertexPad]
    omega

theorem interleaveDefsLoop_length (accessors : List Accessor) (v b s : Nat) :
    (interleaveDefsLoop accessors v b s).1.length = accessors.length := by
  induction accessors generalizing b s with
  | nil => simp [interleaveDefsLoop]
  | cons a rest ih => simp [interleaveDefsLoop, ih]

theorem interleaveDefsLoop_byteOffset (accessors : List Accessor) (v b s k : Nat)
    (hk : k < accessors.length) :
    ((interleaveDefsLoop accessors v b s).1.getD k dummyAccessorDef).byteOffset
      = s + vertexPadSum (accessors.take k) := by
  induction accessors generalizing b s k with
  | nil => simp at hk
  | cons a rest ih =>
    cases k with
    | zero => simp [interleaveDefsLoop, vertexPadSum]
    | succ k =>
      have hk' : k < rest.length := by simpa using hk
      simp only [interleaveDefsLoop, List.getD_cons_succ, ih _ _ k hk',
        List.take_succ_cons, vertexPadSum, List.map_cons, List.sum_cons, vertexPad]
      omega

theorem interleaveInner_length (accessors : List Accessor) (i stride v0 : Nat) :
    (interleaveInner accessors i stride v0).length
      = (accessors.map (fun a => elementSize a.type)).sum := by
  induction accessors generalizing v0 with
  | nil => simp [interleaveInner]
  | cons a rest ih => simp [interleaveInner, ih]

theorem interleaveWrites_length (accessors : List Accessor) (vertexCount stride : Nat) :
    (interleaveWrites accessors vertexCount stride).length
      = vertexCount * (accessors.map (fun a => elementSize a.type)).sum := by
  simp only [interleaveWrites]
  induction vertexCount with
  | zero => simp
  | succ n ih =>
    rw [List.range_succ, List.flatMap_append]
    simp [interleaveInner_length, ih, Nat.succ_mul]

theorem interleaveInner_mem (accessors : List Accessor) (i stride v0 k j : Nat)
    (hk : k < accessors.length)
    (hj : j < elementSize (accessors.getD k dummyAccessor).type) :
    ({ viewByteOffset := i * stride + (v0 + vertexPadSum (accessors.take k))
          + j * componentSize (accessors.getD k dummyAccessor).componentType,
       componentType := (accessors.getD k dummyAccessor).componentType,
       value := (accessors.getD k dummyAccessor).array.getD
          (i * elementSize (accessors.getD k dummyAccessor).type + j) 0 } : InterleaveWrite)
      ∈ interleaveInner accessors i stride v0 := by
  induction accessors generalizing v0 k with
  | nil => simp at hk
  | cons a rest ih =>
    cases k with
    | zero =>
      simp only [List.getD_cons_zero] at hj ⊢
      refine List.mem_append_left _ ?_
      refine List.mem_map.mpr ⟨j, List.mem_range.mpr hj, ?_⟩
      simp [vertexPadSum]
    | succ k =>
      have hk' : k < rest.length := by simpa using hk
      simp only [List.getD_cons_succ] at hj ⊢
      refine List.mem_append_right _ ?_
      have := ih (v0 + padNumber (elementSize a.type * componentSize a.componentType)) k hk' hj
      have harr : v0 + padNumber (elementSize a.type * componentSize a.componentType)
            + vertexPadSum (rest.take k)
          = v0 + vertexPadSum ((a :: rest).take (k + 1)) := by
        simp only [List.take_succ_cons, vertexPadSum, List.map_cons, List.sum_cons, vertexPad]
        omega
      rw [← harr]
      exact this

theorem interleaveWrites_mem (accessors : List Accessor) (vertexCount stride i k j : Nat)
    (hi : i < vertexCount) (hk : k < accessors.length)
    (hj : j < elementSize (accessors.getD k dummyAccessor).type) :
    ({ viewByteOffset := i * stride + vertexPadSum (accessors.take k)
          + j * componentSize (accessors.getD k dummyAccessor).componentType,
       componentType := (accessors.getD k dummyAccessor).componentType,
       value := (accessors.getD k dummyAccessor).array.getD
          (i * elementSize (accessors.getD k dummyAccessor).type + j) 0 } : InterleaveWrite)
      ∈ interleaveWrites accessors vertexCount stride := by
  refine List.mem_flatMap.mpr ⟨i, List.mem_range.mpr hi, ?_⟩
  have := interleaveInner_mem accessors i stride 0 k j hk hj
  simpa using this

/-- C7: for a non-empty group of accessors with identical count, the emitted
buffer view has `byteStride` the sum over the accessors in order of
`padTo4(elementSize × componentSize)`, `byteLength = count × byteStride`,
and target 34962; each accessor's JSON `byteOffset` is the sum of the padded
element sizes of the accessors before it; and every component value
`array[i*elementSize + j]` of the k-th accessor is written (little-endian,
dispatched on the component type) at byte offset
`i*byteStride + localOffset_k + j*componentSize`. -/
theorem C7_interleave_layout (accessors : List Accessor)
    (bufferIndex bufferByteOffset accBase viewIndex : Nat)
    (h1 : accessors ≠ [])
    (h2 : ∀ a ∈ accessors, a.count = vertexCountOf accessors) :
    (interleaveAccessors accessors bufferIndex bufferByteOffset accBase
        viewIndex).bufferViewDef.byteStride = some (vertexPadSum accessors) ∧
    (interleaveAccessors accessors bufferIndex bufferByteOffset accBase
        viewIndex).bufferViewDef.byteLength
      = vertexCountOf accessors * vertexPadSum accessors ∧
    (interleaveAccessors accessors bufferIndex bufferByteOffset accBase
        viewIndex).bufferViewDef.target = some 34962 ∧
    (interleaveAccessors accessors bufferIndex bufferByteOffset accBase
        viewIndex).bufferViewDef.buffer = bufferIndex ∧
    (interleaveAccessors accessors bufferIndex bufferByteOffset accBase
        viewIndex).bufferViewDef.byteOffset = (bufferByteOffset : Int) ∧
    (interleaveAccessors accessors bufferIndex bufferByteOffset accBase
        viewIndex).accessorDefs.length = accessors.length ∧
    (∀ k, k < accessors.length →
      ((interleaveAccessors accessors bufferIndex bufferByteOffset accBase
          viewIndex).accessorDefs.getD k dummyAccessorDef).byteOffset
        = vertexPadSum (accessors.take k)) ∧
    (interleaveAccessors accessors bufferIndex bufferByteOffset accBase
        viewIndex).writes.length
      = vertexCountOf accessors * (accessors.map (fun a => elementSize a.type)).sum ∧
    (∀ i k j, i < vertexCountOf accessors → k < accessors.length →
      j < elementSize (accessors.getD k dummyAccessor).type →
      ({ viewByteOffset := i * vertexPadSum accessors + vertexPadSum (accessors.take k)
            + j * componentSize (accessors.getD k dummyAccessor).componentType,
         componentType := (accessors.getD k dummyAccessor).componentType,
         value := (accessors.getD k dummyAccessor).array.getD
            (i * elementSize (accessors.getD k dummyAccessor).type + j) 0 } : InterleaveWrite)
        ∈ (interleaveAccessors accessors bufferIndex bufferByteOffset accBase
            viewIndex).writes) := by
  have hstride := interleaveDefsLoop_stride accessors viewIndex accBase 0
  rw [Nat.zero_add] at hstride
  refine ⟨?_, ?_, ?_, rfl, rfl, ?_, ?_, ?_, ?_⟩
  · simp [interleaveAccessors, hstride]
  · simp [interleaveAccessors, hstride]
  · rfl
  · simp [interleaveAccessors, interleaveDefsLoop_length]
  · intro k hk
    have := interleaveDefsLoop_byteOffset accessors viewIndex accBase 0 k hk
    simpa [interleaveAccessors] using this
  · simp [interleaveAccessors, interleaveWrites_length, hstride]
  · intro i k j hi hk hj
    have := interleaveWrites_mem accessors (vertexCountOf accessors) (vertexPadSum accessors)
      i k j hi hk hj
    simpa [interleaveAccessors, hstride] using this

/-- POSITION accessor of the spec's interleaving example (VEC3, F32,
count 3). -/
def positionAccessor : Accessor :=
  { id := 0, type := ElementType.vec3, componentType := ComponentType.float,
    count := 3, array := [0, 0, 0, 1, 0, 0, 0, 1, 0] }

/-- NORMAL accessor of the spec's interleaving example (VEC3, F32,
count 3). -/
def normalAccessor : Accessor :=
  { id := 1, type := ElementType.vec3, componentType := ComponentType.float,
    count := 3, array := [0, 0, 1, 0, 0, 1, 0, 0, 1] }

/-- Witness for C7 at the POSITION+NORMAL example: the hypotheses hold, and
the conclusions instantiate to `byteStride=24`, `byteLength=72`,
target=34962, POSITION `byteOffset=0`, NORMAL `byteOffset=12`. -/
theorem C7_interleave_layout_witness :
    (([positionAccessor, normalAccessor] : List Accessor) ≠ [] ∧
      ∀ a ∈ [positionAccessor, normalAccessor],
        a.count = vertexCountOf [positionAccessor, normalAccessor]) ∧
    ((interleaveAccessors [positionAccessor, normalAccessor] 0 0 0
        0).bufferViewDef.byteStride = some 24 ∧
      (interleaveAccessors [positionAccessor, normalAccessor] 0 0 0
        0).bufferViewDef.byteLength = 72 ∧
      (interleaveAccessors [positionAccessor, normalAccessor] 0 0 0
        0).bufferViewDef.target = some 34962 ∧
      ((interleaveAccessors [positionAccessor, normalAccessor] 0 0 0
        0).accessorDefs.getD 0 dummyAccessorDef).byteOffset = 0 ∧
      ((interleaveAccessors [positionAccessor, normalAccessor] 0 0 0
        0).accessorDefs.getD 1 dummyAccessorDef).byteOffset = 12) := by
  obtain ⟨hs, hl, ht, _, _, _, hoff, _, _⟩ :=
    C7_interleave_layout [positionAccessor, normalAccessor] 0 0 0 0
      (by decide) (by decide)
  refine ⟨⟨by decide, by decide⟩, hs.trans (by decide), hl.trans (by decide),
    ht, (hoff 0 (by decide)).trans (by decide), (hoff 1 (by decide)).trans (by decide)⟩

/-! ## The writer pipeline

The writer's mutable `json` / lookup-table / resource state is threaded as
an explicit record.  JS `Map`s keyed by `JSON.stringify(def)` are modelled
as insertion-ordered association lists keyed by the def itself, which is a
canonical key because the defs are built field-by-field in one fixed shape.
The `resources` object is an insertion-ordered association list with
JS-object assignment semantics (`recordSet`). -/

/-- An input `Texture` (glTF image): MIME type (`""` models a falsy
`getMimeType()`), the byte length of `getImage()` (contents abstracted), and
an optional pre-set URI (`""` = unset). -/
structure Texture where
  common : PropertyCommon := {}
  mimeType : String := ""
  imageByteLength : Nat := 0
  uri : String := ""
deriving DecidableEq, Repr

/-- An input `Buffer` property.  Its accessors are the `Accessor`s whose
`buffer` field names this buffer's root-order index (its non-Root
`listParents()`, in root accessor order); a non-`Accessor` parent — which
the source rejects with "Unimplemented buffer reference" — cannot occur in
the model. -/
structure Buffer where
  common : PropertyCommon := {}
  uri : String := ""
deriving DecidableEq, Repr

/-- One occupied material texture slot: the root-order index of the
referenced `Texture` (which is exactly `imageIndexMap.get(texture)`, since
that map sends each root texture to its `listTextures()` position), the
`TextureInfo`'s texCoord, and the per-site `TextureSampler` data (0 models a
falsy `getMinFilter()`/`getMagFilter()`). -/
structure TextureSlot where
  texture : Nat
  texCoord : Nat := 0
  magFilter : Nat := 0
  minFilter : Nat := 0
  wrapS : Nat := 10497
  wrapT : Nat := 10497
deriving DecidableEq, Repr

/-- An input `Material`.  The five optional texture slots (baseColor,
emissive, normal, occlusion, metallicRoughness) are modelled as the ordered
list of the occupied ones, matching the order of the five emission blocks in
the source; factor/alpha fields are elided (no claim mentions them). -/
structure Material where
  common : PropertyCommon := {}
  textureSlots : List TextureSlot := []
deriving DecidableEq, Repr

/-- The input property graph, flattened to the root listings the writer
iterates.  Meshes, cameras, nodes, skins, animations and scenes are carried
as their `createPropertyDef` inputs only (their index-wiring fields are not
mentioned by any claim). -/
structure Document where
  accessors : List Accessor := []
  buffers : List Buffer := []
  textures : List Texture := []
  materials : List Material := []
  meshes : List PropertyCommon := []
  cameras : List PropertyCommon := []
  nodes : List PropertyCommon := []
  skins : List PropertyCommon := []
  animations : List PropertyCommon := []
  scenes : List PropertyCommon := []
deriving DecidableEq, Repr

/-- `WriterOptions` from the source. -/
structure WriterOptions where
  basename : String := "doc"
  isGLB : Bool
  embedded : Bool := false
deriving DecidableEq, Repr

/-- A buffer's `uri` JSON value: either a plain string, or the base64 data
URI `"data:application/octet-stream;base64," + base64(concat(segs))`
(the base64 text itself is abstracted, keeping the encoded segments). -/
inductive BufferURI where
  | plain (uri : String)
  | dataBase64 (segs : List ByteSeg)
deriving DecidableEq, Repr

/-- Image JSON definition. -/
structure ImageDef where
  base : PropertyDef := {}
  mimeType : Option String := none
  bufferView : Option Nat := none
  uri : Option String := none
deriving DecidableEq, Repr

/-- Buffer JSON definition. -/
structure BufferDef where
  base : PropertyDef := {}
  uri : Option BufferURI := none
  byteLength : Nat := 0
deriving DecidableEq, Repr

/-- Sampler JSON definition (`magFilter`/`minFilter` absent when the source
value is falsy; `wrapS`/`wrapT` stored verbatim). -/
structure SamplerDef where
  magFilter : Option Nat := none
  minFilter : Option Nat := none
  wrapS : Nat
  wrapT : Nat
deriving DecidableEq, Repr

/-- Texture JSON definition. -/
structure TextureDef where
  source : Nat
  sampler : Nat
deriving DecidableEq, Repr

/-- TextureInfo JSON definition. -/
structure TextureInfoDef where
  index : Nat
  texCoord : Nat
deriving DecidableEq, Repr

/-- Material JSON definition: the generic base plus the texture-info defs of
its occupied slots in emission order (factor fields elided, as on
`Material`). -/
structure MaterialDef where
  base : PropertyDef := {}
  textureSlots : List TextureInfoDef := []
deriving DecidableEq, Repr

/-- The root JSON object under construction. -/
structure JsonDoc where
  accessors : List AccessorDef := []
  bufferViews : List BufferViewDef := []
  samplers : List SamplerDef := []
  textures : List TextureDef := []
  images : List ImageDef := []
  buffers : List BufferDef := []
  materials : List MaterialDef := []
  meshes : List PropertyDef := []
  cameras : List PropertyDef := []
  nodes : List PropertyDef := []
  skins : List PropertyDef := []
  animations : List PropertyDef := []
  scenes : List PropertyDef := []
deriving DecidableEq, Repr

/-- The writer's output: JSON plus the named byte blobs. -/
structure NativeDocument where
  json : JsonDoc := {}
  resources : List (String × List ByteSeg) := []
deriving DecidableEq, Repr

/-- `UniqueURIGenerator` from the source. -/
structure UniqueURIGenerator where
  multiple : Bool
  basename : String
  counter : Nat := 1
deriving DecidableEq, Repr

/-- `createURI(object, extension)`: a pre-set URI wins; otherwise
`basename.ext`, or `basename_counter.ext` with a post-increment when the
generator serves multiple objects. -/
def UniqueURIGenerator.createURI (g : UniqueURIGenerator) (presetURI extension : String) :
    String × UniqueURIGenerator :=
  if presetURI ≠ "" then (presetURI, g)
  else if !g.multiple then (g.basename ++ "." ++ extension, g)
  else (g.basename ++ "_" ++ toString g.counter ++ "." ++ extension,
    { g with counter := g.counter + 1 })

/-- Modelled from the spec: `GLB_BUFFER`, the reserved sentinel URI of the
GLB-mode buffer, lives in the constants module, which is not part of this
snapshot; the spec fixes it as the string below. -/
def GLB_BUFFER : String := "@glb.bin"

/-- Modelled from the spec: `NAME`, the library name constant prefixed to
logger messages, also lives in the missing constants module; its exact value
is immaterial to every claim. -/
def NAME : String := "@gltf-transform/core"

/-- The logger message of the empty-buffer warning. -/
def warnEmptyBuffer (bufferName : String) : String :=
  NAME ++ ": Skipping empty buffer, \"" ++ bufferName ++ "\"."

/-- Association-list lookup (models `Map.get` under structural keys). -/
def assocGet {α β : Type} [DecidableEq α] : List (α × β) → α → Option β
  | [], _ => none
  | (k, v) :: rest, key => if k = key then some v else assocGet rest key

/-- JS-object assignment `obj[key] = v`: overwrite in place if the key
exists, else append. -/
def recordSet : List (String × List ByteSeg) → String → List ByteSeg →
    List (String × List ByteSeg)
  | [], key, v => [(key, v)]
  | (k, w) :: rest, key, v =>
    if k = key then (k, v) :: rest else (k, w) :: recordSet rest key v

/-- The writer's per-invocation mutable state. -/
structure Wst where
  json : JsonDoc := {}
  resources : List (String × List ByteSeg) := []
  logs : List String := []
  accessorIndexMap : List (Nat × Nat) := []
  samplerIndexMap : List (SamplerDef × Nat) := []
  textureIndexMap : List (TextureDef × Nat) := []
  imageData : List Nat := []
  bufferURIGen : UniqueURIGenerator
  imageURIGen : UniqueURIGenerator
deriving DecidableEq, Repr

/-! ### Textures section (image defs) -/

/-- Emit one image def (`json.images` map body).  GLB/embedded: reserve the
next buffer-view slot with placeholder `byteOffset := -1` and record the
image bytes for the buffer pass; external: generate a URI and record the
image bytes as a resource. -/
def emitImage (opts : WriterOptions) (st : Wst) (imageIndex : Nat) (texture : Texture) : Wst :=
  let d0 : ImageDef := { base := createPropertyDef texture.common }
  let d1 := if texture.mimeType ≠ "" then { d0 with mimeType := some texture.mimeType } else d0
  if opts.isGLB || opts.embedded then
    let d2 := { d1 with bufferView := some st.json.bufferViews.length }
    let view : BufferViewDef :=
      { buffer := 0, byteOffset := -1, byteLength := texture.imageByteLength }
    let json' := { st.json with
      images := st.json.images ++ [d2],
      bufferViews := st.json.bufferViews ++ [view] }
    { st with json := json', imageData := st.imageData ++ [texture.imageByteLength] }
  else
    let extension := if texture.mimeType = "image/png" then "png" else "jpeg"
    let gen := st.imageURIGen.createURI texture.uri extension
    let d2 := { d1 with uri := some gen.1 }
    let json' := { st.json with images := st.json.images ++ [d2] }
    let resources' :=
      recordSet st.resources gen.1 [ByteSeg.imageBytes imageIndex texture.imageByteLength]
    { st with json := json', resources := resources', imageURIGen := gen.2 }

/-- The `json.images = root.listTextures().map(...)` pass. -/
def emitImages (opts : WriterOptions) : Nat → List Texture → Wst → Wst
  | _, [], st => st
  | imageIndex, texture :: rest, st =>
    emitImages opts (imageIndex + 1) rest (emitImage opts st imageIndex texture)

/-! ### Accessor categorization (per buffer) -/

/-- Does a link come from a primitive attribute (`link instanceof
AttributeLink`)? -/
def isAttributeLink : LinkKind → Bool
  | LinkKind.attribute _ => true
  | _ => false

/-- Does a link come from primitive indices (`link instanceof IndexLink`)? -/
def isIndexLink : LinkKind → Bool
  | LinkKind.index => true
  | _ => false

/-- Any other link kind. -/
def isOtherLink : LinkKind → Bool
  | LinkKind.other => true
  | _ => false

/-- `accessorRefs[0].getParent() as Primitive`: the primitive of the first
link (in the branch that uses it, every link is an attribute link, so the
head is one). -/
def firstLinkPrimitive (links : List LinkKind) : Nat :=
  match links.head? with
  | some (LinkKind.attribute p) => p
  | _ => 0

/-- The fatal message thrown on a role conflict. -/
def roleErrorMessage : String :=
  "Attribute or index accessors must be used only for that purpose."

/-- `Set.add` under JS object identity (modelled by `Accessor.id`). -/
def setAdd (l : List Accessor) (accessor : Accessor) : List Accessor :=
  if l.any (fun b => b.id == accessor.id) then l else l ++ [accessor]

/-- Insert into the `Primitive → Set<Accessor>` map (insertion-ordered,
re-setting an existing key keeps its position, as a JS `Map` does). -/
def attrInsert : List (Nat × List Accessor) → Nat → Accessor → List (Nat × List Accessor)
  | [], p, accessor => [(p, [accessor])]
  | (q, accs) :: rest, p, accessor =>
    if q = p then (q, setAdd accs accessor) :: rest
    else (q, accs) :: attrInsert rest p accessor

/-- The three accessor groups of one buffer. -/
structure Categorized where
  indexAccessors : List Accessor := []
  attributeAccessors : List (Nat × List Accessor) := []
  otherAccessors : List Accessor := []
deriving DecidableEq, Repr

/-- The categorize loop over a buffer's parents: classify each accessor by
its link kinds (an unused accessor counts as "other"), and reject any
accessor falling into more than one of the three roles. -/
def categorizeLoop : List Accessor → Categorized → Except String Categorized
  | [], c => Except.ok c
  | parent :: rest, c =>
    let isAttribute := parent.links.any isAttributeLink
    let isIndex := parent.links.any isIndexLink
    let isOther0 := parent.links.any isOtherLink
    let isOther := isOther0 || (!isAttribute && !isIndex && !isOther0)
    if isAttribute && !isIndex && !isOther then
      categorizeLoop rest { c with
        attributeAccessors :=
          attrInsert c.attributeAccessors (firstLinkPrimitive parent.links) parent }
    else if isIndex && !isAttribute && !isOther then
      categorizeLoop rest { c with indexAccessors := setAdd c.indexAccessors parent }
    else if isOther && !isAttribute && !isIndex then
      categorizeLoop rest { c with otherAccessors := setAdd c.otherAccessors parent }
    else Except.error roleErrorMessage

/-- The non-Root parents of the buffer at a given root index. -/
def bufferParents (doc : Document) (rootIndex : Nat) : List Accessor :=
  doc.accessors.filter (fun a => a.buffer == rootIndex)

/-- Categorize one buffer's accessors. -/
def categorize (doc : Document) (rootIndex : Nat) : Except String Categorized :=
  categorizeLoop (bufferParents doc rootIndex) {}

/-! ### The per-buffer pipeline -/

/-- Merge a packer's output into the writer state (the `json.accessors` /
`json.bufferViews` / `accessorIndexMap` pushes both packers perform). -/
def applyPackResult (st : Wst) (defs : List AccessorDef) (entries : List (Nat × Nat))
    (view : BufferViewDef) : Wst :=
  let json' := { st.json with
    accessors := st.json.accessors ++ defs,
    bufferViews := st.json.bufferViews ++ [view] }
  { st with json := json', accessorIndexMap := st.accessorIndexMap ++ entries }

/-- One concatenation stage of the per-buffer pipeline (used for the index
group and for the "other" group): skipped when the group is empty (the
source's `if (...size)` guards), otherwise `concatAccessors` at the current
buffer byte offset, accumulating the byte length and the packed segments. -/
def concatStage (accessors : List Accessor) (bufferIndex : Nat) (target : Option Nat)
    (acc : Wst × Nat × List ByteSeg) : Wst × Nat × List ByteSeg :=
  if accessors.isEmpty then acc
  else
    let r := concatAccessors accessors bufferIndex acc.2.1 acc.1.json.accessors.length
      acc.1.json.bufferViews.length target
    (applyPackResult acc.1 r.accessorDefs r.indexEntries r.bufferViewDef,
      acc.2.1 + r.byteLength, acc.2.2 ++ r.segs)

/-- The `for (const primitiveAccessors of attributeAccessors.values())`
loop: interleave each (non-empty) primitive group. -/
def interleaveGroupsLoop (bufferIndex : Nat) :
    List (Nat × List Accessor) → Wst → Nat → List ByteSeg → Wst × Nat × List ByteSeg
  | [], st, byteLength, segs => (st, byteLength, segs)
  | (_, primitiveAccessors) :: rest, st, byteLength, segs =>
    if primitiveAccessors.isEmpty then
      interleaveGroupsLoop bufferIndex rest st byteLength segs
    else
      let r := interleaveAccessors primitiveAccessors bufferIndex byteLength
        st.json.accessors.length st.json.bufferViews.length
      let st' := applyPackResult st r.accessorDefs r.indexEntries r.bufferViewDef
      interleaveGroupsLoop bufferIndex rest st' (byteLength + r.byteLength)
        (segs ++ [ByteSeg.interleavedBytes r.byteLength])

/-- Overwrite the `byteOffset` of the view at one index (no-op out of
range, which the writer never hits). -/
def updateViewOffset : List BufferViewDef → Nat → Int → List BufferViewDef
  | [], _, _ => []
  | v :: rest, 0, off => { v with byteOffset := off } :: rest
  | v :: rest, Nat.succ k, off => v :: updateViewOffset rest k off

/-- The image-append loop at the end of each buffer iteration: for each
recorded image `i`, point `json.bufferViews[json.images[i].bufferView]` at
the current end of this buffer and append the image bytes. -/
def appendImageDataLoop : List Nat → List Nat → Nat → List BufferViewDef → Nat →
    List ByteSeg → List BufferViewDef × Nat × List ByteSeg
  | [], _, _, views, byteLength, segs => (views, byteLength, segs)
  | len :: rest, slots, i, views, byteLength, segs =>
    let views' := updateViewOffset views (slots.getD i 0) (byteLength : Int)
    appendImageDataLoop rest slots (i + 1) views' (byteLength + len)
      (segs ++ [ByteSeg.imageBytes i len])

/-- The three accessor packing stages of one buffer iteration: index
concat, per-primitive interleave, "other" concat, starting from byte
offset 0 and no segments. -/
def packBufferViews (c : Categorized) (bufferIndex : Nat) (st : Wst) :
    Wst × Nat × List ByteSeg :=
  let r1 := concatStage c.indexAccessors bufferIndex
    (some BufferViewTarget.ELEMENT_ARRAY_BUFFER) (st, 0, [])
  let r2 := interleaveGroupsLoop bufferIndex c.attributeAccessors r1.1 r1.2.1 r1.2.2
  concatStage c.otherAccessors bufferIndex none r2

/-- The image-append step of one buffer iteration (the source's
`if (imageData.length)` guard is dropped because the loop is a no-op on an
empty list). -/
def appendImagesStage (st : Wst) (byteLength : Nat) (segs : List ByteSeg) :
    Wst × Nat × List ByteSeg :=
  let slots := st.json.images.map (fun d => d.bufferView.getD 0)
  let r4 := appendImageDataLoop st.imageData slots 0 st.json.bufferViews byteLength segs
  ({ st with json := { st.json with bufferViews := r4.1 } }, r4.2.1, r4.2.2)

/-- The tail of one buffer iteration: skip-with-warning when the packed
byte length is zero; otherwise assign the URI (GLB sentinel or generated),
set `byteLength`, embed as a base64 data URI or record a resource, and push
the buffer def. -/
def finishBuffer (opts : WriterOptions) (buffer : Buffer) (st4 : Wst) (byteLength : Nat)
    (segs : List ByteSeg) : Wst :=
  if byteLength = 0 then
    { st4 with logs := st4.logs ++ [warnEmptyBuffer buffer.common.name] }
  else
    let bufferDef0 : BufferDef := { base := createPropertyDef buffer.common }
    let ug :=
      if opts.isGLB then (GLB_BUFFER, bufferDef0, st4.bufferURIGen)
      else
        let g := st4.bufferURIGen.createURI buffer.uri "bin"
        (g.1, { bufferDef0 with uri := some (BufferURI.plain g.1) }, g.2)
    let bufferDef2 := { ug.2.1 with byteLength := byteLength }
    let fin :=
      if opts.embedded then
        ({ bufferDef2 with uri := some (BufferURI.dataBase64 segs) }, st4.resources)
      else (bufferDef2, recordSet st4.resources ug.1 segs)
    let json' := { st4.json with buffers := st4.json.buffers ++ [fin.1] }
    { st4 with json := json', resources := fin.2, bufferURIGen := ug.2.2 }

/-- One iteration of the `root.listBuffers().forEach(...)` loop.
`rootIndex` locates the buffer's parents in the graph; the output buffer
index is `json.buffers.length`. -/
def processBuffer (doc : Document) (opts : WriterOptions) (rootIndex : Nat) (buffer : Buffer)
    (st : Wst) : Except String Wst :=
  match categorize doc rootIndex with
  | Except.error e => Except.error e
  | Except.ok c =>
    let r3 := packBufferViews c st.json.buffers.length st
    let r4 := appendImagesStage r3.1 r3.2.1 r3.2.2
    Except.ok (finishBuffer opts buffer r4.1 r4.2.1 r4.2.2)

/-- The buffers pass; a thrown role-conflict error aborts the whole loop. -/
def processBuffers (doc : Document) (opts : WriterOptions) :
    Nat → List Buffer → Wst → Except String Wst
  | _, [], st => Except.ok st
  | rootIndex, buffer :: rest, st =>
    match processBuffer doc opts rootIndex buffer st with
    | Except.error e => Except.error e
    | Except.ok st' => processBuffers doc opts (rootIndex + 1) rest st'

/-! ### Materials section -/

/-- `createTextureInfoDef(texture, textureInfo, textureSampler)`: build the
sampler def (falsy filters dropped), dedupe it by canonical key, build the
texture def `{source, sampler}`, dedupe it likewise, and return the
texture-info def. -/
def createTextureInfoDef (st : Wst) (slot : TextureSlot) : TextureInfoDef × Wst :=
  let samplerDef : SamplerDef :=
    { magFilter := if slot.magFilter = 0 then none else some slot.magFilter,
      minFilter := if slot.minFilter = 0 then none else some slot.minFilter,
      wrapS := slot.wrapS, wrapT := slot.wrapT }
  let st1 :=
    match assocGet st.samplerIndexMap samplerDef with
    | some _ => st
    | none =>
      let json' := { st.json with samplers := st.json.samplers ++ [samplerDef] }
      let map' := st.samplerIndexMap ++ [(samplerDef, st.json.samplers.length)]
      { st with json := json', samplerIndexMap := map' }
  let textureDef : TextureDef :=
    { source := slot.texture, sampler := (assocGet st1.samplerIndexMap samplerDef).getD 0 }
  let st2 :=
    match assocGet st1.textureIndexMap textureDef with
    | some _ => st1
    | none =>
      let json' := { st1.json with textures := st1.json.textures ++ [textureDef] }
      let map' := st1.textureIndexMap ++ [(textureDef, st1.json.textures.length)]
      { st1 with json := json', textureIndexMap := map' }
  ({ index := (assocGet st2.textureIndexMap textureDef).getD 0, texCoord := slot.texCoord }, st2)

/-- Process a material's occupied texture slots in emission order,
collecting the texture-info defs. -/
def runSlots : Wst → List TextureSlot → Wst × List TextureInfoDef
  | st, [] => (st, [])
  | st, slot :: rest =>
    let r := createTextureInfoDef st slot
    let r2 := runSlots r.2 rest
    (r2.1, r.1 :: r2.2)

/-- The `json.materials = root.listMaterials().map(...)` pass. -/
def emitMaterials : Wst → List Material → Wst
  | st, [] => st
  | st, material :: rest =>
    let r := runSlots st material.textureSlots
    let materialDef : MaterialDef :=
      { base := createPropertyDef material.common, textureSlots := r.2 }
    let json' := { r.1.json with materials := r.1.json.materials ++ [materialDef] }
    emitMaterials { r.1 with json := json' } rest

/-! ### The driver -/

/-- The writer's return value plus the messages sent to the document's
logger. -/
structure WriteResult where
  nativeDoc : NativeDocument
  logs : List String
deriving DecidableEq, Repr

/-- `GLTFWriter.write(doc, options)`.  Sections run in source order:
textures (image defs), buffers/buffer-views/accessors, materials, then the
remaining emitters (modelled at the generic-def level).  The final
`clean(json)` call is modelled separately on the JSON-object representation
(`clean` above): it deletes only top-level keys of the root object and never
edits the nested content every other claim reads, so the typed record is
returned un-cleaned. -/
def GLTFWriter.write (doc : Document) (opts : WriterOptions) : Except String WriteResult :=
  let numBuffers := doc.buffers.length
  let numImages := doc.textures.length
  let st0 : Wst :=
    { bufferURIGen := { multiple := decide (numBuffers > 1), basename := opts.basename },
      imageURIGen := { multiple := decide (numImages > 1), basename := opts.basename } }
  let st1 := emitImages opts 0 doc.textures st0
  match processBuffers doc opts 0 doc.buffers st1 with
  | Except.error e => Except.error e
  | Except.ok st2 =>
    let st3 := emitMaterials st2 doc.materials
    let json' := { st3.json with
      meshes := doc.meshes.map createPropertyDef,
      cameras := doc.cameras.map createPropertyDef,
      nodes := doc.nodes.map createPropertyDef,
      skins := doc.skins.map createPropertyDef,
      animations := doc.animations.map createPropertyDef,
      scenes := doc.scenes.map createPropertyDef }
    Except.ok { nativeDoc := { json := json', resources := st3.resources }, logs := st3.logs }

/-! ## Specification-side descriptions of the writer's output

These pure functions re-express, claim by claim, what the pipeline above
produces; the theorems below connect the two. -/

/-- Forget the layout fields a packer fills in, keeping what
`createAccessorDef` produced. -/
def eraseLayout (d : AccessorDef) : AccessorDef :=
  { d with bufferView := 0, byteOffset := 0 }

/-- The layout-independent shape of a buffer view: (buffer, byteLength,
byteStride, target). -/
def viewShape (v : BufferViewDef) : Nat × Nat × Option Nat × Option Nat :=
  (v.buffer, v.byteLength, v.byteStride, v.target)

/-- Placeholder view used as the default of `List.getD`. -/
def dummyView : BufferViewDef := { buffer := 0, byteOffset := 0, byteLength := 0 }

/-- Placeholder image def used as the default of `List.getD`. -/
def dummyImageDef : ImageDef := {}

/-- Placeholder buffer def used as the default of `List.getD`. -/
def dummyBufferDef : BufferDef := {}

/-- Total padded byte length of a concatenated accessor group. -/
def concatByteLength (accessors : List Accessor) : Nat :=
  (accessors.map accessorPaddedByteLength).sum

/-- Byte length of an interleaved group: `count × stride`. -/
def interleaveByteLength (accessors : List Accessor) : Nat :=
  vertexCountOf accessors * vertexPadSum accessors

/-- All accessors of one categorized buffer, in packing order: indices,
then each primitive's attributes, then the rest. -/
def catAccessors (c : Categorized) : List Accessor :=
  c.indexAccessors ++ c.attributeAccessors.flatMap (fun g => g.2) ++ c.otherAccessors

/-- The accessor buffer views one categorized buffer emits, as shapes, in
packing order. -/
def catViewShapes (c : Categorized) (outIndex : Nat) :
    List (Nat × Nat × Option Nat × Option Nat) :=
  (if c.indexAccessors.isEmpty then [] else
    [(outIndex, concatByteLength c.indexAccessors, (none : Option Nat),
      some BufferViewTarget.ELEMENT_ARRAY_BUFFER)]) ++
  (c.attributeAccessors.filter (fun g => !g.2.isEmpty)).map
    (fun g => (outIndex, interleaveByteLength g.2, some (vertexPadSum g.2),
      some BufferViewTarget.ARRAY_BUFFER)) ++
  (if c.otherAccessors.isEmpty then [] else
    [(outIndex, concatByteLength c.otherAccessors, (none : Option Nat), (none : Option Nat))])

/-- Total byte length of one categorized buffer's accessor views. -/
def categorizedByteLength (c : Categorized) : Nat :=
  concatByteLength c.indexAccessors
    + (c.attributeAccessors.map (fun g => interleaveByteLength g.2)).sum
    + concatByteLength c.otherAccessors

/-- The image byte lengths recorded during the textures pass:
`getImage().byteLength` per texture in GLB/embedded mode, nothing
otherwise. -/
def imageDataOf (doc : Document) (opts : WriterOptions) : List Nat :=
  if opts.isGLB || opts.embedded then doc.textures.map (fun t => t.imageByteLength) else []

/-- The packed byte length of the buffer at a root index: its accessor
views plus — in GLB/embedded mode, for every buffer, reflecting the
source's single-buffer assumption — all recorded image bytes. -/
def bufferPackedLength (doc : Document) (opts : WriterOptions) (rootIndex : Nat) : Nat :=
  match categorize doc rootIndex with
  | Except.ok c => categorizedByteLength c + (imageDataOf doc opts).sum
  | Except.error _ => 0

/-- The buffers that survive the empty-buffer skip, in root order. -/
def nonEmptyBuffers (doc : Document) (opts : WriterOptions) : Nat → List Buffer → List Buffer
  | _, [] => []
  | j, b :: rest =>
    (if bufferPackedLength doc opts j = 0 then [] else [b])
      ++ nonEmptyBuffers doc opts (j + 1) rest

/-- The buffers the writer skips with a warning, in root order. -/
def emptyBuffers (doc : Document) (opts : WriterOptions) : Nat → List Buffer → List Buffer
  | _, [] => []
  | j, b :: rest =>
    (if bufferPackedLength doc opts j = 0 then [b] else [])
      ++ emptyBuffers doc opts (j + 1) rest

/-- All accessors the buffers pass emits, in packing order across buffers
(the error case never contributes under the hypotheses that use this). -/
def packedAccessors (doc : Document) : Nat → List Buffer → List Accessor
  | _, [] => []
  | j, _ :: rest =>
    (match categorize doc j with
     | Except.ok c => catAccessors c
     | Except.error _ => []) ++ packedAccessors doc (j + 1) rest

/-- The accessor buffer-view shapes of the whole buffers pass, threading
the output buffer index past skipped buffers. -/
def viewShapes (doc : Document) (opts : WriterOptions) :
    Nat → List Buffer → Nat → List (Nat × Nat × Option Nat × Option Nat)
  | _, [], _ => []
  | j, _ :: rest, outIndex =>
    (match categorize doc j with
     | Except.ok c => catViewShapes c outIndex
     | Except.error _ => []) ++
    viewShapes doc opts (j + 1) rest
      (outIndex + (if bufferPackedLength doc opts j = 0 then 0 else 1))

/-- State equality outside the fields `applyPackResult` touches. -/
def sameExceptPack (st st' : Wst) : Prop :=
  st'.resources = st.resources ∧ st'.logs = st.logs ∧
  st'.json.buffers = st.json.buffers ∧ st'.json.images = st.json.images ∧
  st'.imageData = st.imageData ∧ st'.json.samplers = st.json.samplers ∧
  st'.json.textures = st.json.textures ∧ st'.json.materials = st.json.materials ∧
  st'.samplerIndexMap = st.samplerIndexMap ∧ st'.textureIndexMap = st.textureIndexMap ∧
  st'.bufferURIGen = st.bufferURIGen ∧ st'.imageURIGen = st.imageURIGen ∧
  st'.json.meshes = st.json.meshes ∧ st'.json.cameras = st.json.cameras ∧
  st'.json.nodes = st.json.nodes ∧ st'.json.skins = st.json.skins ∧
  st'.json.animations = st.json.animations ∧ st'.json.scenes = st.json.scenes

theorem sameExceptPack_refl (st : Wst) : sameExceptPack st st := by
  unfold sameExceptPack; repeat constructor

theorem sameExceptPack_trans {s1 s2 s3 : Wst} (h1 : sameExceptPack s1 s2)
    (h2 : sameExceptPack s2 s3) : sameExceptPack s1 s3 := by
  unfold sameExceptPack at h1 h2 ⊢
  obtain ⟨a1, a2, a3, a4, a5, a6, a7, a8, a9, a10, a11, a12, a13, a14, a15, a16, a17, a18⟩ := h1
  obtain ⟨b1, b2, b3, b4, b5, b6, b7, b8, b9, b10, b11, b12, b13, b14, b15, b16, b17, b18⟩ := h2
  exact ⟨b1.trans a1, b2.trans a2, b3.trans a3, b4.trans a4, b5.trans a5, b6.trans a6,
    b7.trans a7, b8.trans a8, b9.trans a9, b10.trans a10, b11.trans a11, b12.trans a12,
    b13.trans a13, b14.trans a14, b15.trans a15, b16.trans a16, b17.trans a17, b18.trans a18⟩

theorem applyPackResult_sameExceptPack (st : Wst) (defs : List AccessorDef)
    (entries : List (Nat × Nat)) (view : BufferViewDef) :
    sameExceptPack st (applyPackResult st defs entries view) := by
  unfold sameExceptPack applyPackResult; repeat constructor

/-! ## Stage lemmas for the buffers pass -/

theorem eraseLayout_assigned (a : Accessor) (v s : Nat) :
    eraseLayout { createAccessorDef a with bufferView := v, byteOffset := s }
      = createAccessorDef a := by
  simp [eraseLayout, createAccessorDef]

theorem concatLoop_defs_erase (accessors : List Accessor) (v b s : Nat) :
    (concatLoop accessors v b s).1.map eraseLayout = accessors.map createAccessorDef := by
  induction accessors generalizing b s with
  | nil => simp [concatLoop]
  | cons a rest ih => simp [concatLoop, ih, eraseLayout_assigned]

theorem concatLoop_total (accessors : List Accessor) (v b s : Nat) :
    (concatLoop accessors v b s).2.2.2 = s + concatByteLength accessors := by
  induction accessors generalizing b s with
  | nil => simp [concatLoop, concatByteLength]
  | cons a rest ih =>
    simp only [concatLoop, ih, concatByteLength, List.map_cons, List.sum_cons]
    omega

theorem concatLoop_length (accessors : List Accessor) (v b s : Nat) :
    (concatLoop accessors v b s).1.length = accessors.length := by
  induction accessors generalizing b s with
  | nil => simp [concatLoop]
  | cons a rest ih => simp [concatLoop, ih]

theorem concatAccessors_defs_erase (accessors : List Accessor)
    (bufferIndex bufferByteOffset accBase viewIndex : Nat) (target : Option Nat) :
    (concatAccessors accessors bufferIndex bufferByteOffset accBase viewIndex
        target).accessorDefs.map eraseLayout = accessors.map createAccessorDef := by
  simp [concatAccessors, concatLoop_defs_erase]

theorem concatAccessors_byteLength (accessors : List Accessor)
    (bufferIndex bufferByteOffset accBase viewIndex : Nat) (target : Option Nat) :
    (concatAccessors accessors bufferIndex bufferByteOffset accBase viewIndex
        target).byteLength = concatByteLength accessors := by
  simp [concatAccessors, concatLoop_total]

theorem concatAccessors_view (accessors : List Accessor)
    (bufferIndex bufferByteOffset accBase viewIndex : Nat) (target : Option Nat) :
    (concatAccessors accessors bufferIndex bufferByteOffset accBase viewIndex
        target).bufferViewDef
      = { buffer := bufferIndex, byteOffset := (bufferByteOffset : Int),
          byteLength := concatByteLength accessors, target := target } := by
  simp [concatAccessors, concatLoop_total]

theorem interleaveDefsLoop_defs_erase (accessors : List Accessor) (v b s : Nat) :
    (interleaveDefsLoop accessors v b s).1.map eraseLayout
      = accessors.map createAccessorDef := by
  induction accessors generalizing b s with
  | nil => simp [interleaveDefsLoop]
  | cons a rest ih => simp [interleaveDefsLoop, ih, eraseLayout_assigned]

theorem interleaveAccessors_defs_erase (accessors : List Accessor)
    (bufferIndex bufferByteOffset accBase viewIndex : Nat) :
    (interleaveAccessors accessors bufferIndex bufferByteOffset accBase
        viewIndex).accessorDefs.map eraseLayout = accessors.map createAccessorDef := by
  simp [interleaveAccessors, interleaveDefsLoop_defs_erase]

theorem interleaveAccessors_byteLength (accessors : List Accessor)
    (bufferIndex bufferByteOffset accBase viewIndex : Nat) :
    (interleaveAccessors accessors bufferIndex bufferByteOffset accBase
        viewIndex).byteLength = interleaveByteLength accessors := by
  have h := interleaveDefsLoop_stride accessors viewIndex accBase 0
  simp [interleaveAccessors, interleaveByteLength, h]

theorem interleaveAccessors_view (accessors : List Accessor)
    (bufferIndex bufferByteOffset accBase viewIndex : Nat) :
    (interleaveAccessors accessors bufferIndex bufferByteOffset accBase
        viewIndex).bufferViewDef
      = { buffer := bufferIndex, byteOffset := (bufferByteOffset : Int),
          byteLength := interleaveByteLength accessors,
          byteStride := some (vertexPadSum accessors),
          target := some BufferViewTarget.ARRAY_BUFFER } := by
  have h := interleaveDefsLoop_stride accessors viewIndex accBase 0
  simp [interleaveAccessors, interleaveByteLength, h]

/-- The buffer views the interleave stage appends, with their byte offsets,
as a function of the starting offset. -/
def groupViews (bufferIndex : Nat) : List (Nat × List Accessor) → Nat → List BufferViewDef
  | [], _ => []
  | (_, accs) :: rest, byteLength =>
    if accs.isEmpty then groupViews bufferIndex rest byteLength
    else
      { buffer := bufferIndex, byteOffset := (byteLength : Int),
        byteLength := interleaveByteLength accs, byteStride := some (vertexPadSum accs),
        target := some BufferViewTarget.ARRAY_BUFFER } ::
        groupViews bufferIndex rest (byteLength + interleaveByteLength accs)

theorem interleaveGroupsLoop_spec (bufferIndex : Nat) (groups : List (Nat × List Accessor))
    (st : Wst) (byteLength : Nat) (segs : List ByteSeg) :
    sameExceptPack st (interleaveGroupsLoop bufferIndex groups st byteLength segs).1 ∧
    (interleaveGroupsLoop bufferIndex groups st byteLength segs).1.json.accessors.map eraseLayout
      = st.json.accessors.map eraseLayout
        ++ (groups.flatMap (fun g => g.2)).map createAccessorDef ∧
    (interleaveGroupsLoop bufferIndex groups st byteLength segs).1.json.bufferViews
      = st.json.bufferViews ++ groupViews bufferIndex groups byteLength ∧
    (interleaveGroupsLoop bufferIndex groups st byteLength segs).2.1
      = byteLength + (groups.map (fun g => interleaveByteLength g.2)).sum := by
  induction groups generalizing st byteLength segs with
  | nil => exact ⟨sameExceptPack_refl st, by simp [interleaveGroupsLoop],
      by simp [interleaveGroupsLoop, groupViews], by simp [interleaveGroupsLoop]⟩
  | cons g rest ih =>
    obtain ⟨p, accs⟩ := g
    cases haccs : accs.isEmpty with
    | true =>
      have hnil : accs = [] := List.isEmpty_iff.mp haccs
      have hstep : interleaveGroupsLoop bufferIndex ((p, accs) :: rest) st byteLength segs
          = interleaveGroupsLoop bufferIndex rest st byteLength segs := by
        simp only [interleaveGroupsLoop, haccs]
        exact if_pos trivial
      have hgv : groupViews bufferIndex ((p, accs) :: rest) byteLength
          = groupViews bufferIndex rest byteLength := by
        simp only [groupViews, haccs]
        exact if_pos trivial
      obtain ⟨ih1, ih2, ih3, ih4⟩ := ih st byteLength segs
      refine ⟨?_, ?_, ?_, ?_⟩
      · rw [hstep]; exact ih1
      · rw [hstep, ih2]; simp [hnil]
      · rw [hstep, ih3, hgv]
      · rw [hstep, ih4]
        subst hnil
        simp [interleaveByteLength, vertexCountOf]
    | false =>
      set R := interleaveAccessors accs bufferIndex byteLength st.json.accessors.length
        st.json.bufferViews.length with hR
      set st' := applyPackResult st R.accessorDefs R.indexEntries R.bufferViewDef with hst'
      have hview := interleaveAccessors_view accs bufferIndex byteLength
        st.json.accessors.length st.json.bufferViews.length
      have hlen := interleaveAccessors_byteLength accs bufferIndex byteLength
        st.json.accessors.length st.json.bufferViews.length
      have hdefs := interleaveAccessors_defs_erase accs bufferIndex byteLength
        st.json.accessors.length st.json.bufferViews.length
      rw [← hR] at hview hlen hdefs
      have hstep : interleaveGroupsLoop bufferIndex ((p, accs) :: rest) st byteLength segs
          = interleaveGroupsLoop bufferIndex rest st' (byteLength + R.byteLength)
              (segs ++ [ByteSeg.interleavedBytes R.byteLength]) := by
        simp only [interleaveGroupsLoop, haccs]
        rfl
      have hgv : groupViews bufferIndex ((p, accs) :: rest) byteLength
          = { buffer := bufferIndex, byteOffset := (byteLength : Int),
              byteLength := interleaveByteLength accs,
              byteStride := some (vertexPadSum accs),
              target := some BufferViewTarget.ARRAY_BUFFER } ::
            groupViews bufferIndex rest (byteLength + interleaveByteLength accs) := by
        simp only [groupViews, haccs]
        exact if_neg (by simp)
      have hacc : st'.json.accessors = st.json.accessors ++ R.accessorDefs := rfl
      have hviews : st'.json.bufferViews = st.json.bufferViews ++ [R.bufferViewDef] := rfl
      obtain ⟨ih1, ih2, ih3, ih4⟩ := ih st' (byteLength + R.byteLength)
        (segs ++ [ByteSeg.interleavedBytes R.byteLength])
      refine ⟨?_, ?_, ?_, ?_⟩
      · rw [hstep]
        exact sameExceptPack_trans (applyPackResult_sameExceptPack st _ _ _) ih1
      · rw [hstep, ih2, hacc, List.map_append, hdefs]
        simp [List.append_assoc]
      · rw [hstep, ih3, hviews, hview, hgv, hlen]
        simp [List.append_assoc]
      · rw [hstep, ih4, hlen]
        simp only [List.map_cons, List.sum_cons]
        omega

/-! ## More stage lemmas: alignment, image append, concat stage -/

theorem concatByteLength_mod_four (accessors : List Accessor) :
    concatByteLength accessors % 4 = 0 := by
  induction accessors with
  | nil => simp [concatByteLength]
  | cons a rest ih =>
    simp only [concatByteLength, List.map_cons, List.sum_cons] at ih ⊢
    have hp : accessorPaddedByteLength a % 4 = 0 := by
      unfold accessorPaddedByteLength
      exact padNumber_mod_four _
    omega

theorem vertexPadSum_mod_four (accessors : List Accessor) :
    vertexPadSum accessors % 4 = 0 := by
  induction accessors with
  | nil => simp [vertexPadSum]
  | cons a rest ih =>
    simp only [vertexPadSum, List.map_cons, List.sum_cons] at ih ⊢
    have hp : vertexPad a % 4 = 0 := by
      unfold vertexPad
      exact padNumber_mod_four _
    omega

theorem interleaveByteLength_mod_four (accessors : List Accessor) :
    interleaveByteLength accessors % 4 = 0 := by
  have h := vertexPadSum_mod_four accessors
  unfold interleaveByteLength
  rw [Nat.mul_mod, h]
  simp

theorem getD_append_left {α : Type} (l1 l2 : List α) (n : Nat) (d : α) (h : n < l1.length) :
    (l1 ++ l2).getD n d = l1.getD n d := by
  induction l1 generalizing n with
  | nil => simp at h
  | cons a rest ih =>
    cases n with
    | zero => rfl
    | succ n => simpa using ih n (by simpa using h)

theorem getD_append_right {α : Type} (l1 l2 : List α) (n : Nat) (d : α) (h : l1.length ≤ n) :
    (l1 ++ l2).getD n d = l2.getD (n - l1.length) d := by
  induction l1 generalizing n with
  | nil => simp
  | cons a rest ih =>
    cases n with
    | zero => simp at h
    | succ n => simpa using ih n (by simpa using h)

theorem updateViewOffset_length (views : List BufferViewDef) (k : Nat) (off : Int) :
    (updateViewOffset views k off).length = views.length := by
  induction views generalizing k with
  | nil => rfl
  | cons v rest ih =>
    cases k with
    | zero => rfl
    | succ k => simpa [updateViewOffset] using ih k

theorem updateViewOffset_shape (views : List BufferViewDef) (k : Nat) (off : Int) :
    (updateViewOffset views k off).map viewShape = views.map viewShape := by
  induction views generalizing k with
  | nil => rfl
  | cons v rest ih =>
    cases k with
    | zero => simp [updateViewOffset, viewShape]
    | succ k => simpa [updateViewOffset] using ih k

theorem updateViewOffset_getD_ne (views : List BufferViewDef) (k m : Nat) (off : Int)
    (h : m ≠ k) : (updateViewOffset views k off).getD m dummyView = views.getD m dummyView := by
  induction views generalizing k m with
  | nil => rfl
  | cons v rest ih =>
    cases k with
    | zero =>
      cases m with
      | zero => exact absurd rfl h
      | succ m => rfl
    | succ k =>
      cases m with
      | zero => rfl
      | succ m => simpa [updateViewOffset] using ih k m (by omega)

theorem appendImageDataLoop_views_length (imageData slots : List Nat) (i : Nat)
    (views : List BufferViewDef) (byteLength : Nat) (segs : List ByteSeg) :
    (appendImageDataLoop imageData slots i views byteLength segs).1.length = views.length := by
  induction imageData generalizing i views byteLength segs with
  | nil => rfl
  | cons len rest ih =>
    simp [appendImageDataLoop, ih, updateViewOffset_length]

theorem appendImageDataLoop_shape (imageData slots : List Nat) (i : Nat)
    (views : List BufferViewDef) (byteLength : Nat) (segs : List ByteSeg) :
    (appendImageDataLoop imageData slots i views byteLength segs).1.map viewShape
      = views.map viewShape := by
  induction imageData generalizing i views byteLength segs with
  | nil => rfl
  | cons len rest ih =>
    simp [appendImageDataLoop, ih, updateViewOffset_shape]

theorem appendImageDataLoop_getD (imageData slots : List Nat) (i : Nat)
    (views : List BufferViewDef) (byteLength : Nat) (segs : List ByteSeg) (k : Nat)
    (h : ∀ n, n < imageData.length → slots.getD (i + n) 0 ≠ k) :
    (appendImageDataLoop imageData slots i views byteLength segs).1.getD k dummyView
      = views.getD k dummyView := by
  induction imageData generalizing i views byteLength segs with
  | nil => rfl
  | cons len rest ih =>
    have h0 : slots.getD i 0 ≠ k := by simpa using h 0 (by simp)
    have hrec : ∀ n, n < rest.length → slots.getD (i + 1 + n) 0 ≠ k := by
      intro n hn
      have := h (n + 1) (by simpa using Nat.succ_lt_succ hn)
      simpa [Nat.add_assoc, Nat.add_comm 1 n] using this
    simp only [appendImageDataLoop]
    rw [ih (i + 1) _ _ _ hrec, updateViewOffset_getD_ne _ _ _ _ (fun hk => h0 hk.symm)]

theorem appendImageDataLoop_byteLength (imageData slots : List Nat) (i : Nat)
    (views : List BufferViewDef) (byteLength : Nat) (segs : List ByteSeg) :
    (appendImageDataLoop imageData slots i views byteLength segs).2.1
      = byteLength + imageData.sum := by
  induction imageData generalizing i views byteLength segs with
  | nil => simp [appendImageDataLoop]
  | cons len rest ih =>
    simp only [appendImageDataLoop, ih, List.sum_cons]
    omega

theorem concatStage_spec (accessors : List Accessor) (bufferIndex : Nat) (target : Option Nat)
    (st : Wst) (byteLength : Nat) (segs : List ByteSeg) :
    sameExceptPack st (concatStage accessors bufferIndex target (st, byteLength, segs)).1 ∧
    (concatStage accessors bufferIndex target (st, byteLength, segs)).1.json.accessors.map
        eraseLayout
      = st.json.accessors.map eraseLayout ++ accessors.map createAccessorDef ∧
    (concatStage accessors bufferIndex target (st, byteLength, segs)).1.json.bufferViews
      = st.json.bufferViews ++
        (if accessors.isEmpty then [] else
          [{ buffer := bufferIndex, byteOffset := (byteLength : Int),
             byteLength := concatByteLength accessors, target := target }]) ∧
    (concatStage accessors bufferIndex target (st, byteLength, segs)).2.1
      = byteLength + concatByteLength accessors := by
  cases hacc : accessors.isEmpty with
  | true =>
    have hnil : accessors = [] := List.isEmpty_iff.mp hacc
    subst hnil
    refine ⟨?_, ?_, ?_, ?_⟩ <;> simp [concatStage, concatByteLength, sameExceptPack_refl]
  | false =>
    have hstep : concatStage accessors bufferIndex target (st, byteLength, segs)
        = (applyPackResult st
            (concatAccessors accessors bufferIndex byteLength st.json.accessors.length
              st.json.bufferViews.length target).accessorDefs
            (concatAccessors accessors bufferIndex byteLength st.json.accessors.length
              st.json.bufferViews.length target).indexEntries
            (concatAccessors accessors bufferIndex byteLength st.json.accessors.length
              st.json.bufferViews.length target).bufferViewDef,
          byteLength + (concatAccessors accessors bufferIndex byteLength
            st.json.accessors.length st.json.bufferViews.length target).byteLength,
          segs ++ (concatAccessors accessors bufferIndex byteLength st.json.accessors.length
            st.json.bufferViews.length target).segs) := by
      simp only [concatStage, hacc]
      exact if_neg (by simp)
    rw [hstep]
    refine ⟨applyPackResult_sameExceptPack st _ _ _, ?_, ?_, ?_⟩
    · show (st.json.accessors ++ _).map eraseLayout = _
      rw [List.map_append, concatAccessors_defs_erase]
    · show st.json.bufferViews ++ [_] = _
      rw [concatAccessors_view]
      simp [hacc]
    · show byteLength + _ = _
      rw [concatAccessors_byteLength]

/-- Every view the interleave stage appends is 4-byte aligned when the
starting offset is. -/
theorem groupViews_aligned (bufferIndex : Nat) (groups : List (Nat × List Accessor))
    (byteLength : Nat) (h4 : byteLength % 4 = 0) :
    ∀ v ∈ groupViews bufferIndex groups byteLength,
      0 ≤ v.byteOffset ∧ v.byteOffset % 4 = 0 := by
  induction groups generalizing byteLength with
  | nil => intro v hv; simp [groupViews] at hv
  | cons g rest ih =>
    obtain ⟨p, accs⟩ := g
    intro v hv
    cases hacc : accs.isEmpty with
    | true =>
      rw [groupViews, if_pos hacc] at hv
      exact ih byteLength h4 v hv
    | false =>
      rw [groupViews, if_neg (by simp [hacc])] at hv
      rcases List.mem_cons.mp hv with hv | hv
      · subst hv
        constructor
        · exact Int.ofNat_nonneg byteLength
        · show ((byteLength : Int)) % 4 = 0
          omega
      · have h4' : (byteLength + interleaveByteLength accs) % 4 = 0 := by
          have := interleaveByteLength_mod_four accs
          omega
        exact ih _ h4' v hv

/-- The shapes of the interleave stage's views do not depend on the
starting offset. -/
theorem groupViews_shape (bufferIndex : Nat) (groups : List (Nat × List Accessor))
    (byteLength : Nat) :
    (groupViews bufferIndex groups byteLength).map viewShape
      = (groups.filter (fun g => !g.2.isEmpty)).map
          (fun g => (bufferIndex, interleaveByteLength g.2, some (vertexPadSum g.2),
            some BufferViewTarget.ARRAY_BUFFER)) := by
  induction groups generalizing byteLength with
  | nil => simp [groupViews]
  | cons g rest ih =>
    obtain ⟨p, accs⟩ := g
    cases hacc : accs.isEmpty with
    | true =>
      rw [groupViews, if_pos hacc]
      rw [ih]
      simp [List.filter_cons, hacc]
    | false =>
      rw [groupViews, if_neg (by simp [hacc])]
      simp only [List.map_cons, ih]
      simp [List.filter_cons, hacc, viewShape]

/-! ## Per-stage specifications of one buffer iteration -/

/-- State equality on the fields one whole buffer iteration never touches. -/
def sameCore (st st' : Wst) : Prop :=
  st'.json.images = st.json.images ∧ st'.imageData = st.imageData ∧
  st'.json.samplers = st.json.samplers ∧ st'.json.textures = st.json.textures ∧
  st'.json.materials = st.json.materials ∧
  st'.samplerIndexMap = st.samplerIndexMap ∧ st'.textureIndexMap = st.textureIndexMap ∧
  st'.imageURIGen = st.imageURIGen ∧
  st'.json.meshes = st.json.meshes ∧ st'.json.cameras = st.json.cameras ∧
  st'.json.nodes = st.json.nodes ∧ st'.json.skins = st.json.skins ∧
  st'.json.animations = st.json.animations ∧ st'.json.scenes = st.json.scenes

theorem sameCore_refl (st : Wst) : sameCore st st := by
  unfold sameCore; repeat constructor

theorem sameCore_trans {s1 s2 s3 : Wst} (h1 : sameCore s1 s2) (h2 : sameCore s2 s3) :
    sameCore s1 s3 := by
  unfold sameCore at h1 h2 ⊢
  obtain ⟨a1, a2, a3, a4, a5, a6, a7, a8, a9, a10, a11, a12, a13, a14⟩ := h1
  obtain ⟨b1, b2, b3, b4, b5, b6, b7, b8, b9, b10, b11, b12, b13, b14⟩ := h2
  exact ⟨b1.trans a1, b2.trans a2, b3.trans a3, b4.trans a4, b5.trans a5, b6.trans a6,
    b7.trans a7, b8.trans a8, b9.trans a9, b10.trans a10, b11.trans a11, b12.trans a12,
    b13.trans a13, b14.trans a14⟩

theorem sameExceptPack_sameCore {st st' : Wst} (h : sameExceptPack st st') :
    sameCore st st' := by
  unfold sameExceptPack at h
  unfold sameCore
  obtain ⟨a1, a2, a3, a4, a5, a6, a7, a8, a9, a10, a11, a12, a13, a14, a15, a16, a17, a18⟩ := h
  exact ⟨a4, a5, a6, a7, a8, a9, a10, a12, a13, a14, a15, a16, a17, a18⟩

theorem getD_map {α β : Type} (f : α → β) (l : List α) (n : Nat) (d : α) :
    (l.map f).getD n (f d) = f (l.getD n d) := by
  induction l generalizing n with
  | nil => rfl
  | cons a rest ih =>
    cases n with
    | zero => rfl
    | succ n => simpa using ih n

theorem packBufferViews_spec (c : Categorized) (B : Nat) (st : Wst) :
    sameExceptPack st (packBufferViews c B st).1 ∧
    (packBufferViews c B st).1.json.accessors.map eraseLayout
      = st.json.accessors.map eraseLayout ++ (catAccessors c).map createAccessorDef ∧
    (∃ newViews, (packBufferViews c B st).1.json.bufferViews
        = st.json.bufferViews ++ newViews ∧
      newViews.map viewShape = catViewShapes c B ∧
      ∀ v ∈ newViews, 0 ≤ v.byteOffset ∧ v.byteOffset % 4 = 0) ∧
    (packBufferViews c B st).2.1 = categorizedByteLength c := by
  obtain ⟨s1same, s1acc, s1views, s1len⟩ := concatStage_spec c.indexAccessors B
    (some BufferViewTarget.ELEMENT_ARRAY_BUFFER) st 0 []
  set r1 := concatStage c.indexAccessors B
    (some BufferViewTarget.ELEMENT_ARRAY_BUFFER) (st, 0, ([] : List ByteSeg)) with hr1
  obtain ⟨s2same, s2acc, s2views, s2len⟩ :=
    interleaveGroupsLoop_spec B c.attributeAccessors r1.1 r1.2.1 r1.2.2
  set r2 := interleaveGroupsLoop B c.attributeAccessors r1.1 r1.2.1 r1.2.2 with hr2
  obtain ⟨s3same, s3acc, s3views, s3len⟩ := concatStage_spec c.otherAccessors B none
    r2.1 r2.2.1 r2.2.2
  have hpack : packBufferViews c B st = concatStage c.otherAccessors B none r2 := by
    rfl
  have hr2eta : (r2.1, r2.2.1, r2.2.2) = r2 := rfl
  rw [hr2eta] at s3same s3acc s3views s3len
  rw [hpack]
  refine ⟨?_, ?_, ?_, ?_⟩
  · exact sameExceptPack_trans (sameExceptPack_trans s1same s2same) s3same
  · rw [s3acc, s2acc, s1acc]
    simp [catAccessors, List.append_assoc]
  · refine ⟨(if c.indexAccessors.isEmpty then [] else
        [{ buffer := B, byteOffset := (0 : Int),
           byteLength := concatByteLength c.indexAccessors,
           target := some BufferViewTarget.ELEMENT_ARRAY_BUFFER }]) ++
      groupViews B c.attributeAccessors r1.2.1 ++
      (if c.otherAccessors.isEmpty then [] else
        [{ buffer := B, byteOffset := (r2.2.1 : Int),
           byteLength := concatByteLength c.otherAccessors, target := none }]), ?_, ?_, ?_⟩
    · rw [s3views, s2views, s1views]
      simp [List.append_assoc]
    · simp only [List.map_append, groupViews_shape, catViewShapes]
      congr 1
      · cases hi : c.indexAccessors.isEmpty <;> simp [viewShape]
      · congr 1
        cases ho : c.otherAccessors.isEmpty <;> simp [viewShape]
    · have h1mod : r1.2.1 % 4 = 0 := by
        rw [s1len]
        have := concatByteLength_mod_four c.indexAccessors
        omega
      intro v hv
      rcases List.mem_append.mp hv with hv | hv
      · rcases List.mem_append.mp hv with hv | hv
        · by_cases hi : c.indexAccessors.isEmpty = true
          · rw [if_pos hi] at hv
            simp at hv
          · rw [if_neg hi] at hv
            rcases List.mem_singleton.mp hv with rfl
            exact ⟨le_refl 0, rfl⟩
        · exact groupViews_aligned B c.attributeAccessors r1.2.1 h1mod v hv
      · have h2mod : r2.2.1 % 4 = 0 := by
          rw [s2len, s1len]
          have h0 := concatByteLength_mod_four c.indexAccessors
          have hsum : (c.attributeAccessors.map (fun g => interleaveByteLength g.2)).sum % 4
              = 0 := by
            induction c.attributeAccessors with
            | nil => simp
            | cons g rest ih =>
              simp only [List.map_cons, List.sum_cons]
              have := interleaveByteLength_mod_four g.2
              omega
          omega
        by_cases ho : c.otherAccessors.isEmpty = true
        · rw [if_pos ho] at hv
          simp at hv
        · rw [if_neg ho] at hv
          rcases List.mem_singleton.mp hv with rfl
          refine ⟨Int.ofNat_nonneg _, ?_⟩
          show ((r2.2.1 : Int)) % 4 = 0
          omega
  · rw [s3len, s2len, s1len]
    simp only [categorizedByteLength]
    omega

theorem appendImagesStage_spec (st : Wst) (byteLength : Nat) (segs : List ByteSeg)
    (himg : ∀ n, n < st.imageData.length →
      (st.json.images.getD n dummyImageDef).bufferView.getD 0 = n) :
    ∃ X, (appendImagesStage st byteLength segs).1
        = { st with json := { st.json with bufferViews := X } } ∧
      X.length = st.json.bufferViews.length ∧
      X.map viewShape = st.json.bufferViews.map viewShape ∧
      (∀ k, st.imageData.length ≤ k →
        X.getD k dummyView = st.json.bufferViews.getD k dummyView) ∧
      (appendImagesStage st byteLength segs).2.1 = byteLength + st.imageData.sum := by
  refine ⟨_, rfl, ?_, ?_, ?_, ?_⟩
  · exact appendImageDataLoop_views_length _ _ _ _ _ _
  · exact appendImageDataLoop_shape _ _ _ _ _ _
  · intro k hk
    refine appendImageDataLoop_getD _ _ _ _ _ _ _ ?_
    intro n hn
    have hs : (st.json.images.map (fun d => d.bufferView.getD 0)).getD (0 + n) 0
        = (st.json.images.getD (0 + n) dummyImageDef).bufferView.getD 0 :=
      getD_map (fun d => d.bufferView.getD 0) st.json.images (0 + n) dummyImageDef
    rw [hs, Nat.zero_add, himg n hn]
    omega
  · exact appendImageDataLoop_byteLength _ _ _ _ _ _

theorem finishBuffer_skip (opts : WriterOptions) (buffer : Buffer) (st4 : Wst)
    (segs : List ByteSeg) :
    finishBuffer opts buffer st4 0 segs
      = { st4 with logs := st4.logs ++ [warnEmptyBuffer buffer.common.name] } := by
  rw [finishBuffer, if_pos rfl]

theorem finishBuffer_glb_plain (buffer : Buffer) (st4 : Wst) (byteLength : Nat)
    (segs : List ByteSeg) (opts : WriterOptions) (hglb : opts.isGLB = true)
    (hemb : opts.embedded = false) (hnz : byteLength ≠ 0) :
    finishBuffer opts buffer st4 byteLength segs
      = { st4 with
          json := { st4.json with buffers := st4.json.buffers ++
            [{ base := createPropertyDef buffer.common, uri := none,
               byteLength := byteLength }] },
          resources := recordSet st4.resources GLB_BUFFER segs,
          bufferURIGen := st4.bufferURIGen } := by
  simp only [finishBuffer, if_neg hnz, hglb, hemb]
  rfl

theorem finishBuffer_embedded (buffer : Buffer) (st4 : Wst) (byteLength : Nat)
    (segs : List ByteSeg) (opts : WriterOptions) (hemb : opts.embedded = true)
    (hnz : byteLength ≠ 0) :
    ∃ gen, finishBuffer opts buffer st4 byteLength segs
      = { st4 with
          json := { st4.json with buffers := st4.json.buffers ++
            [{ base := createPropertyDef buffer.common,
               uri := some (BufferURI.dataBase64 segs),
               byteLength := byteLength }] },
          resources := st4.resources,
          bufferURIGen := gen } := by
  cases hglb : opts.isGLB with
  | true =>
    refine ⟨st4.bufferURIGen, ?_⟩
    simp only [finishBuffer, if_neg hnz, hglb, hemb]
    rfl
  | false =>
    refine ⟨(st4.bufferURIGen.createURI buffer.uri "bin").2, ?_⟩
    simp only [finishBuffer, if_neg hnz, hglb, hemb]
    rfl

theorem finishBuffer_external (buffer : Buffer) (st4 : Wst) (byteLength : Nat)
    (segs : List ByteSeg) (opts : WriterOptions) (hglb : opts.isGLB = false)
    (hemb : opts.embedded = false) (hnz : byteLength ≠ 0) :
    finishBuffer opts buffer st4 byteLength segs
      = { st4 with
          json := { st4.json with buffers := st4.json.buffers ++
            [{ base := createPropertyDef buffer.common,
               uri := some (BufferURI.plain
                 (st4.bufferURIGen.createURI buffer.uri "bin").1),
               byteLength := byteLength }] },
          resources := recordSet st4.resources
            (st4.bufferURIGen.createURI buffer.uri "bin").1 segs,
          bufferURIGen := (st4.bufferURIGen.createURI buffer.uri "bin").2 } := by
  simp only [finishBuffer, if_neg hnz, hglb, hemb]
  rfl

/-- The shape a freshly pushed buffer def's `uri` takes in each packaging
mode. -/
def bufferUriFacts (opts : WriterOptions) (d : BufferDef) : Prop :=
  (opts.embedded = true → ∃ sgs, d.uri = some (BufferURI.dataBase64 sgs)) ∧
  (opts.isGLB = true → opts.embedded = false → d.uri = none) ∧
  (opts.isGLB = false → opts.embedded = false → ∃ u, d.uri = some (BufferURI.plain u))

/-- `l.getD n d` is a member of `l` for an in-range index. -/
theorem getD_mem {α : Type} (l : List α) (n : Nat) (d : α) (h : n < l.length) :
    l.getD n d ∈ l := by
  induction l generalizing n with
  | nil => simp at h
  | cons a rest ih =>
    cases n with
    | zero => exact List.mem_cons_self a rest
    | succ n => exact List.mem_cons_of_mem a (ih n (by simpa using h))

theorem processBuffer_ok (doc : Document) (opts : WriterOptions) (rootIndex : Nat)
    (buffer : Buffer) (st : Wst) (c : Categorized)
    (hc : categorize doc rootIndex = Except.ok c)
    (hdata : st.imageData = imageDataOf doc opts)
    (himg : ∀ n, n < st.imageData.length →
      (st.json.images.getD n dummyImageDef).bufferView.getD 0 = n)
    (hlen : st.imageData.length ≤ st.json.bufferViews.length) :
    ∃ st', processBuffer doc opts rootIndex buffer st = Except.ok st' ∧
      sameCore st st' ∧
      st'.json.accessors.map eraseLayout
        = st.json.accessors.map eraseLayout ++ (catAccessors c).map createAccessorDef ∧
      (∃ newViews : List BufferViewDef,
        st'.json.bufferViews.length = st.json.bufferViews.length + newViews.length ∧
        st'.json.bufferViews.map viewShape
          = st.json.bufferViews.map viewShape ++ catViewShapes c st.json.buffers.length ∧
        (∀ k, st.imageData.length ≤ k → k < st.json.bufferViews.length →
          st'.json.bufferViews.getD k dummyView = st.json.bufferViews.getD k dummyView) ∧
        (∀ k, st.json.bufferViews.length ≤ k →
          st'.json.bufferViews.getD k dummyView
            = newViews.getD (k - st.json.bufferViews.length) dummyView) ∧
        (∀ v ∈ newViews, 0 ≤ v.byteOffset ∧ v.byteOffset % 4 = 0)) ∧
      (bufferPackedLength doc opts rootIndex = 0 →
        st'.json.buffers = st.json.buffers ∧
        st'.logs = st.logs ++ [warnEmptyBuffer buffer.common.name] ∧
        st'.resources = st.resources) ∧
      (bufferPackedLength doc opts rootIndex ≠ 0 →
        ∃ d, st'.json.buffers = st.json.buffers ++ [d] ∧
          d.base = createPropertyDef buffer.common ∧
          st'.logs = st.logs ∧
          bufferUriFacts opts d ∧
          (opts.embedded = true → st'.resources = st.resources) ∧
          (opts.embedded = false → ∃ u sgs,
            st'.resources = recordSet st.resources u sgs ∧
            (opts.isGLB = true → u = GLB_BUFFER))) := by
  have hrun : processBuffer doc opts rootIndex buffer st
      = Except.ok (finishBuffer opts buffer
          (appendImagesStage (packBufferViews c st.json.buffers.length st).1
            (packBufferViews c st.json.buffers.length st).2.1
            (packBufferViews c st.json.buffers.length st).2.2).1
          (appendImagesStage (packBufferViews c st.json.buffers.length st).1
            (packBufferViews c st.json.buffers.length st).2.1
            (packBufferViews c st.json.buffers.length st).2.2).2.1
          (appendImagesStage (packBufferViews c st.json.buffers.length st).1
            (packBufferViews c st.json.buffers.length st).2.1
            (packBufferViews c st.json.buffers.length st).2.2).2.2) := by
    simp only [processBuffer, hc]
  obtain ⟨psame, pacc, ⟨newViews, pviews, pshapes, palign⟩, plen⟩ :=
    packBufferViews_spec c st.json.buffers.length st
  set r3 := packBufferViews c st.json.buffers.length st with hr3
  obtain ⟨hres, hlogs, hbufs, himgs, hidata, hsampl, htex, hmat, hsmap, htmap, hbgen,
    higen, hmesh, hcam, hnod, hskin, hanim, hscene⟩ := psame
  have himg3 : ∀ n, n < r3.1.imageData.length →
      (r3.1.json.images.getD n dummyImageDef).bufferView.getD 0 = n := by
    intro n hn
    rw [hidata] at hn
    rw [himgs]
    exact himg n hn
  obtain ⟨X, hA1, hXlen, hXshape, hXpres, hAlen⟩ :=
    appendImagesStage_spec r3.1 r3.2.1 r3.2.2 himg3
  set r4 := appendImagesStage r3.1 r3.2.1 r3.2.2 with hr4
  have hbl : r4.2.1 = bufferPackedLength doc opts rootIndex := by
    rw [hAlen, plen, hidata, hdata]
    simp [bufferPackedLength, hc]
  -- facts shared by both branches, about st4 := r4.1
  have hst4acc : r4.1.json.accessors = r3.1.json.accessors := by rw [hA1]
  have hst4views : r4.1.json.bufferViews = X := by rw [hA1]
  have hst4bufs : r4.1.json.buffers = st.json.buffers := by rw [hA1]; exact hbufs
  have hst4logs : r4.1.logs = st.logs := by rw [hA1]; exact hlogs
  have hst4res : r4.1.resources = st.resources := by rw [hA1]; exact hres
  have hst4core : sameCore st r4.1 := by
    rw [hA1]
    exact ⟨himgs, hidata, hsampl, htex, hmat, hsmap, htmap, higen, hmesh, hcam, hnod,
      hskin, hanim, hscene⟩
  have hviewsFacts : ∃ nv : List BufferViewDef,
      X.length = st.json.bufferViews.length + nv.length ∧
      X.map viewShape
        = st.json.bufferViews.map viewShape ++ catViewShapes c st.json.buffers.length ∧
      (∀ k, st.imageData.length ≤ k → k < st.json.bufferViews.length →
        X.getD k dummyView = st.json.bufferViews.getD k dummyView) ∧
      (∀ k, st.json.bufferViews.length ≤ k →
        X.getD k dummyView = nv.getD (k - st.json.bufferViews.length) dummyView) ∧
      (∀ v ∈ nv, 0 ≤ v.byteOffset ∧ v.byteOffset % 4 = 0) := by
    refine ⟨newViews, ?_, ?_, ?_, ?_, palign⟩
    · rw [hXlen, pviews]
      simp
    · rw [hXshape, pviews, List.map_append, pshapes]
    · intro k h1 h2
      rw [hXpres k (by rw [hidata]; exact h1), pviews]
      exact getD_append_left _ _ _ _ h2
    · intro k h1
      rw [hXpres k (by rw [hidata]; exact le_trans hlen h1), pviews]
      exact getD_append_right _ _ _ _ h1
  rw [← hst4views] at hviewsFacts
  by_cases hpl : bufferPackedLength doc opts rootIndex = 0
  · -- empty buffer: warn and skip
    have hz : r4.2.1 = 0 := by rw [hbl, hpl]
    have hfin : finishBuffer opts buffer r4.1 r4.2.1 r4.2.2
        = { r4.1 with logs := r4.1.logs ++ [warnEmptyBuffer buffer.common.name] } := by
      rw [hz]
      exact finishBuffer_skip opts buffer r4.1 r4.2.2
    refine ⟨_, by rw [hrun, hfin], ?_, ?_, ?_, ?_, ?_⟩
    · refine sameCore_trans hst4core ?_
      exact ⟨rfl, rfl, rfl, rfl, rfl, rfl, rfl, rfl, rfl, rfl, rfl, rfl, rfl, rfl⟩
    · show r4.1.json.accessors.map eraseLayout = _
      rw [hst4acc]
      exact pacc
    · exact hviewsFacts
    · intro _
      refine ⟨hst4bufs, ?_, hst4res⟩
      show r4.1.logs ++ _ = _
      rw [hst4logs]
    · intro habs
      exact absurd hpl habs
  · -- non-empty buffer: push a def
    have hnz : r4.2.1 ≠ 0 := by rw [hbl]; exact hpl
    cases hemb : opts.embedded with
    | true =>
      obtain ⟨gen, hfin⟩ := finishBuffer_embedded buffer r4.1 r4.2.1 r4.2.2 opts hemb hnz
      refine ⟨_, by rw [hrun, hfin], ?_, ?_, ?_, ?_, ?_⟩
      · refine sameCore_trans hst4core ?_
        exact ⟨rfl, rfl, rfl, rfl, rfl, rfl, rfl, rfl, rfl, rfl, rfl, rfl, rfl, rfl⟩
      · show r4.1.json.accessors.map eraseLayout = _
        rw [hst4acc]
        exact pacc
      · exact hviewsFacts
      · intro habs
        exact absurd habs hpl
      · intro _
        refine ⟨{ base := createPropertyDef buffer.common,
                  uri := some (BufferURI.dataBase64 r4.2.2),
                  byteLength := r4.2.1 },
          ?_, rfl, ?_, ?_, ?_, ?_⟩
        · show r4.1.json.buffers ++ _ = _
          rw [hst4bufs]
        · exact hst4logs
        · exact ⟨fun _ => ⟨r4.2.2, rfl⟩, fun _ habs => by simp [hemb] at habs,
            fun _ habs => by simp [hemb] at habs⟩
        · intro _
          exact hst4res
        · intro habs
          simp at habs
    | false =>
      cases hglb : opts.isGLB with
      | true =>
        have hfin := finishBuffer_glb_plain buffer r4.1 r4.2.1 r4.2.2 opts hglb hemb hnz
        refine ⟨_, by rw [hrun, hfin], ?_, ?_, ?_, ?_, ?_⟩
        · refine sameCore_trans hst4core ?_
          exact ⟨rfl, rfl, rfl, rfl, rfl, rfl, rfl, rfl, rfl, rfl, rfl, rfl, rfl, rfl⟩
        · show r4.1.json.accessors.map eraseLayout = _
          rw [hst4acc]
          exact pacc
        · exact hviewsFacts
        · intro habs
          exact absurd habs hpl
        · intro _
          refine ⟨{ base := createPropertyDef buffer.common,
                    uri := none,
                    byteLength := r4.2.1 },
            ?_, rfl, ?_, ?_, ?_, ?_⟩
          · show r4.1.json.buffers ++ _ = _
            rw [hst4bufs]
          · exact hst4logs
          · exact ⟨fun habs => by simp [hemb] at habs, fun _ _ => rfl,
              fun habs _ => by simp [hglb] at habs⟩
          · intro habs
            simp at habs
          · intro _
            refine ⟨GLB_BUFFER, r4.2.2, ?_, fun _ => rfl⟩
            show recordSet r4.1.resources _ _ = _
            rw [hst4res]
      | false =>
        have hfin := finishBuffer_external buffer r4.1 r4.2.1 r4.2.2 opts hglb hemb hnz
        refine ⟨_, by rw [hrun, hfin], ?_, ?_, ?_, ?_, ?_⟩
        · refine sameCore_trans hst4core ?_
          exact ⟨rfl, rfl, rfl, rfl, rfl, rfl, rfl, rfl, rfl, rfl, rfl, rfl, rfl, rfl⟩
        · show r4.1.json.accessors.map eraseLayout = _
          rw [hst4acc]
          exact pacc
        · exact hviewsFacts
        · intro habs
          exact absurd habs hpl
        · intro _
          refine ⟨{ base := createPropertyDef buffer.common,
                    uri := some (BufferURI.plain
                      (r4.1.bufferURIGen.createURI buffer.uri "bin").1),
                    byteLength := r4.2.1 },
            ?_, rfl, ?_, ?_, ?_, ?_⟩
          · show r4.1.json.buffers ++ _ = _
            rw [hst4bufs]
          · exact hst4logs
          · refine ⟨fun habs => by simp [hemb] at habs,
              fun habs _ => by simp [hglb] at habs, fun _ _ => ⟨_, rfl⟩⟩
          · intro habs
            simp at habs
          · intro _
            refine ⟨(r4.1.bufferURIGen.createURI buffer.uri "bin").1, r4.2.2, ?_,
              fun habs => by simp [hglb] at habs⟩
            show recordSet r4.1.resources _ _ = _
            rw [hst4res]

theorem processBuffers_spec (doc : Document) (opts : WriterOptions) (bs : List Buffer)
    (j : Nat) (st : Wst)
    (hok : ∀ i, i < bs.length → (categorize doc (j + i)).isOk = true)
    (hdata : st.imageData = imageDataOf doc opts)
    (himg : ∀ n, n < st.imageData.length →
      (st.json.images.getD n dummyImageDef).bufferView.getD 0 = n)
    (hlen : st.imageData.length ≤ st.json.bufferViews.length) :
    ∃ st', processBuffers doc opts j bs st = Except.ok st' ∧
      sameCore st st' ∧
      st'.json.accessors.map eraseLayout
        = st.json.accessors.map eraseLayout
          ++ (packedAccessors doc j bs).map createAccessorDef ∧
      st'.json.bufferViews.map viewShape
        = st.json.bufferViews.map viewShape
          ++ viewShapes doc opts j bs st.json.buffers.length ∧
      (∀ k, st.imageData.length ≤ k → k < st.json.bufferViews.length →
        st'.json.bufferViews.getD k dummyView = st.json.bufferViews.getD k dummyView) ∧
      (∀ k, st.json.bufferViews.length ≤ k → k < st'.json.bufferViews.length →
        0 ≤ (st'.json.bufferViews.getD k dummyView).byteOffset ∧
        (st'.json.bufferViews.getD k dummyView).byteOffset % 4 = 0) ∧
      (∃ newDefs : List BufferDef, st'.json.buffers = st.json.buffers ++ newDefs ∧
        newDefs.map (fun d => d.base)
          = (nonEmptyBuffers doc opts j bs).map (fun b => createPropertyDef b.common) ∧
        ∀ d ∈ newDefs, bufferUriFacts opts d) ∧
      st'.logs = st.logs
        ++ (emptyBuffers doc opts j bs).map (fun b => warnEmptyBuffer b.common.name) ∧
      (∃ entries : List (String × List ByteSeg),
        st'.resources = entries.foldl (fun rs p => recordSet rs p.1 p.2) st.resources ∧
        entries.length
          = (if opts.embedded then 0 else (nonEmptyBuffers doc opts j bs).length) ∧
        (opts.isGLB = true → opts.embedded = false →
          ∀ p ∈ entries, p.1 = GLB_BUFFER)) := by
  induction bs generalizing j st with
  | nil =>
    refine ⟨st, rfl, sameCore_refl st, by simp [packedAccessors],
      by simp [viewShapes], fun k _ _ => rfl, fun k h1 h2 => absurd h2 (by omega),
      ⟨[], by simp, by simp [nonEmptyBuffers], by simp⟩,
      by simp [emptyBuffers], ⟨[], rfl, by simp [nonEmptyBuffers], by simp⟩⟩
  | cons b rest ih =>
    have h0 := hok 0 (by simp)
    rw [Nat.add_zero] at h0
    cases hcat : categorize doc j with
    | error e => rw [hcat] at h0; simp [Except.isOk, Except.toBool] at h0
    | ok c =>
      obtain ⟨st1, hpb, score, sacc, ⟨newViews, nvlen, nvshape, nvpres, nvget, nvalign⟩,
        hempty, hfull⟩ := processBuffer_ok doc opts j b st c hcat hdata himg hlen
      have scorec := score
      obtain ⟨cimgs, cidata, csampl, ctex, cmat, csmap, ctmap, cigen, cmesh, ccam, cnod,
        cskin, canim, cscene⟩ := scorec
      have hdata1 : st1.imageData = imageDataOf doc opts := by rw [cidata]; exact hdata
      have himg1 : ∀ n, n < st1.imageData.length →
          (st1.json.images.getD n dummyImageDef).bufferView.getD 0 = n := by
        intro n hn
        rw [cidata] at hn
        rw [cimgs]
        exact himg n hn
      have hlen1 : st1.imageData.length ≤ st1.json.bufferViews.length := by
        rw [cidata, nvlen]
        omega
      have hok1 : ∀ i, i < rest.length → (categorize doc (j + 1 + i)).isOk = true := by
        intro i hi
        have h := hok (i + 1) (by simpa using Nat.succ_lt_succ hi)
        have harith : j + (i + 1) = j + 1 + i := by omega
        rw [harith] at h
        exact h
      obtain ⟨st', hpbs, score2, sacc2, sviews2, spres2, salign2,
        ⟨restDefs, rbufs, rbase, rfacts⟩, slogs2, ⟨restEntries, rres, rlen, rkeys⟩⟩ :=
        ih (j + 1) st1 hok1 hdata1 himg1 hlen1
      have hrun : processBuffers doc opts j (b :: rest) st = Except.ok st' := by
        simp only [processBuffers, hpb, hpbs]
      have hn0n1 : st1.json.bufferViews.length
          = st.json.bufferViews.length + newViews.length := nvlen
      have hB1 : st1.json.buffers.length = st.json.buffers.length
          + (if bufferPackedLength doc opts j = 0 then 0 else 1) := by
        by_cases hpl : bufferPackedLength doc opts j = 0
        · rw [if_pos hpl]
          obtain ⟨hb, _, _⟩ := hempty hpl
          rw [hb]
          omega
        · rw [if_neg hpl]
          obtain ⟨d, hb, _⟩ := hfull hpl
          rw [hb]
          simp
      have hpa : packedAccessors doc j (b :: rest)
          = catAccessors c ++ packedAccessors doc (j + 1) rest := by
        simp [packedAccessors, hcat]
      have hvs : viewShapes doc opts j (b :: rest) st.json.buffers.length
          = catViewShapes c st.json.buffers.length
            ++ viewShapes doc opts (j + 1) rest (st.json.buffers.length
              + (if bufferPackedLength doc opts j = 0 then 0 else 1)) := by
        simp [viewShapes, hcat]
      refine ⟨st', hrun, sameCore_trans score score2, ?_, ?_, ?_, ?_, ?_, ?_, ?_⟩
      · rw [sacc2, sacc, hpa, List.map_append, List.append_assoc]
      · rw [sviews2, nvshape, hvs, ← hB1, List.append_assoc]
      · intro k h1 h2
        have e1 : st'.json.bufferViews.getD k dummyView
            = st1.json.bufferViews.getD k dummyView := by
          refine spres2 k ?_ ?_
          · rw [cidata]; exact h1
          · omega
        rw [e1]
        exact nvpres k h1 h2
      · intro k h1 h2
        by_cases hk : k < st1.json.bufferViews.length
        · have e1 : st'.json.bufferViews.getD k dummyView
              = st1.json.bufferViews.getD k dummyView := by
            refine spres2 k ?_ hk
            rw [cidata]
            omega
          have e2 : st1.json.bufferViews.getD k dummyView
              = newViews.getD (k - st.json.bufferViews.length) dummyView := nvget k h1
          have hmem : newViews.getD (k - st.json.bufferViews.length) dummyView
              ∈ newViews := getD_mem _ _ _ (by omega)
          rw [e1, e2]
          exact nvalign _ hmem
        · exact salign2 k (by omega) h2
      · by_cases hpl : bufferPackedLength doc opts j = 0
        · obtain ⟨hb1, _, _⟩ := hempty hpl
          refine ⟨restDefs, ?_, ?_, rfacts⟩
          · rw [rbufs, hb1]
          · rw [rbase]
            have hne : nonEmptyBuffers doc opts j (b :: rest)
                = nonEmptyBuffers doc opts (j + 1) rest := by
              simp [nonEmptyBuffers, hpl]
            rw [hne]
        · obtain ⟨d, hb1, hdbase, _, hduri, _, _⟩ := hfull hpl
          refine ⟨d :: restDefs, ?_, ?_, ?_⟩
          · rw [rbufs, hb1, List.append_assoc, List.singleton_append]
          · have hne : nonEmptyBuffers doc opts j (b :: rest)
                = b :: nonEmptyBuffers doc opts (j + 1) rest := by
              simp [nonEmptyBuffers, hpl]
            rw [hne, List.map_cons, List.map_cons, hdbase, rbase]
          · intro d' hd'
            rcases List.mem_cons.mp hd' with h | h
            · rw [h]; exact hduri
            · exact rfacts d' h
      · by_cases hpl : bufferPackedLength doc opts j = 0
        · obtain ⟨_, hl1, _⟩ := hempty hpl
          have hee : emptyBuffers doc opts j (b :: rest)
              = b :: emptyBuffers doc opts (j + 1) rest := by
            simp [emptyBuffers, hpl]
          rw [slogs2, hl1, hee, List.map_cons, List.append_assoc, List.singleton_append]
        · obtain ⟨d, _, _, hl1, _, _, _⟩ := hfull hpl
          have hee : emptyBuffers doc opts j (b :: rest)
              = emptyBuffers doc opts (j + 1) rest := by
            simp [emptyBuffers, hpl]
          rw [slogs2, hl1, hee]
      · by_cases hpl : bufferPackedLength doc opts j = 0
        · obtain ⟨_, _, hr1⟩ := hempty hpl
          have hne : nonEmptyBuffers doc opts j (b :: rest)
              = nonEmptyBuffers doc opts (j + 1) rest := by
            simp [nonEmptyBuffers, hpl]
          refine ⟨restEntries, ?_, ?_, rkeys⟩
          · rw [rres, hr1]
          · rw [rlen, hne]
        · obtain ⟨d, _, _, _, _, hresE, hresN⟩ := hfull hpl
          have hne : nonEmptyBuffers doc opts j (b :: rest)
              = b :: nonEmptyBuffers doc opts (j + 1) rest := by
            simp [nonEmptyBuffers, hpl]
          cases hemb : opts.embedded with
          | true =>
            refine ⟨restEntries, ?_, ?_, ?_⟩
            · rw [rres, hresE hemb]
            · rw [rlen]
              simp [hemb]
            · intro _ habs
              simp at habs
          | false =>
            obtain ⟨u, sgs, hres1, hglbkey⟩ := hresN hemb
            refine ⟨(u, sgs) :: restEntries, ?_, ?_, ?_⟩
            · rw [rres, hres1]
              rfl
            · rw [hne]
              simp only [List.length_cons, rlen, hemb, if_neg]
              simp
            · intro hg _
              intro p hp
              rcases List.mem_cons.mp hp with h | h
              · rw [h]
                exact hglbkey hg
              · exact rkeys hg hemb p h

/-! ## The role-conflict error path -/

/-- An accessor is classified into more than one of the roles {attribute,
index, other} exactly when none of the three exclusive branches of the
categorize loop applies; this mirrors the branch conditions verbatim
(`isOther` includes the unused-accessor default). -/
def hasRoleConflict (accessor : Accessor) : Bool :=
  let isAttribute := accessor.links.any isAttributeLink
  let isIndex := accessor.links.any isIndexLink
  let isOther0 := accessor.links.any isOtherLink
  let isOther := isOther0 || (!isAttribute && !isIndex && !isOther0)
  !((isAttribute && !isIndex && !isOther) || (isIndex && !isAttribute && !isOther)
    || (isOther && !isAttribute && !isIndex))

theorem categorizeLoop_step_conflict (p : Accessor) (rest : List Accessor)
    (acc : Categorized) (hp : hasRoleConflict p = true) :
    categorizeLoop (p :: rest) acc = Except.error roleErrorMessage := by
  revert hp
  cases hA : p.links.any isAttributeLink <;> cases hI : p.links.any isIndexLink <;>
    cases hO : p.links.any isOtherLink <;>
      simp [hasRoleConflict, categorizeLoop, hA, hI, hO]

theorem categorizeLoop_step_ok (p : Accessor) (rest : List Accessor) (acc : Categorized)
    (hp : hasRoleConflict p = false) :
    ∃ acc', categorizeLoop (p :: rest) acc = categorizeLoop rest acc' := by
  cases hA : p.links.any isAttributeLink <;> cases hI : p.links.any isIndexLink <;>
    cases hO : p.links.any isOtherLink
  · exact ⟨{ acc with otherAccessors := setAdd acc.otherAccessors p },
      by simp [categorizeLoop, hA, hI, hO]⟩
  · exact ⟨{ acc with otherAccessors := setAdd acc.otherAccessors p },
      by simp [categorizeLoop, hA, hI, hO]⟩
  · exact ⟨{ acc with indexAccessors := setAdd acc.indexAccessors p },
      by simp [categorizeLoop, hA, hI, hO]⟩
  · simp [hasRoleConflict, hA, hI, hO] at hp
  · have hstep : categorizeLoop (p :: rest) acc
        = categorizeLoop rest { acc with attributeAccessors := attrInsert acc.attributeAccessors (firstLinkPrimitive p.links) p } := by
      simp [categorizeLoop, hA, hI, hO]
    exact ⟨_, hstep⟩
  · simp [hasRoleConflict, hA, hI, hO] at hp
  · simp [hasRoleConflict, hA, hI, hO] at hp
  · simp [hasRoleConflict, hA, hI, hO] at hp

theorem categorizeLoop_error (parents : List Accessor) (acc : Categorized)
    (h : ∃ a ∈ parents, hasRoleConflict a = true) :
    categorizeLoop parents acc = Except.error roleErrorMessage := by
  induction parents generalizing acc with
  | nil => obtain ⟨a, ha, _⟩ := h; simp at ha
  | cons p rest ih =>
    obtain ⟨a, ha, hconf⟩ := h
    by_cases hp : hasRoleConflict p = true
    · exact categorizeLoop_step_conflict p rest acc hp
    · have hpf : hasRoleConflict p = false := by
        revert hp; cases hasRoleConflict p <;> simp
      rcases List.mem_cons.mp ha with rfl | hmem
      · exact absurd hconf hp
      · obtain ⟨acc', hstep⟩ := categorizeLoop_step_ok p rest acc hpf
        rw [hstep]
        exact ih acc' ⟨a, hmem, hconf⟩

theorem categorizeLoop_ok (parents : List Accessor) (acc : Categorized)
    (h : ∀ a ∈ parents, hasRoleConflict a = false) :
    ∃ c, categorizeLoop parents acc = Except.ok c := by
  induction parents generalizing acc with
  | nil => exact ⟨acc, rfl⟩
  | cons p rest ih =>
    obtain ⟨acc', hstep⟩ := categorizeLoop_step_ok p rest acc (h p (List.mem_cons_self p rest))
    rw [hstep]
    exact ih acc' (fun a ha => h a (List.mem_cons_of_mem p ha))

theorem categorize_error_of_conflict (doc : Document) (j : Nat)
    (h : ∃ a ∈ bufferParents doc j, hasRoleConflict a = true) :
    categorize doc j = Except.error roleErrorMessage :=
  categorizeLoop_error (bufferParents doc j) {} h

theorem processBuffers_error (doc : Document) (opts : WriterOptions) (bs : List Buffer)
    (j : Nat) (st : Wst)
    (h : ∃ i, i < bs.length ∧ ∃ a ∈ bufferParents doc (j + i), hasRoleConflict a = true) :
    processBuffers doc opts j bs st = Except.error roleErrorMessage := by
  induction bs generalizing j st with
  | nil =>
    obtain ⟨i, hi, _⟩ := h
    simp at hi
  | cons b rest ih =>
    by_cases h0 : ∃ a ∈ bufferParents doc j, hasRoleConflict a = true
    · have hcat := categorize_error_of_conflict doc j h0
      simp only [processBuffers, processBuffer, hcat]
    · have hall : ∀ a ∈ bufferParents doc j, hasRoleConflict a = false := by
        intro a ha
        by_contra hcontra
        exact h0 ⟨a, ha, by revert hcontra; cases hasRoleConflict a <;> simp⟩
      obtain ⟨c, hcat⟩ := categorizeLoop_ok (bufferParents doc j) {} hall
      have hcat' : categorize doc j = Except.ok c := hcat
      have hpb : processBuffer doc opts j b st
          = Except.ok (finishBuffer opts b
              (appendImagesStage (packBufferViews c st.json.buffers.length st).1
                (packBufferViews c st.json.buffers.length st).2.1
                (packBufferViews c st.json.buffers.length st).2.2).1
              (appendImagesStage (packBufferViews c st.json.buffers.length st).1
                (packBufferViews c st.json.buffers.length st).2.1
                (packBufferViews c st.json.buffers.length st).2.2).2.1
              (appendImagesStage (packBufferViews c st.json.buffers.length st).1
                (packBufferViews c st.json.buffers.length st).2.1
                (packBufferViews c st.json.buffers.length st).2.2).2.2) := by
        simp only [processBuffer, hcat']
      simp only [processBuffers, hpb]
      apply ih
      obtain ⟨i, hi, hconf⟩ := h
      cases i with
      | zero =>
        rw [Nat.add_zero] at hconf
        exact absurd hconf h0
      | succ i =>
        refine ⟨i, by simpa using hi, ?_⟩
        have harith : j + (i + 1) = j + 1 + i := by omega
        rw [← harith]
        exact hconf

/-! ## The textures (image) pass -/

/-- State equality on the fields the textures pass never touches. -/
def sameExceptImages (st st' : Wst) : Prop :=
  st'.json.accessors = st.json.accessors ∧ st'.json.buffers = st.json.buffers ∧
  st'.json.samplers = st.json.samplers ∧ st'.json.textures = st.json.textures ∧
  st'.json.materials = st.json.materials ∧ st'.logs = st.logs ∧
  st'.accessorIndexMap = st.accessorIndexMap ∧ st'.samplerIndexMap = st.samplerIndexMap ∧
  st'.textureIndexMap = st.textureIndexMap ∧ st'.bufferURIGen = st.bufferURIGen ∧
  st'.json.meshes = st.json.meshes ∧ st'.json.cameras = st.json.cameras ∧
  st'.json.nodes = st.json.nodes ∧ st'.json.skins = st.json.skins ∧
  st'.json.animations = st.json.animations ∧ st'.json.scenes = st.json.scenes

theorem sameExceptImages_refl (st : Wst) : sameExceptImages st st := by
  unfold sameExceptImages; repeat constructor

theorem sameExceptImages_trans {s1 s2 s3 : Wst} (h1 : sameExceptImages s1 s2)
    (h2 : sameExceptImages s2 s3) : sameExceptImages s1 s3 := by
  unfold sameExceptImages at h1 h2 ⊢
  obtain ⟨a1, a2, a3, a4, a5, a6, a7, a8, a9, a10, a11, a12, a13, a14, a15, a16⟩ := h1
  obtain ⟨b1, b2, b3, b4, b5, b6, b7, b8, b9, b10, b11, b12, b13, b14, b15, b16⟩ := h2
  exact ⟨b1.trans a1, b2.trans a2, b3.trans a3, b4.trans a4, b5.trans a5, b6.trans a6,
    b7.trans a7, b8.trans a8, b9.trans a9, b10.trans a10, b11.trans a11, b12.trans a12,
    b13.trans a13, b14.trans a14, b15.trans a15, b16.trans a16⟩

theorem emitImage_glb (opts : WriterOptions) (st : Wst) (i : Nat) (t : Texture)
    (hmode : (opts.isGLB || opts.embedded) = true) :
    ∃ d2 : ImageDef, emitImage opts st i t
        = { st with
            json := { st.json with
              images := st.json.images ++ [d2],
              bufferViews := st.json.bufferViews ++
                [{ buffer := 0, byteOffset := -1, byteLength := t.imageByteLength }] },
            imageData := st.imageData ++ [t.imageByteLength] } ∧
      d2.base = createPropertyDef t.common ∧
      d2.bufferView = some st.json.bufferViews.length := by
  by_cases hmime : t.mimeType ≠ ""
  · refine ⟨⟨createPropertyDef t.common, some t.mimeType, some st.json.bufferViews.length, none⟩, ?_, rfl, rfl⟩
    simp only [emitImage, hmode, if_pos hmime]
    rfl
  · refine ⟨⟨createPropertyDef t.common, none, some st.json.bufferViews.length, none⟩, ?_, rfl, rfl⟩
    simp only [emitImage, hmode, if_neg hmime]
    rfl

theorem emitImage_ext (opts : WriterOptions) (st : Wst) (i : Nat) (t : Texture)
    (hmode : (opts.isGLB || opts.embedded) = false) :
    ∃ d2 uriStr gen, emitImage opts st i t
        = { st with
            json := { st.json with images := st.json.images ++ [d2] },
            resources := recordSet st.resources uriStr
              [ByteSeg.imageBytes i t.imageByteLength],
            imageURIGen := gen } ∧
      d2.base = createPropertyDef t.common := by
  by_cases hmime : t.mimeType ≠ ""
  · refine ⟨⟨createPropertyDef t.common, some t.mimeType, none, some (st.imageURIGen.createURI t.uri (if t.mimeType = "image/png" then "png" else "jpeg")).1⟩, (st.imageURIGen.createURI t.uri (if t.mimeType = "image/png" then "png" else "jpeg")).1, (st.imageURIGen.createURI t.uri (if t.mimeType = "image/png" then "png" else "jpeg")).2, ?_, rfl⟩
    simp only [emitImage, hmode, if_pos hmime]
    rfl
  · refine ⟨⟨createPropertyDef t.common, none, none, some (st.imageURIGen.createURI t.uri (if t.mimeType = "image/png" then "png" else "jpeg")).1⟩, (st.imageURIGen.createURI t.uri (if t.mimeType = "image/png" then "png" else "jpeg")).1, (st.imageURIGen.createURI t.uri (if t.mimeType = "image/png" then "png" else "jpeg")).2, ?_, rfl⟩
    simp only [emitImage, hmode, if_neg hmime]
    rfl

theorem emitImages_spec (opts : WriterOptions) (ts : List Texture) (i : Nat) (st : Wst) :
    sameExceptImages st (emitImages opts i ts st) ∧
    (emitImages opts i ts st).json.images.map (fun d => d.base)
      = st.json.images.map (fun d => d.base)
        ++ ts.map (fun t => createPropertyDef t.common) ∧
    (∃ newImgs : List ImageDef,
      (emitImages opts i ts st).json.images = st.json.images ++ newImgs ∧
      newImgs.length = ts.length) ∧
    ((opts.isGLB || opts.embedded) = true →
      (emitImages opts i ts st).imageData
        = st.imageData ++ ts.map (fun t => t.imageByteLength) ∧
      (emitImages opts i ts st).json.bufferViews
        = st.json.bufferViews ++ ts.map (fun t =>
            ({ buffer := 0, byteOffset := -1,
               byteLength := t.imageByteLength } : BufferViewDef)) ∧
      (∀ k, k < ts.length →
        ((emitImages opts i ts st).json.images.getD (st.json.images.length + k)
          dummyImageDef).bufferView = some (st.json.bufferViews.length + k)) ∧
      (emitImages opts i ts st).resources = st.resources) ∧
    ((opts.isGLB || opts.embedded) = false →
      (emitImages opts i ts st).imageData = st.imageData ∧
      (emitImages opts i ts st).json.bufferViews = st.json.bufferViews ∧
      (∃ entries : List (String × List ByteSeg),
        (emitImages opts i ts st).resources
          = entries.foldl (fun rs p => recordSet rs p.1 p.2) st.resources ∧
        entries.length = ts.length)) := by
  induction ts generalizing i st with
  | nil =>
    exact ⟨sameExceptImages_refl st, by simp [emitImages], ⟨[], by simp [emitImages], rfl⟩,
      fun _ => ⟨by simp [emitImages], by simp [emitImages], fun k hk => by simp at hk,
        by simp [emitImages]⟩,
      fun _ => ⟨by simp [emitImages], by simp [emitImages], ⟨[], by simp [emitImages], rfl⟩⟩⟩
  | cons t rest ih =>
    have hstep : emitImages opts i (t :: rest) st
        = emitImages opts (i + 1) rest (emitImage opts st i t) := rfl
    cases hmode : (opts.isGLB || opts.embedded) with
    | true =>
      obtain ⟨d2, he, hdbase, hdview⟩ := emitImage_glb opts st i t hmode
      set st1 := emitImage opts st i t with hst1
      obtain ⟨ihsame, ihbase, ⟨newImgs, ihimgs, ihlen⟩, ihglb, _⟩ := ih (i + 1) st1
      obtain ⟨gdata, gviews, gslots, gres⟩ := ihglb hmode
      have hsame1 : sameExceptImages st st1 := by
        rw [he]
        exact ⟨rfl, rfl, rfl, rfl, rfl, rfl, rfl, rfl, rfl, rfl, rfl, rfl, rfl, rfl, rfl, rfl⟩
      have h1imgs : st1.json.images = st.json.images ++ [d2] := by rw [he]
      have h1views : st1.json.bufferViews = st.json.bufferViews ++
          [{ buffer := 0, byteOffset := -1, byteLength := t.imageByteLength }] := by rw [he]
      have h1data : st1.imageData = st.imageData ++ [t.imageByteLength] := by rw [he]
      have h1res : st1.resources = st.resources := by rw [he]
      rw [hstep]
      refine ⟨sameExceptImages_trans hsame1 ihsame, ?_, ?_, ?_, ?_⟩
      · rw [ihbase, h1imgs]
        simp [hdbase]
      · refine ⟨d2 :: newImgs, ?_, by simp [ihlen]⟩
        rw [ihimgs, h1imgs, List.append_assoc, List.singleton_append]
      · intro _
        refine ⟨?_, ?_, ?_, ?_⟩
        · rw [gdata, h1data]
          simp
        · rw [gviews, h1views]
          simp
        · intro k hk
          cases k with
          | zero =>
            have hin : st.json.images.length < st1.json.images.length := by
              rw [h1imgs]
              simp
            have : (emitImages opts (i + 1) rest st1).json.images.getD
                (st.json.images.length + 0) dummyImageDef
                = st1.json.images.getD st.json.images.length dummyImageDef := by
              rw [ihimgs, Nat.add_zero]
              exact getD_append_left _ _ _ _ hin
            rw [this, h1imgs, getD_append_right _ _ _ _ (le_refl _), Nat.sub_self]
            simpa using hdview
          | succ k =>
            have harith1 : st.json.images.length + (k + 1)
                = st1.json.images.length + k := by
              rw [h1imgs]
              simp
              omega
            have harith2 : st1.json.bufferViews.length + k
                = st.json.bufferViews.length + (k + 1) := by
              rw [h1views]
              simp
              omega
            rw [harith1, gslots k (by simpa using hk), harith2]
        · rw [gres, h1res]
      · intro habs
        exact absurd habs (by simp [hmode])
    | false =>
      obtain ⟨d2, uriStr, gen, he, hdbase⟩ := emitImage_ext opts st i t hmode
      set st1 := emitImage opts st i t with hst1
      obtain ⟨ihsame, ihbase, ⟨newImgs, ihimgs, ihlen⟩, _, ihext⟩ := ih (i + 1) st1
      obtain ⟨gdata, gviews, ⟨entries, gres, glen⟩⟩ := ihext hmode
      have hsame1 : sameExceptImages st st1 := by
        rw [he]
        exact ⟨rfl, rfl, rfl, rfl, rfl, rfl, rfl, rfl, rfl, rfl, rfl, rfl, rfl, rfl, rfl, rfl⟩
      have h1imgs : st1.json.images = st.json.images ++ [d2] := by rw [he]
      have h1views : st1.json.bufferViews = st.json.bufferViews := by rw [he]
      have h1data : st1.imageData = st.imageData := by rw [he]
      have h1res : st1.resources = recordSet st.resources uriStr
          [ByteSeg.imageBytes i t.imageByteLength] := by rw [he]
      rw [hstep]
      refine ⟨sameExceptImages_trans hsame1 ihsame, ?_, ?_, ?_, ?_⟩
      · rw [ihbase, h1imgs]
        simp [hdbase]
      · refine ⟨d2 :: newImgs, ?_, by simp [ihlen]⟩
        rw [ihimgs, h1imgs, List.append_assoc, List.singleton_append]
      · intro habs
        exact absurd habs (by simp [hmode])
      · intro _
        refine ⟨?_, ?_, ?_⟩
        · rw [gdata, h1data]
        · rw [gviews, h1views]
        · refine ⟨(uriStr, [ByteSeg.imageBytes i t.imageByteLength]) :: entries, ?_,
            by simp [glen]⟩
          rw [gres, h1res]
          rfl

/-! ## The materials pass: sampler/texture dedup -/

/-- The sampler definition a texture slot produces (falsy filters
dropped). -/
def slotSamplerDef (slot : TextureSlot) : SamplerDef :=
  { magFilter := if slot.magFilter = 0 then none else some slot.magFilter,
    minFilter := if slot.minFilter = 0 then none else some slot.minFilter,
    wrapS := slot.wrapS, wrapT := slot.wrapT }

/-- The association list a dedup map holds when the defs list was built by
appending: entry `x_k` maps to index `i + k`. -/
def indexMapFrom {α : Type} : Nat → List α → List (α × Nat)
  | _, [] => []
  | i, x :: xs => (x, i) :: indexMapFrom (i + 1) xs

/-- Index of the first occurrence of `a` in `l`. -/
def firstIdx {α : Type} [DecidableEq α] : List α → α → Option Nat
  | [], _ => none
  | x :: xs, a => if x = a then some 0 else (firstIdx xs a).map (· + 1)

theorem indexMapFrom_append {α : Type} (i : Nat) (l : List α) (d : α) :
    indexMapFrom i (l ++ [d]) = indexMapFrom i l ++ [(d, i + l.length)] := by
  induction l generalizing i with
  | nil => simp [indexMapFrom]
  | cons x xs ih =>
    simp only [List.cons_append, indexMapFrom, List.append_eq]
    rw [ih (i + 1)]
    have harith : i + 1 + xs.length = i + (xs.length + 1) := by omega
    simp [harith]

theorem assocGet_indexMapFrom {α : Type} [DecidableEq α] (i : Nat) (l : List α) (a : α) :
    assocGet (indexMapFrom i l) a = (firstIdx l a).map (· + i) := by
  induction l generalizing i with
  | nil => rfl
  | cons x xs ih =>
    simp only [indexMapFrom, assocGet, firstIdx]
    by_cases hx : x = a
    · rw [if_pos hx, if_pos hx]
      simp
    · rw [if_neg hx, if_neg hx, ih (i + 1)]
      cases firstIdx xs a with
      | none => rfl
      | some j => simp [Option.map]; omega

theorem firstIdx_eq_none_iff {α : Type} [DecidableEq α] (l : List α) (a : α) :
    firstIdx l a = none ↔ a ∉ l := by
  induction l with
  | nil => simp [firstIdx]
  | cons x xs ih =>
    simp only [firstIdx, List.mem_cons]
    by_cases hx : x = a
    · simp [if_pos hx, hx]
    · simp only [if_neg hx]
      cases hfi : firstIdx xs a with
      | none =>
        simp only [Option.map_none']
        constructor
        · intro _
          intro hc
          rcases hc with hc | hc
          · exact hx hc.symm
          · exact (ih.mp hfi) hc
        · intro _
          trivial
      | some j =>
        simp only [Option.map_some']
        constructor
        · intro hc
          cases hc
        · intro hc
          exfalso
          have : a ∈ xs := by
            by_contra hm
            rw [(ih.mpr hm)] at hfi
            cases hfi
          exact hc (Or.inr this)

theorem firstIdx_append_of_mem {α : Type} [DecidableEq α] (l e : List α) (a : α)
    (h : a ∈ l) : firstIdx (l ++ e) a = firstIdx l a := by
  induction l with
  | nil => simp at h
  | cons x xs ih =>
    simp only [List.cons_append, firstIdx, List.append_eq]
    by_cases hx : x = a
    · rw [if_pos hx, if_pos hx]
    · rw [if_neg hx, if_neg hx]
      have hm : a ∈ xs := by
        rcases List.mem_cons.mp h with hc | hc
        · exact absurd hc.symm hx
        · exact hc
      rw [ih hm]

theorem firstIdx_append_self {α : Type} [DecidableEq α] (l : List α) (a : α)
    (h : a ∉ l) : firstIdx (l ++ [a]) a = some l.length := by
  induction l with
  | nil => simp [firstIdx]
  | cons x xs ih =>
    have hx : ¬x = a := fun hc => h (hc ▸ List.mem_cons_self x xs)
    have hm : a ∉ xs := fun hc => h (List.mem_cons_of_mem x hc)
    simp only [List.cons_append, firstIdx, List.append_eq, if_neg hx, ih hm,
      Option.map_some', List.length_cons]

theorem getD_firstIdx {α : Type} [DecidableEq α] (l : List α) (a : α) (j : Nat) (d : α)
    (h : firstIdx l a = some j) : l.getD j d = a := by
  induction l generalizing j with
  | nil => cases h
  | cons x xs ih =>
    simp only [firstIdx] at h
    by_cases hx : x = a
    · rw [if_pos hx] at h
      cases h
      exact hx
    · rw [if_neg hx] at h
      cases hfi : firstIdx xs a with
      | none => rw [hfi] at h; cases h
      | some j0 =>
        rw [hfi] at h
        simp only [Option.map_some'] at h
        cases h
        simpa using ih j0 hfi

/-- The sampler list after one slot: append the slot's sampler def unless
an equal one is already present. -/
def stepSamplers (s1 : List SamplerDef) (slot : TextureSlot) : List SamplerDef :=
  if slotSamplerDef slot ∈ s1 then s1 else s1 ++ [slotSamplerDef slot]

/-- The texture def one slot emits: its image source plus the deduplicated
index of its sampler def. -/
def stepTexture (s1 : List SamplerDef) (slot : TextureSlot) : TextureDef :=
  { source := slot.texture,
    sampler := (firstIdx (stepSamplers s1 slot) (slotSamplerDef slot)).getD 0 }

/-- The texture list after one slot: append its texture def unless an equal
one is already present. -/
def stepTextures (s : List SamplerDef × List TextureDef) (slot : TextureSlot) :
    List TextureDef :=
  if stepTexture s.1 slot ∈ s.2 then s.2 else s.2 ++ [stepTexture s.1 slot]

/-- One slot's effect on the deduplicated sampler/texture lists, plus the
texture-info def it emits. -/
def slotStep (s : List SamplerDef × List TextureDef) (slot : TextureSlot) :
    (List SamplerDef × List TextureDef) × TextureInfoDef :=
  ((stepSamplers s.1 slot, stepTextures s slot),
   { index := (firstIdx (stepTextures s slot) (stepTexture s.1 slot)).getD 0,
     texCoord := slot.texCoord })

/-- Fold `slotStep` over a slot list, collecting the emitted infos. -/
def slotsFold (s : List SamplerDef × List TextureDef) :
    List TextureSlot → (List SamplerDef × List TextureDef) × List TextureInfoDef
  | [] => (s, [])
  | slot :: rest =>
    let r := slotStep s slot
    let r2 := slotsFold r.1 rest
    (r2.1, r.2 :: r2.2)

/-- A placeholder slot for `getD`. -/
def dummySlot : TextureSlot := { texture := 0 }

/-- A placeholder texture-info def for `getD`. -/
def dummyInfo : TextureInfoDef := { index := 0, texCoord := 0 }

theorem slotsFold_append (s : List SamplerDef × List TextureDef)
    (xs ys : List TextureSlot) :
    slotsFold s (xs ++ ys)
      = ((slotsFold (slotsFold s xs).1 ys).1,
         (slotsFold s xs).2 ++ (slotsFold (slotsFold s xs).1 ys).2) := by
  induction xs generalizing s with
  | nil => simp [slotsFold]
  | cons slot rest ih =>
    simp only [List.cons_append, slotsFold, List.append_eq, ih (slotStep s slot).1]

theorem stepSamplers_extend (s1 : List SamplerDef) (slot : TextureSlot) :
    ∃ e, stepSamplers s1 slot = s1 ++ e := by
  by_cases hm : slotSamplerDef slot ∈ s1
  · exact ⟨[], by simp [stepSamplers, hm]⟩
  · exact ⟨[slotSamplerDef slot], by simp [stepSamplers, hm]⟩

theorem stepTextures_extend (s : List SamplerDef × List TextureDef) (slot : TextureSlot) :
    ∃ e, stepTextures s slot = s.2 ++ e := by
  by_cases hm : stepTexture s.1 slot ∈ s.2
  · exact ⟨[], by simp [stepTextures, hm]⟩
  · exact ⟨[stepTexture s.1 slot], by simp [stepTextures, hm]⟩

theorem slotsFold_extend (s : List SamplerDef × List TextureDef)
    (l : List TextureSlot) :
    (∃ e1, (slotsFold s l).1.1 = s.1 ++ e1) ∧
    (∃ e2, (slotsFold s l).1.2 = s.2 ++ e2) := by
  induction l generalizing s with
  | nil => exact ⟨⟨[], by simp [slotsFold]⟩, ⟨[], by simp [slotsFold]⟩⟩
  | cons slot rest ih =>
    obtain ⟨⟨e1, he1⟩, ⟨e2, he2⟩⟩ := ih (slotStep s slot).1
    obtain ⟨f1, hf1⟩ := stepSamplers_extend s.1 slot
    obtain ⟨f2, hf2⟩ := stepTextures_extend s slot
    constructor
    · refine ⟨f1 ++ e1, ?_⟩
      show (slotsFold (slotStep s slot).1 rest).1.1 = _
      rw [he1]
      show stepSamplers s.1 slot ++ e1 = _
      rw [hf1, List.append_assoc]
    · refine ⟨f2 ++ e2, ?_⟩
      show (slotsFold (slotStep s slot).1 rest).1.2 = _
      rw [he2]
      show stepTextures s slot ++ e2 = _
      rw [hf2, List.append_assoc]

theorem slotsFold_nodup (s : List SamplerDef × List TextureDef)
    (l : List TextureSlot) (h1 : s.1.Nodup) (h2 : s.2.Nodup) :
    (slotsFold s l).1.1.Nodup ∧ (slotsFold s l).1.2.Nodup := by
  induction l generalizing s with
  | nil => exact ⟨h1, h2⟩
  | cons slot rest ih =>
    refine ih (slotStep s slot).1 ?_ ?_
    · show (stepSamplers s.1 slot).Nodup
      by_cases hm : slotSamplerDef slot ∈ s.1
      · simpa [stepSamplers, hm] using h1
      · rw [stepSamplers, if_neg hm]
        exact List.Nodup.append h1 (List.nodup_singleton _)
          (by simpa using fun hc => hm hc)
    · show (stepTextures s slot).Nodup
      by_cases hm : stepTexture s.1 slot ∈ s.2
      · simpa [stepTextures, hm] using h2
      · rw [stepTextures, if_neg hm]
        exact List.Nodup.append h2 (List.nodup_singleton _)
          (by simpa using fun hc => hm hc)

theorem slotsFold_mem_samplers (s : List SamplerDef × List TextureDef)
    (l : List TextureSlot) (d : SamplerDef) :
    d ∈ (slotsFold s l).1.1 ↔ d ∈ s.1 ∨ d ∈ l.map slotSamplerDef := by
  induction l generalizing s with
  | nil => simp [slotsFold]
  | cons slot rest ih =>
    have hstep : (slotsFold s (slot :: rest)).1.1 = (slotsFold (slotStep s slot).1 rest).1.1 := rfl
    rw [hstep, ih (slotStep s slot).1]
    show d ∈ stepSamplers s.1 slot ∨ _ ↔ _
    by_cases hm : slotSamplerDef slot ∈ s.1
    · rw [stepSamplers, if_pos hm]
      simp only [List.map_cons, List.mem_cons]
      constructor
      · rintro (h | h)
        · exact Or.inl h
        · exact Or.inr (Or.inr h)
      · rintro (h | h | h)
        · exact Or.inl h
        · exact Or.inl (h ▸ hm)
        · exact Or.inr h
    · rw [stepSamplers, if_neg hm]
      simp only [List.map_cons, List.mem_cons, List.mem_append, List.mem_singleton,
        List.mem_nil_iff, or_false]
      constructor
      · rintro ((h | h) | h)
        · exact Or.inl h
        · exact Or.inr (Or.inl h)
        · exact Or.inr (Or.inr h)
      · rintro (h | h | h)
        · exact Or.inl (Or.inl h)
        · exact Or.inl (Or.inr h)
        · exact Or.inr h

/-- The texture def a slot denotes once the final sampler list is known. -/
def finalTextureDef (samplers : List SamplerDef) (slot : TextureSlot) : TextureDef :=
  { source := slot.texture, sampler := (firstIdx samplers (slotSamplerDef slot)).getD 0 }

theorem mem_stepSamplers (s1 : List SamplerDef) (slot : TextureSlot) :
    slotSamplerDef slot ∈ stepSamplers s1 slot := by
  by_cases hm : slotSamplerDef slot ∈ s1
  · simpa [stepSamplers, hm] using hm
  · simp [stepSamplers, hm]

theorem mem_stepTextures (s : List SamplerDef × List TextureDef) (slot : TextureSlot) :
    stepTexture s.1 slot ∈ stepTextures s slot := by
  by_cases hm : stepTexture s.1 slot ∈ s.2
  · simpa [stepTextures, hm] using hm
  · simp [stepTextures, hm]

theorem slotsFold_infos (s : List SamplerDef × List TextureDef) (l : List TextureSlot)
    (k : Nat) (hk : k < l.length) :
    slotSamplerDef (l.getD k dummySlot) ∈ (slotsFold s l).1.1 ∧
    finalTextureDef (slotsFold s l).1.1 (l.getD k dummySlot) ∈ (slotsFold s l).1.2 ∧
    (slotsFold s l).2.getD k dummyInfo
      = { index := (firstIdx (slotsFold s l).1.2
            (finalTextureDef (slotsFold s l).1.1 (l.getD k dummySlot))).getD 0,
          texCoord := (l.getD k dummySlot).texCoord } := by
  induction l generalizing s k with
  | nil => simp at hk
  | cons slot rest ih =>
    obtain ⟨⟨e1, he1⟩, ⟨e2, he2⟩⟩ := slotsFold_extend (slotStep s slot).1 rest
    have hfold1 : (slotsFold s (slot :: rest)).1.1
        = (slotsFold (slotStep s slot).1 rest).1.1 := rfl
    have hfold2 : (slotsFold s (slot :: rest)).1.2
        = (slotsFold (slotStep s slot).1 rest).1.2 := rfl
    cases k with
    | zero =>
      have hget : (slot :: rest).getD 0 dummySlot = slot := rfl
      have hsd : slotSamplerDef slot ∈ stepSamplers s.1 slot := mem_stepSamplers s.1 slot
      have hstable1 : firstIdx (slotsFold (slotStep s slot).1 rest).1.1 (slotSamplerDef slot)
          = firstIdx (stepSamplers s.1 slot) (slotSamplerDef slot) := by
        rw [he1]
        exact firstIdx_append_of_mem _ _ _ hsd
      have htdef : finalTextureDef (slotsFold s (slot :: rest)).1.1 slot
          = stepTexture s.1 slot := by
        rw [finalTextureDef, hfold1, hstable1]
        rfl
      have htd : stepTexture s.1 slot ∈ stepTextures s slot := mem_stepTextures s slot
      have hstable2 : firstIdx (slotsFold (slotStep s slot).1 rest).1.2 (stepTexture s.1 slot)
          = firstIdx (stepTextures s slot) (stepTexture s.1 slot) := by
        rw [he2]
        exact firstIdx_append_of_mem _ _ _ htd
      refine ⟨?_, ?_, ?_⟩
      · rw [hget, hfold1, he1]
        exact List.mem_append.mpr (Or.inl hsd)
      · rw [hget, htdef, hfold2, he2]
        exact List.mem_append.mpr (Or.inl htd)
      · rw [hget, htdef]
        have hinfo : (slotsFold s (slot :: rest)).2.getD 0 dummyInfo = (slotStep s slot).2 := rfl
        rw [hinfo, hfold2, hstable2]
        rfl
    | succ k =>
      have hget : (slot :: rest).getD (k + 1) dummySlot = rest.getD k dummySlot := rfl
      have hinfo : (slotsFold s (slot :: rest)).2.getD (k + 1) dummyInfo
          = (slotsFold (slotStep s slot).1 rest).2.getD k dummyInfo := rfl
      rw [hget, hfold1, hfold2, hinfo]
      exact ih (slotStep s slot).1 k (by simpa using hk)

theorem assocGet_indexMapFrom_zero {α : Type} [DecidableEq α] (l : List α) (a : α) :
    assocGet (indexMapFrom 0 l) a = firstIdx l a := by
  rw [assocGet_indexMapFrom]
  cases firstIdx l a <;> simp

theorem indexMapFrom_zero_append {α : Type} (l : List α) (d : α) :
    indexMapFrom 0 (l ++ [d]) = indexMapFrom 0 l ++ [(d, l.length)] := by
  rw [indexMapFrom_append, Nat.zero_add]

theorem createTextureInfoDef_spec (st : Wst) (slot : TextureSlot)
    (hs : st.samplerIndexMap = indexMapFrom 0 st.json.samplers)
    (ht : st.textureIndexMap = indexMapFrom 0 st.json.textures) :
    (createTextureInfoDef st slot).2
      = { st with
          json := { st.json with
            samplers := stepSamplers st.json.samplers slot,
            textures := stepTextures (st.json.samplers, st.json.textures) slot },
          samplerIndexMap := indexMapFrom 0 (stepSamplers st.json.samplers slot),
          textureIndexMap :=
            indexMapFrom 0 (stepTextures (st.json.samplers, st.json.textures) slot) } ∧
    (createTextureInfoDef st slot).1
      = (slotStep (st.json.samplers, st.json.textures) slot).2 := by
  have hfold : ({ magFilter := if slot.magFilter = 0 then none else some slot.magFilter, minFilter := if slot.minFilter = 0 then none else some slot.minFilter, wrapS := slot.wrapS, wrapT := slot.wrapT } : SamplerDef) = slotSamplerDef slot := rfl
  by_cases hm1 : slotSamplerDef slot ∈ st.json.samplers
  · cases hfi1 : firstIdx st.json.samplers (slotSamplerDef slot) with
    | none => exact absurd hm1 ((firstIdx_eq_none_iff _ _).mp hfi1)
    | some j =>
      have hstep1 : stepSamplers st.json.samplers slot = st.json.samplers := by
        rw [stepSamplers, if_pos hm1]
      have htex : stepTexture st.json.samplers slot
          = { source := slot.texture, sampler := j } := by
        rw [stepTexture, hstep1, hfi1]
        rfl
      by_cases hm2 : ({ source := slot.texture, sampler := j } : TextureDef) ∈ st.json.textures
      · cases hfi2 : firstIdx st.json.textures
            ({ source := slot.texture, sampler := j } : TextureDef) with
        | none => exact absurd hm2 ((firstIdx_eq_none_iff _ _).mp hfi2)
        | some j2 =>
          have hstep2 : stepTextures (st.json.samplers, st.json.textures) slot
              = st.json.textures := by
            rw [stepTextures]
            simp only [htex]
            rw [if_pos hm2]
          constructor
          · simp only [createTextureInfoDef, hfold, hs, assocGet_indexMapFrom_zero,
              hfi1, hfi2, ht, hstep1, hstep2, htex, Option.getD_some]
            rw [← hs, ← ht]
          · simp only [createTextureInfoDef, slotStep, hfold, hs, ht,
              assocGet_indexMapFrom_zero, hfi1, hstep2, htex, hfi2, Option.getD_some]
      · have hfi2 := (firstIdx_eq_none_iff st.json.textures
          ({ source := slot.texture, sampler := j } : TextureDef)).mpr hm2
        have hstep2 : stepTextures (st.json.samplers, st.json.textures) slot
            = st.json.textures ++ [{ source := slot.texture, sampler := j }] := by
          rw [stepTextures]
          simp only [htex]
          rw [if_neg hm2]
        have hfin : firstIdx (st.json.textures ++ [({ source := slot.texture, sampler := j } : TextureDef)]) ({ source := slot.texture, sampler := j } : TextureDef) = some st.json.textures.length :=
          firstIdx_append_self _ _ hm2
        constructor
        · simp only [createTextureInfoDef, hfold, hs, assocGet_indexMapFrom_zero,
            hfi1, hfi2, ht, hstep1, hstep2, htex, Option.getD_some]
          rw [← hs, ← ht, indexMapFrom_zero_append, ← ht]
        · simp only [createTextureInfoDef, slotStep, hfold, hs, ht,
            assocGet_indexMapFrom_zero, hfi1, hstep2, htex, hfi2, Option.getD_some,
            indexMapFrom_zero_append, hfin]
          rw [← indexMapFrom_zero_append, assocGet_indexMapFrom_zero, hfin]
          simp
  · have hfi1 := (firstIdx_eq_none_iff st.json.samplers (slotSamplerDef slot)).mpr hm1
    have hstep1 : stepSamplers st.json.samplers slot
        = st.json.samplers ++ [slotSamplerDef slot] := by
      rw [stepSamplers, if_neg hm1]
    have hfin1 : firstIdx (st.json.samplers ++ [slotSamplerDef slot]) (slotSamplerDef slot)
        = some st.json.samplers.length := firstIdx_append_self _ _ hm1
    have htex : stepTexture st.json.samplers slot
        = { source := slot.texture, sampler := st.json.samplers.length } := by
      rw [stepTexture, hstep1, hfin1]
      rfl
    have hlook1 : assocGet (indexMapFrom 0 st.json.samplers ++ [(slotSamplerDef slot, st.json.samplers.length)]) (slotSamplerDef slot) = some st.json.samplers.length := by
      rw [← indexMapFrom_zero_append, assocGet_indexMapFrom_zero]
      exact hfin1
    by_cases hm2 : ({ source := slot.texture, sampler := st.json.samplers.length } : TextureDef) ∈ st.json.textures
    · cases hfi2 : firstIdx st.json.textures
          ({ source := slot.texture, sampler := st.json.samplers.length } : TextureDef) with
      | none => exact absurd hm2 ((firstIdx_eq_none_iff _ _).mp hfi2)
      | some j2 =>
        have hstep2 : stepTextures (st.json.samplers, st.json.textures) slot
            = st.json.textures := by
          rw [stepTextures]
          simp only [htex]
          rw [if_pos hm2]
        constructor
        · simp only [createTextureInfoDef, hfold, hs, assocGet_indexMapFrom_zero,
            hfi1, hfi2, ht, hstep1, hstep2, htex, Option.getD_some,
            indexMapFrom_zero_append, hfin1, hlook1]
        · simp only [createTextureInfoDef, slotStep, hfold, hs, ht,
            assocGet_indexMapFrom_zero, hfi1, hstep2, htex, hfi2, Option.getD_some,
            indexMapFrom_zero_append, hfin1, hlook1]
    · have hfi2 := (firstIdx_eq_none_iff st.json.textures
        ({ source := slot.texture, sampler := st.json.samplers.length } : TextureDef)).mpr hm2
      have hstep2 : stepTextures (st.json.samplers, st.json.textures) slot
          = st.json.textures ++ [{ source := slot.texture, sampler := st.json.samplers.length }] := by
        rw [stepTextures]
        simp only [htex]
        rw [if_neg hm2]
      have hfin2 : firstIdx (st.json.textures ++ [({ source := slot.texture, sampler := st.json.samplers.length } : TextureDef)]) ({ source := slot.texture, sampler := st.json.samplers.length } : TextureDef) = some st.json.textures.length :=
        firstIdx_append_self _ _ hm2
      have hlook2 : assocGet (indexMapFrom 0 st.json.textures ++ [(({ source := slot.texture, sampler := st.json.samplers.length } : TextureDef), st.json.textures.length)]) ({ source := slot.texture, sampler := st.json.samplers.length } : TextureDef) = some st.json.textures.length := by
        rw [← indexMapFrom_zero_append, assocGet_indexMapFrom_zero]
        exact hfin2
      constructor
      · simp only [createTextureInfoDef, hfold, hs, assocGet_indexMapFrom_zero,
          hfi1, hfi2, ht, hstep1, hstep2, htex, Option.getD_some,
          indexMapFrom_zero_append, hfin1, hfin2, hlook1, hlook2]
      · simp only [createTextureInfoDef, slotStep, hfold, hs, ht,
          assocGet_indexMapFrom_zero, hfi1, hstep2, htex, hfi2, Option.getD_some,
          indexMapFrom_zero_append, hfin1, hfin2, hlook1, hlook2]

theorem runSlots_spec (slots : List TextureSlot) (st : Wst)
    (hs : st.samplerIndexMap = indexMapFrom 0 st.json.samplers)
    (ht : st.textureIndexMap = indexMapFrom 0 st.json.textures) :
    (runSlots st slots).1
      = { st with
          json := { st.json with
            samplers := (slotsFold (st.json.samplers, st.json.textures) slots).1.1,
            textures := (slotsFold (st.json.samplers, st.json.textures) slots).1.2 },
          samplerIndexMap :=
            indexMapFrom 0 (slotsFold (st.json.samplers, st.json.textures) slots).1.1,
          textureIndexMap :=
            indexMapFrom 0 (slotsFold (st.json.samplers, st.json.textures) slots).1.2 } ∧
    (runSlots st slots).2 = (slotsFold (st.json.samplers, st.json.textures) slots).2 := by
  induction slots generalizing st with
  | nil =>
    constructor
    · show st = _
      simp only [slotsFold]
      rw [← hs, ← ht]
    · rfl
  | cons slot rest ih =>
    obtain ⟨hr2, hr1⟩ := createTextureInfoDef_spec st slot hs ht
    have hs1 : (createTextureInfoDef st slot).2.samplerIndexMap
        = indexMapFrom 0 (createTextureInfoDef st slot).2.json.samplers := by
      rw [hr2]
    have ht1 : (createTextureInfoDef st slot).2.textureIndexMap
        = indexMapFrom 0 (createTextureInfoDef st slot).2.json.textures := by
      rw [hr2]
    obtain ⟨ihstate, ihinfos⟩ := ih (createTextureInfoDef st slot).2 hs1 ht1
    constructor
    · show (runSlots (createTextureInfoDef st slot).2 rest).1 = _
      rw [ihstate, hr2]
      rfl
    · show ((createTextureInfoDef st slot).1
          :: (runSlots (createTextureInfoDef st slot).2 rest).2) = _
      rw [ihinfos, hr1, hr2]
      rfl

theorem emitMaterials_spec (ms : List Material) (st : Wst)
    (hs : st.samplerIndexMap = indexMapFrom 0 st.json.samplers)
    (ht : st.textureIndexMap = indexMapFrom 0 st.json.textures) :
    ∃ newDefs : List MaterialDef,
      emitMaterials st ms
        = { st with
            json := { st.json with
              samplers := (slotsFold (st.json.samplers, st.json.textures)
                (ms.flatMap (fun m => m.textureSlots))).1.1,
              textures := (slotsFold (st.json.samplers, st.json.textures)
                (ms.flatMap (fun m => m.textureSlots))).1.2,
              materials := st.json.materials ++ newDefs },
            samplerIndexMap := indexMapFrom 0 (slotsFold (st.json.samplers, st.json.textures)
              (ms.flatMap (fun m => m.textureSlots))).1.1,
            textureIndexMap := indexMapFrom 0 (slotsFold (st.json.samplers, st.json.textures)
              (ms.flatMap (fun m => m.textureSlots))).1.2 } ∧
      newDefs.map (fun d => d.base) = ms.map (fun m => createPropertyDef m.common) ∧
      newDefs.flatMap (fun d => d.textureSlots)
        = (slotsFold (st.json.samplers, st.json.textures)
            (ms.flatMap (fun m => m.textureSlots))).2 := by
  induction ms generalizing st with
  | nil =>
    refine ⟨[], ?_, rfl, rfl⟩
    show st = _
    simp only [List.flatMap_nil, slotsFold, List.append_nil]
    rw [← hs, ← ht]
  | cons m rest ih =>
    obtain ⟨hrunstate, hruninfos⟩ := runSlots_spec m.textureSlots st hs ht
    have hstep : emitMaterials st (m :: rest)
        = emitMaterials { st with
            json := { st.json with
              samplers := (slotsFold (st.json.samplers, st.json.textures) m.textureSlots).1.1,
              textures := (slotsFold (st.json.samplers, st.json.textures) m.textureSlots).1.2,
              materials := st.json.materials
                ++ [{ base := createPropertyDef m.common,
                      textureSlots := (slotsFold (st.json.samplers, st.json.textures) m.textureSlots).2 }] },
            samplerIndexMap := indexMapFrom 0
              (slotsFold (st.json.samplers, st.json.textures) m.textureSlots).1.1,
            textureIndexMap := indexMapFrom 0
              (slotsFold (st.json.samplers, st.json.textures) m.textureSlots).1.2 } rest := by
      show emitMaterials { (runSlots st m.textureSlots).1 with
          json := { (runSlots st m.textureSlots).1.json with
            materials := (runSlots st m.textureSlots).1.json.materials
              ++ [{ base := createPropertyDef m.common,
                    textureSlots := (runSlots st m.textureSlots).2 }] } } rest = _
      rw [hrunstate, hruninfos]
    obtain ⟨newRest, ihstate, ihbase, ihinfos⟩ := ih
      { st with
        json := { st.json with
          samplers := (slotsFold (st.json.samplers, st.json.textures) m.textureSlots).1.1,
          textures := (slotsFold (st.json.samplers, st.json.textures) m.textureSlots).1.2,
          materials := st.json.materials
            ++ [{ base := createPropertyDef m.common,
                  textureSlots := (slotsFold (st.json.samplers, st.json.textures) m.textureSlots).2 }] },
        samplerIndexMap := indexMapFrom 0
          (slotsFold (st.json.samplers, st.json.textures) m.textureSlots).1.1,
        textureIndexMap := indexMapFrom 0
          (slotsFold (st.json.samplers, st.json.textures) m.textureSlots).1.2 }
      rfl rfl
    rw [hstep, ihstate]
    refine ⟨{ base := createPropertyDef m.common,
              textureSlots := (slotsFold (st.json.samplers, st.json.textures) m.textureSlots).2 }
        :: newRest, ?_, ?_, ?_⟩
    · simp only [List.flatMap_cons, slotsFold_append, List.append_assoc, List.singleton_append]
    · simp only [List.map_cons, ihbase]
    · simp only [List.flatMap_cons, ihinfos, slotsFold_append]

/-! ## Driver-level composition -/

theorem processBuffers_ok_categorize (doc : Document) (opts : WriterOptions)
    (bs : List Buffer) (j : Nat) (st st' : Wst)
    (h : processBuffers doc opts j bs st = Except.ok st') :
    ∀ i, i < bs.length → (categorize doc (j + i)).isOk = true := by
  induction bs generalizing j st with
  | nil =>
    intro i hi
    simp at hi
  | cons b rest ih =>
    intro i hi
    cases hpb : processBuffer doc opts j b st with
    | error e =>
      rw [processBuffers, hpb] at h
      cases h
    | ok st1 =>
      rw [processBuffers, hpb] at h
      cases hcat : categorize doc j with
      | error e =>
        rw [processBuffer, hcat] at hpb
        cases hpb
      | ok c =>
        cases i with
        | zero =>
          rw [Nat.add_zero, hcat]
          rfl
        | succ i =>
          have := ih (j + 1) st1 h i (by simpa using hi)
          have harith : j + 1 + i = j + (i + 1) := by omega
          rw [harith] at this
          exact this

/-- The state the writer starts from: empty JSON and two URI generators. -/
def initialState (doc : Document) (opts : WriterOptions) : Wst :=
  { bufferURIGen := { multiple := decide (doc.buffers.length > 1), basename := opts.basename },
    imageURIGen := { multiple := decide (doc.textures.length > 1), basename := opts.basename } }

/-- The shapes of the buffer views the textures pass reserves: one per
texture in GLB/embedded mode, none otherwise. -/
def imageViewShapesOf (doc : Document) (opts : WriterOptions) :
    List (Nat × Nat × Option Nat × Option Nat) :=
  if opts.isGLB || opts.embedded then
    doc.textures.map (fun t => (0, t.imageByteLength, none, none))
  else []

theorem write_error_eq (doc : Document) (opts : WriterOptions) (e : String)
    (h : processBuffers doc opts 0 doc.buffers
      (emitImages opts 0 doc.textures (initialState doc opts)) = Except.error e) :
    GLTFWriter.write doc opts = Except.error e := by
  simp only [initialState] at h
  simp only [GLTFWriter.write]
  rw [h]

theorem write_ok_eq (doc : Document) (opts : WriterOptions) (st2 : Wst)
    (h : processBuffers doc opts 0 doc.buffers
      (emitImages opts 0 doc.textures (initialState doc opts)) = Except.ok st2) :
    GLTFWriter.write doc opts = Except.ok
      { nativeDoc :=
          { json :=
              { (emitMaterials st2 doc.materials).json with
                meshes := doc.meshes.map createPropertyDef,
                cameras := doc.cameras.map createPropertyDef,
                nodes := doc.nodes.map createPropertyDef,
                skins := doc.skins.map createPropertyDef,
                animations := doc.animations.map createPropertyDef,
                scenes := doc.scenes.map createPropertyDef },
            resources := (emitMaterials st2 doc.materials).resources },
        logs := (emitMaterials st2 doc.materials).logs } := by
  simp only [initialState] at h
  simp only [GLTFWriter.write]
  rw [h]

theorem write_spec (doc : Document) (opts : WriterOptions) (res : WriteResult)
    (h : GLTFWriter.write doc opts = Except.ok res) :
    res.nativeDoc.json.accessors.map eraseLayout
      = (packedAccessors doc 0 doc.buffers).map createAccessorDef ∧
    res.nativeDoc.json.bufferViews.map viewShape
      = imageViewShapesOf doc opts ++ viewShapes doc opts 0 doc.buffers 0 ∧
    (∀ k, (imageDataOf doc opts).length ≤ k →
      k < res.nativeDoc.json.bufferViews.length →
      0 ≤ (res.nativeDoc.json.bufferViews.getD k dummyView).byteOffset ∧
      (res.nativeDoc.json.bufferViews.getD k dummyView).byteOffset % 4 = 0) ∧
    res.nativeDoc.json.buffers.map (fun d => d.base)
      = (nonEmptyBuffers doc opts 0 doc.buffers).map (fun b => createPropertyDef b.common) ∧
    (∀ d, d ∈ res.nativeDoc.json.buffers → bufferUriFacts opts d) ∧
    res.logs = (emptyBuffers doc opts 0 doc.buffers).map (fun b => warnEmptyBuffer b.common.name) ∧
    (∃ entries : List (String × List ByteSeg),
      res.nativeDoc.resources = entries.foldl (fun rs p => recordSet rs p.1 p.2) [] ∧
      entries.length
        = (if (opts.isGLB || opts.embedded) = true then 0 else doc.textures.length)
          + (if opts.embedded = true then 0
             else (nonEmptyBuffers doc opts 0 doc.buffers).length) ∧
      (opts.isGLB = true → opts.embedded = false → ∀ p, p ∈ entries → p.1 = GLB_BUFFER)) ∧
    res.nativeDoc.json.images.map (fun d => d.base)
      = doc.textures.map (fun t => createPropertyDef t.common) ∧
    ((opts.isGLB || opts.embedded) = true → ∀ k, k < doc.textures.length →
      (res.nativeDoc.json.images.getD k dummyImageDef).bufferView = some k) ∧
    (∃ mdefs : List MaterialDef,
      res.nativeDoc.json.materials = mdefs ∧
      mdefs.map (fun d => d.base) = doc.materials.map (fun m => createPropertyDef m.common) ∧
      mdefs.flatMap (fun d => d.textureSlots)
        = (slotsFold ([], []) (doc.materials.flatMap (fun m => m.textureSlots))).2) ∧
    res.nativeDoc.json.samplers
      = (slotsFold ([], []) (doc.materials.flatMap (fun m => m.textureSlots))).1.1 ∧
    res.nativeDoc.json.textures
      = (slotsFold ([], []) (doc.materials.flatMap (fun m => m.textureSlots))).1.2 ∧
    res.nativeDoc.json.meshes = doc.meshes.map createPropertyDef ∧
    res.nativeDoc.json.cameras = doc.cameras.map createPropertyDef ∧
    res.nativeDoc.json.nodes = doc.nodes.map createPropertyDef ∧
    res.nativeDoc.json.skins = doc.skins.map createPropertyDef ∧
    res.nativeDoc.json.animations = doc.animations.map createPropertyDef ∧
    res.nativeDoc.json.scenes = doc.scenes.map createPropertyDef := by
  cases hpbs : processBuffers doc opts 0 doc.buffers
      (emitImages opts 0 doc.textures (initialState doc opts)) with
  | error e =>
    rw [write_error_eq doc opts e hpbs] at h
    cases h
  | ok st2 =>
    rw [write_ok_eq doc opts st2 hpbs] at h
    injection h with h
    subst h
    obtain ⟨hsameI, hIbase, ⟨newImgs, hIapp, hIcount⟩, hIglb, hIext⟩ :=
      emitImages_spec opts doc.textures 0 (initialState doc opts)
    obtain ⟨iacc, ibuf, isamp, itex, imat, ilog, iamap, ismap, itmap, ibgen,
      imesh, icam, inod, iskin, ianim, iscene⟩ := hsameI
    have hz_imgs : (initialState doc opts).json.images = [] := rfl
    have hz_views : (initialState doc opts).json.bufferViews = [] := rfl
    have hz_data : (initialState doc opts).imageData = [] := rfl
    have hz_res : (initialState doc opts).resources = [] := rfl
    have hz_logs : (initialState doc opts).logs = [] := rfl
    have hz_bufs : (initialState doc opts).json.buffers = [] := rfl
    have hz_accs : (initialState doc opts).json.accessors = [] := rfl
    have hz_samp : (initialState doc opts).json.samplers = [] := rfl
    have hz_texs : (initialState doc opts).json.textures = [] := rfl
    have hz_mats : (initialState doc opts).json.materials = [] := rfl
    have hz_smap : (initialState doc opts).samplerIndexMap = [] := rfl
    have hz_tmap : (initialState doc opts).textureIndexMap = [] := rfl
    have h1data : (emitImages opts 0 doc.textures (initialState doc opts)).imageData
        = imageDataOf doc opts := by
      rw [imageDataOf]
      cases hmode : (opts.isGLB || opts.embedded) with
      | true =>
        obtain ⟨hd, _, _, _⟩ := hIglb hmode
        rw [hd, hz_data, List.nil_append]
        simp
      | false =>
        obtain ⟨hd, _, _⟩ := hIext hmode
        rw [hd, hz_data]
        simp
    have h1vshape : (emitImages opts 0 doc.textures (initialState doc opts)).json.bufferViews.map viewShape
        = imageViewShapesOf doc opts := by
      rw [imageViewShapesOf]
      cases hmode : (opts.isGLB || opts.embedded) with
      | true =>
        obtain ⟨_, hv, _, _⟩ := hIglb hmode
        rw [hv, hz_views, List.nil_append]
        simp [viewShape]
      | false =>
        obtain ⟨_, hv, _⟩ := hIext hmode
        rw [hv, hz_views]
        simp
    have h1vlen : (emitImages opts 0 doc.textures (initialState doc opts)).json.bufferViews.length
        = (imageDataOf doc opts).length := by
      rw [imageDataOf]
      cases hmode : (opts.isGLB || opts.embedded) with
      | true =>
        obtain ⟨_, hv, _, _⟩ := hIglb hmode
        rw [hv, hz_views, List.nil_append]
        simp
      | false =>
        obtain ⟨_, hv, _⟩ := hIext hmode
        rw [hv, hz_views]
        simp
    have h1res : ∃ ientries : List (String × List ByteSeg),
        (emitImages opts 0 doc.textures (initialState doc opts)).resources
          = ientries.foldl (fun rs p => recordSet rs p.1 p.2) [] ∧
        ientries.length
          = (if (opts.isGLB || opts.embedded) = true then 0 else doc.textures.length) ∧
        ((opts.isGLB || opts.embedded) = true → ientries = []) := by
      cases hmode : (opts.isGLB || opts.embedded) with
      | true =>
        obtain ⟨_, _, _, hr⟩ := hIglb hmode
        exact ⟨[], by rw [hr, hz_res]; rfl, by simp, fun _ => rfl⟩
      | false =>
        obtain ⟨_, _, ⟨ientries, hr, hrlen⟩⟩ := hIext hmode
        refine ⟨ientries, ?_, by simp [hrlen], fun hc => absurd hc (by simp)⟩
        rw [hr, hz_res]
    have himgslots : (opts.isGLB || opts.embedded) = true → ∀ k, k < doc.textures.length →
        ((emitImages opts 0 doc.textures (initialState doc opts)).json.images.getD k
          dummyImageDef).bufferView = some k := by
      intro hmode k hk
      obtain ⟨_, _, hslots, _⟩ := hIglb hmode
      have := hslots k hk
      rw [hz_imgs, hz_views] at this
      simpa using this
    have himg : ∀ n, n < (emitImages opts 0 doc.textures (initialState doc opts)).imageData.length →
        (((emitImages opts 0 doc.textures (initialState doc opts)).json.images.getD n
          dummyImageDef).bufferView.getD 0) = n := by
      intro n hn
      cases hmode : (opts.isGLB || opts.embedded) with
      | true =>
        obtain ⟨hd, _, _, _⟩ := hIglb hmode
        rw [hd, hz_data, List.nil_append] at hn
        rw [himgslots hmode n (by simpa using hn)]
        rfl
      | false =>
        obtain ⟨hd, _, _⟩ := hIext hmode
        rw [hd, hz_data] at hn
        simp at hn
    have hlen1 : (emitImages opts 0 doc.textures (initialState doc opts)).imageData.length
        ≤ (emitImages opts 0 doc.textures (initialState doc opts)).json.bufferViews.length := by
      rw [h1data, h1vlen]
    have hok := processBuffers_ok_categorize doc opts doc.buffers 0 _ st2 hpbs
    obtain ⟨st2', hokEq, score, sacc, sviews, spres, salign,
      ⟨newBufs, hbufapp, hbufbase, hbufuri⟩, hlogs2, ⟨bentries, hres2, hblen, hbkeys⟩⟩ :=
      processBuffers_spec doc opts doc.buffers 0 _ hok h1data himg hlen1
    rw [hpbs] at hokEq
    injection hokEq with hokEq
    subst hokEq
    obtain ⟨cimgs, cidata, csampl, ctex, cmat, csmap, ctmap, cigen, cmesh, ccam, cnod,
      cskin, canim, cscene⟩ := score
    have hsamp2 : st2.json.samplers = [] := by rw [csampl, isamp, hz_samp]
    have htex2 : st2.json.textures = [] := by rw [ctex, itex, hz_texs]
    have hs2 : st2.samplerIndexMap = indexMapFrom 0 st2.json.samplers := by
      rw [csmap, ismap, hz_smap, hsamp2]
      rfl
    have ht2 : st2.textureIndexMap = indexMapFrom 0 st2.json.textures := by
      rw [ctmap, itmap, hz_tmap, htex2]
      rfl
    obtain ⟨mdefs, hmstate, hmbase, hminfos⟩ := emitMaterials_spec doc.materials st2 hs2 ht2
    have hpair : (st2.json.samplers, st2.json.textures)
        = (([] : List SamplerDef), ([] : List TextureDef)) := by
      rw [hsamp2, htex2]
    rw [hpair] at hmstate hminfos
    have hacc3 : (emitMaterials st2 doc.materials).json.accessors = st2.json.accessors := by
      rw [hmstate]
    have hviews3 : (emitMaterials st2 doc.materials).json.bufferViews
        = st2.json.bufferViews := by
      rw [hmstate]
    have hbufs3 : (emitMaterials st2 doc.materials).json.buffers = st2.json.buffers := by
      rw [hmstate]
    have himgs3 : (emitMaterials st2 doc.materials).json.images = st2.json.images := by
      rw [hmstate]
    have hlogs3 : (emitMaterials st2 doc.materials).logs = st2.logs := by
      rw [hmstate]
    have hres3 : (emitMaterials st2 doc.materials).resources = st2.resources := by
      rw [hmstate]
    have hmats3 : (emitMaterials st2 doc.materials).json.materials
        = st2.json.materials ++ mdefs := by
      rw [hmstate]
    have hsamp3 : (emitMaterials st2 doc.materials).json.samplers
        = (slotsFold ([], []) (doc.materials.flatMap (fun m => m.textureSlots))).1.1 := by
      rw [hmstate]
    have htexs3 : (emitMaterials st2 doc.materials).json.textures
        = (slotsFold ([], []) (doc.materials.flatMap (fun m => m.textureSlots))).1.2 := by
      rw [hmstate]
    have hb1len : (emitImages opts 0 doc.textures (initialState doc opts)).json.buffers.length
        = 0 := by
      rw [ibuf, hz_bufs]
      rfl
    refine ⟨?_, ?_, ?_, ?_, ?_, ?_, ?_, ?_, ?_, ?_, ?_, ?_, ?_, ?_, ?_, ?_, ?_, ?_⟩
    · show ((emitMaterials st2 doc.materials).json.accessors.map eraseLayout) = _
      rw [hacc3, sacc, iacc, hz_accs]
      simp
    · show ((emitMaterials st2 doc.materials).json.bufferViews.map viewShape) = _
      rw [hviews3, sviews, h1vshape, hb1len]
    · intro k hk1 hk2
      have hk2' : k < st2.json.bufferViews.length := by
        rw [← hviews3]
        exact hk2
      have := salign k (by rw [h1vlen]; exact hk1) hk2'
      show 0 ≤ ((emitMaterials st2 doc.materials).json.bufferViews.getD k dummyView).byteOffset
          ∧ _ % 4 = 0
      rw [hviews3]
      exact this
    · show ((emitMaterials st2 doc.materials).json.buffers.map (fun d => d.base)) = _
      rw [hbufs3, hbufapp, ibuf, hz_bufs, List.nil_append, hbufbase]
    · intro d hd
      have : d ∈ newBufs := by
        rw [hbufs3, hbufapp, ibuf, hz_bufs, List.nil_append] at hd
        exact hd
      exact hbufuri d this
    · show (emitMaterials st2 doc.materials).logs = _
      rw [hlogs3, hlogs2, ilog, hz_logs, List.nil_append]
    · obtain ⟨ientries, hires, hilen, hinil⟩ := h1res
      refine ⟨ientries ++ bentries, ?_, ?_, ?_⟩
      · show (emitMaterials st2 doc.materials).resources = _
        rw [hres3, hres2, hires, List.foldl_append]
      · rw [List.length_append, hilen, hblen]
      · intro hglb hemb p hp
        rcases List.mem_append.mp hp with hp | hp
        · have : ientries = [] := hinil (by rw [hglb]; rfl)
          rw [this] at hp
          cases hp
        · exact hbkeys hglb hemb p hp
    · show ((emitMaterials st2 doc.materials).json.images.map (fun d => d.base)) = _
      rw [himgs3, cimgs, hIbase, hz_imgs]
      simp
    · intro hmode k hk
      show ((emitMaterials st2 doc.materials).json.images.getD k dummyImageDef).bufferView
          = some k
      rw [himgs3, cimgs]
      exact himgslots hmode k hk
    · refine ⟨mdefs, ?_, hmbase, hminfos⟩
      show (emitMaterials st2 doc.materials).json.materials = mdefs
      rw [hmats3, cmat, imat, hz_mats, List.nil_append]
    · exact hsamp3
    · exact htexs3
    · rfl
    · rfl
    · rfl
    · rfl
    · rfl
    · rfl

/-! ## Concrete documents used by the per-claim theorems -/

/-- Placeholder texture def for `getD`. -/
def dummyTextureDef : TextureDef := { source := 0, sampler := 0 }

/-- GLB options with the default basename. -/
def optsGLB : WriterOptions := { isGLB := true }

/-- External (non-GLB, non-embedded) options with the default basename. -/
def optsExt : WriterOptions := { isGLB := false }

/-- A 4-byte PNG texture. -/
def texPng4 : Texture := { mimeType := "image/png", imageByteLength := 4 }

/-- A 3-byte PNG texture (deliberately not 4-aligned). -/
def texPng3 : Texture := { mimeType := "image/png", imageByteLength := 3 }

/-- An 8-byte "other" accessor on buffer 0. -/
def accC2a : Accessor :=
  { id := 0, type := ElementType.scalar, componentType := ComponentType.float,
    count := 2, array := [1, 2], buffer := 0, links := [LinkKind.other] }

/-- A 12-byte "other" accessor on buffer 1. -/
def accC2b : Accessor :=
  { id := 1, type := ElementType.scalar, componentType := ComponentType.float,
    count := 3, array := [3, 4, 5], buffer := 1, links := [LinkKind.other] }

/-- Two buffers with one accessor each plus one texture. -/
def docC2 : Document :=
  { accessors := [accC2a, accC2b], buffers := [{}, {}], textures := [texPng4] }

/-- A single 4-byte accessor on buffer 0. -/
def accOne : Accessor :=
  { id := 0, type := ElementType.scalar, componentType := ComponentType.float,
    count := 1, array := [7], buffer := 0, links := [LinkKind.other] }

/-- One buffer holding one 4-byte accessor. -/
def docC3 : Document := { accessors := [accOne], buffers := [{}] }

/-- A POSITION-like attribute accessor (24 bytes, float). -/
def accC4f : Accessor :=
  { id := 0, type := ElementType.vec3, componentType := ComponentType.float,
    count := 2, array := [1, 2, 3, 4, 5, 6], buffer := 0,
    links := [LinkKind.attribute 0] }

/-- An index accessor (12 bytes, unsigned int), listed after the attribute. -/
def accC4i : Accessor :=
  { id := 1, type := ElementType.scalar, componentType := ComponentType.unsignedInt,
    count := 3, array := [0, 1, 2], buffer := 0, links := [LinkKind.index] }

/-- One buffer with an attribute accessor then an index accessor, plus a
texture. -/
def docC4 : Document :=
  { accessors := [accC4f, accC4i], buffers := [{}], textures := [texPng4] }

/-- One buffer with a 4-byte accessor and two 3-byte textures. -/
def docC5 : Document :=
  { accessors := [accOne], buffers := [{}], textures := [texPng3, texPng3] }

/-- A named buffer that owns `accOne`. -/
def bufC9a : Buffer := { common := { name := "bufA" } }

/-- A named buffer no accessor uses. -/
def bufC9b : Buffer := { common := { name := "bufB" } }

/-- Two buffers, the second referenced by no accessor. -/
def docC9 : Document := { accessors := [accOne], buffers := [bufC9a, bufC9b] }

/-- A texture slot with a magFilter and a non-default wrapS. -/
def slotC8 : TextureSlot := { texture := 0, magFilter := 9728, wrapS := 33071 }

/-- First material carrying `slotC8`. -/
def matC8a : Material := { textureSlots := [slotC8] }

/-- Second material carrying an identical slot. -/
def matC8b : Material := { textureSlots := [slotC8] }

/-- Two materials whose only slots share sampler data and image source. -/
def docC8 : Document := { textures := [texPng4], materials := [matC8a, matC8b] }

/-- An accessor linked both as a primitive attribute and as indices. -/
def accC6 : Accessor :=
  { id := 0, type := ElementType.scalar, componentType := ComponentType.float,
    count := 1, array := [1], buffer := 0,
    links := [LinkKind.attribute 0, LinkKind.index] }

/-- One buffer whose only accessor has conflicting roles. -/
def docC6 : Document := { accessors := [accC6], buffers := [{}] }

/-! ## Remaining driver lemmas -/

theorem processBuffers_error_cat (doc : Document) (opts : WriterOptions)
    (bs : List Buffer) (j : Nat) (st : Wst) (e : String)
    (h : processBuffers doc opts j bs st = Except.error e) :
    ∃ i, i < bs.length ∧ categorize doc (j + i) = Except.error e := by
  induction bs generalizing j st with
  | nil => simp [processBuffers] at h
  | cons b rest ih =>
    cases hpb : processBuffer doc opts j b st with
    | error e2 =>
      rw [processBuffers, hpb] at h
      injection h with he
      subst he
      cases hcat : categorize doc j with
      | error e3 =>
        rw [processBuffer, hcat] at hpb
        injection hpb with h3
        subst h3
        exact ⟨0, by simp, by rw [Nat.add_zero]; exact hcat⟩
      | ok c =>
        rw [processBuffer, hcat] at hpb
        cases hpb
    | ok st1 =>
      rw [processBuffers, hpb] at h
      obtain ⟨i, hi, hcat⟩ := ih (j + 1) st1 h
      refine ⟨i + 1, by simpa using hi, ?_⟩
      rw [show j + (i + 1) = j + 1 + i by omega]
      exact hcat

theorem write_ok_total (doc : Document) (opts : WriterOptions)
    (hok : ∀ i, i < doc.buffers.length → (categorize doc i).isOk = true) :
    ∃ res, GLTFWriter.write doc opts = Except.ok res := by
  cases hpbs : processBuffers doc opts 0 doc.buffers
      (emitImages opts 0 doc.textures (initialState doc opts)) with
  | ok st2 => exact ⟨_, write_ok_eq doc opts st2 hpbs⟩
  | error e =>
    obtain ⟨i, hi, hcat⟩ := processBuffers_error_cat doc opts doc.buffers 0 _ e hpbs
    have hik := hok i hi
    rw [Nat.zero_add] at hcat
    rw [hcat] at hik
    simp [Except.isOk, Except.toBool] at hik

/-! ## Per-claim theorems -/

/-- C2: the spec says image bytes are appended only to buffer 0 in
GLB/embedded mode, with each image view's byteOffset locating the image
inside buffer 0.  In the code the image-append loop runs for every buffer:
on `docC2` (two one-accessor buffers and one 4-byte image) buffer 1's
byteLength is 16 = 12 (its own accessor) + 4 (the image appended again),
the image view's byteOffset ends up 12 — the offset the *last* buffer's
pass wrote, not position 8 inside buffer 0 — and the single GLB resource
entry holds only the last buffer's bytes. -/
theorem C2_image_append_failing_eval :
    ∃ res, GLTFWriter.write docC2 optsGLB = Except.ok res ∧
      res.nativeDoc.json.buffers.map (fun d => d.byteLength) = [12, 16] ∧
      accessorPaddedByteLength accC2a = 8 ∧
      accessorPaddedByteLength accC2b = 12 ∧
      (res.nativeDoc.json.bufferViews.getD 0 dummyView).byteOffset = 12 ∧
      res.nativeDoc.resources
        = [(GLB_BUFFER, [ByteSeg.accessorBytes 1 12, ByteSeg.imageBytes 0 4])] :=
  ⟨_, rfl, rfl, rfl, rfl, rfl, rfl⟩

/-- C3 counterexample: with `isGLB := true` the `embedded` flag is *not*
ignored — flipping it changes the native document (data-URI buffer and empty
resources versus no `uri` and a `"@glb.bin"` resource entry). -/
theorem C3_embedded_not_ignored_counterexample :
    (GLTFWriter.write docC3 { basename := "doc", isGLB := true, embedded := true }).toOption.map
        (fun r => r.nativeDoc)
      ≠ (GLTFWriter.write docC3 { basename := "doc", isGLB := true, embedded := false }).toOption.map
        (fun r => r.nativeDoc) := by
  decide

/-- C3 (amended): spec-modelled through `GLB_BUFFER`.  With `isGLB := true`
the embedded flag selects the packaging: embedded gives every emitted buffer
a base64 data URI and leaves resources empty, while plain GLB gives every
emitted buffer no `uri` field and records raw bytes only under the sentinel
`"@glb.bin"`. -/
theorem C3_glb_modes (doc : Document) (basename : String) (res1 res2 : WriteResult)
    (h1 : GLTFWriter.write doc { basename := basename, isGLB := true, embedded := true }
      = Except.ok res1)
    (h2 : GLTFWriter.write doc { basename := basename, isGLB := true, embedded := false }
      = Except.ok res2) :
    (∀ d, d ∈ res1.nativeDoc.json.buffers → ∃ sgs, d.uri = some (BufferURI.dataBase64 sgs)) ∧
    res1.nativeDoc.resources = [] ∧
    (∀ d, d ∈ res2.nativeDoc.json.buffers → d.uri = none) ∧
    (∃ entries : List (String × List ByteSeg),
      res2.nativeDoc.resources = entries.foldl (fun rs p => recordSet rs p.1 p.2) [] ∧
      ∀ p, p ∈ entries → p.1 = GLB_BUFFER) := by
  obtain ⟨_, _, _, _, huri1, _, ⟨e1, hr1, hl1, _⟩, _, _, _, _, _, _, _, _, _, _, _⟩ :=
    write_spec _ _ _ h1
  obtain ⟨_, _, _, _, huri2, _, ⟨e2, hr2, _, hk2⟩, _, _, _, _, _, _, _, _, _, _, _⟩ :=
    write_spec _ _ _ h2
  refine ⟨?_, ?_, ?_, ⟨e2, hr2, fun p hp => hk2 rfl rfl p hp⟩⟩
  · intro d hd
    exact (huri1 d hd).1 rfl
  · have he1 : e1 = [] := List.length_eq_zero.mp (by simpa using hl1)
    rw [hr1, he1]
    rfl
  · intro d hd
    exact (huri2 d hd).2.1 rfl rfl

/-- C3 witness: both GLB modes succeed on `docC3` and show the amended
behavior. -/
theorem C3_glb_modes_witness :
    ∃ res1 res2,
      GLTFWriter.write docC3 { basename := "doc", isGLB := true, embedded := true }
        = Except.ok res1 ∧
      GLTFWriter.write docC3 { basename := "doc", isGLB := true, embedded := false }
        = Except.ok res2 ∧
      ((∀ d, d ∈ res1.nativeDoc.json.buffers →
        ∃ sgs, d.uri = some (BufferURI.dataBase64 sgs)) ∧
      res1.nativeDoc.resources = [] ∧
      (∀ d, d ∈ res2.nativeDoc.json.buffers → d.uri = none) ∧
      (∃ entries : List (String × List ByteSeg),
        res2.nativeDoc.resources = entries.foldl (fun rs p => recordSet rs p.1 p.2) [] ∧
        ∀ p, p ∈ entries → p.1 = GLB_BUFFER)) :=
  ⟨_, _, rfl, rfl, C3_glb_modes docC3 "doc" _ _ rfl rfl⟩

/-- C4 counterexample: accessors are emitted in packing order, not root
order (`docC4` lists the float attribute before the int indices, the JSON
lists the index accessor first), and the image buffer view comes *first*,
not last (targets `[none, 34963, 34962]`). -/
theorem C4_order_counterexample :
    ∃ res, GLTFWriter.write docC4 optsGLB = Except.ok res ∧
      docC4.accessors.map (fun a => a.componentType)
        = [ComponentType.float, ComponentType.unsignedInt] ∧
      res.nativeDoc.json.accessors.map (fun d => d.componentType)
        = [ComponentType.unsignedInt, ComponentType.float] ∧
      res.nativeDoc.json.accessors.map (fun d => d.componentType)
        ≠ docC4.accessors.map (fun a => a.componentType) ∧
      res.nativeDoc.json.bufferViews.map (fun v => v.target)
        = [none, some BufferViewTarget.ELEMENT_ARRAY_BUFFER,
           some BufferViewTarget.ARRAY_BUFFER] :=
  ⟨_, rfl, rfl, rfl, by decide, rfl⟩

/-- C4 (amended): every JSON array except `bufferViews` and `accessors` is
emitted in root listing order (samplers/textures in first-use order);
`accessors` follow packing order, and `bufferViews` hold the image views
first, then the accessor views in packing order. -/
theorem C4_emission_order (doc : Document) (opts : WriterOptions) (res : WriteResult)
    (h : GLTFWriter.write doc opts = Except.ok res) :
    res.nativeDoc.json.accessors.map eraseLayout
      = (packedAccessors doc 0 doc.buffers).map createAccessorDef ∧
    res.nativeDoc.json.bufferViews.map viewShape
      = imageViewShapesOf doc opts ++ viewShapes doc opts 0 doc.buffers 0 ∧
    res.nativeDoc.json.buffers.map (fun d => d.base)
      = (nonEmptyBuffers doc opts 0 doc.buffers).map (fun b => createPropertyDef b.common) ∧
    res.nativeDoc.json.images.map (fun d => d.base)
      = doc.textures.map (fun t => createPropertyDef t.common) ∧
    (∃ mdefs : List MaterialDef, res.nativeDoc.json.materials = mdefs ∧
      mdefs.map (fun d => d.base) = doc.materials.map (fun m => createPropertyDef m.common)) ∧
    res.nativeDoc.json.samplers
      = (slotsFold ([], []) (doc.materials.flatMap (fun m => m.textureSlots))).1.1 ∧
    res.nativeDoc.json.textures
      = (slotsFold ([], []) (doc.materials.flatMap (fun m => m.textureSlots))).1.2 ∧
    res.nativeDoc.json.meshes = doc.meshes.map createPropertyDef ∧
    res.nativeDoc.json.cameras = doc.cameras.map createPropertyDef ∧
    res.nativeDoc.json.nodes = doc.nodes.map createPropertyDef ∧
    res.nativeDoc.json.skins = doc.skins.map createPropertyDef ∧
    res.nativeDoc.json.animations = doc.animations.map createPropertyDef ∧
    res.nativeDoc.json.scenes = doc.scenes.map createPropertyDef := by
  obtain ⟨a1, a2, _, a4, _, _, _, a8, _, ⟨mdefs, hm, hb, _⟩, a11, a12, a13, a14, a15,
    a16, a17, a18⟩ := write_spec doc opts res h
  exact ⟨a1, a2, a4, a8, ⟨mdefs, hm, hb⟩, a11, a12, a13, a14, a15, a16, a17, a18⟩

/-- C4 witness: the emission-order theorem at `docC4` in GLB mode. -/
theorem C4_emission_order_witness :
    ∃ res, GLTFWriter.write docC4 optsGLB = Except.ok res ∧
      (res.nativeDoc.json.accessors.map eraseLayout
        = (packedAccessors docC4 0 docC4.buffers).map createAccessorDef ∧
      res.nativeDoc.json.bufferViews.map viewShape
        = imageViewShapesOf docC4 optsGLB ++ viewShapes docC4 optsGLB 0 docC4.buffers 0 ∧
      res.nativeDoc.json.buffers.map (fun d => d.base)
        = (nonEmptyBuffers docC4 optsGLB 0 docC4.buffers).map
            (fun b => createPropertyDef b.common) ∧
      res.nativeDoc.json.images.map (fun d => d.base)
        = docC4.textures.map (fun t => createPropertyDef t.common) ∧
      (∃ mdefs : List MaterialDef, res.nativeDoc.json.materials = mdefs ∧
        mdefs.map (fun d => d.base)
          = docC4.materials.map (fun m => createPropertyDef m.common)) ∧
      res.nativeDoc.json.samplers
        = (slotsFold ([], []) (docC4.materials.flatMap (fun m => m.textureSlots))).1.1 ∧
      res.nativeDoc.json.textures
        = (slotsFold ([], []) (docC4.materials.flatMap (fun m => m.textureSlots))).1.2 ∧
      res.nativeDoc.json.meshes = docC4.meshes.map createPropertyDef ∧
      res.nativeDoc.json.cameras = docC4.cameras.map createPropertyDef ∧
      res.nativeDoc.json.nodes = docC4.nodes.map createPropertyDef ∧
      res.nativeDoc.json.skins = docC4.skins.map createPropertyDef ∧
      res.nativeDoc.json.animations = docC4.animations.map createPropertyDef ∧
      res.nativeDoc.json.scenes = docC4.scenes.map createPropertyDef) :=
  ⟨_, rfl, C4_emission_order docC4 optsGLB _ rfl⟩

/-- C5 counterexample: a successfully written document whose buffer views
are not all 4-aligned — the second image view of `docC5` sits at byteOffset
7 because image byte lengths are appended unpadded. -/
theorem C5_alignment_counterexample :
    ∃ res, GLTFWriter.write docC5 optsGLB = Except.ok res ∧
      res.nativeDoc.json.bufferViews.map (fun v => v.byteOffset) = [4, 7, 0] ∧
      ¬ (∀ v, v ∈ res.nativeDoc.json.bufferViews → v.byteOffset % 4 = 0) :=
  ⟨_, rfl, rfl, by decide⟩

/-- C5 (amended): in every successfully written document the *accessor*
buffer views — those past the image-view prefix — have non-negative
byteOffsets that are multiples of 4 (accessor blobs are padded to 4 bytes
and interleaved strides are padded to 4); image views are exempt. -/
theorem C5_accessor_view_alignment (doc : Document) (opts : WriterOptions)
    (res : WriteResult) (h : GLTFWriter.write doc opts = Except.ok res) :
    ∀ k, (imageDataOf doc opts).length ≤ k →
      k < res.nativeDoc.json.bufferViews.length →
      0 ≤ (res.nativeDoc.json.bufferViews.getD k dummyView).byteOffset ∧
      (res.nativeDoc.json.bufferViews.getD k dummyView).byteOffset % 4 = 0 :=
  (write_spec doc opts res h).2.2.1

/-- C5 witness: the alignment theorem at `docC5` in GLB mode. -/
theorem C5_accessor_view_alignment_witness :
    ∃ res, GLTFWriter.write docC5 optsGLB = Except.ok res ∧
      ∀ k, (imageDataOf docC5 optsGLB).length ≤ k →
        k < res.nativeDoc.json.bufferViews.length →
        0 ≤ (res.nativeDoc.json.bufferViews.getD k dummyView).byteOffset ∧
        (res.nativeDoc.json.bufferViews.getD k dummyView).byteOffset % 4 = 0 :=
  ⟨_, rfl, C5_accessor_view_alignment docC5 optsGLB _ rfl⟩

/-- C6: if any accessor of any buffer is classified into more than one of
the roles attribute/index/other, `write` aborts with the fatal error
"Attribute or index accessors must be used only for that purpose." and
returns no document. -/
theorem C6_role_conflict_error (doc : Document) (opts : WriterOptions)
    (h : ∃ i, i < doc.buffers.length ∧
      ∃ a ∈ bufferParents doc i, hasRoleConflict a = true) :
    GLTFWriter.write doc opts = Except.error roleErrorMessage := by
  apply write_error_eq
  apply processBuffers_error
  obtain ⟨i, hi, hc⟩ := h
  exact ⟨i, hi, by simpa using hc⟩

/-- C6 witness: `docC6`'s accessor doubles as attribute and index, and the
write errors with the exact message. -/
theorem C6_role_conflict_error_witness :
    (∃ i, i < docC6.buffers.length ∧
      ∃ a ∈ bufferParents docC6 i, hasRoleConflict a = true) ∧
    GLTFWriter.write docC6 optsExt = Except.error roleErrorMessage :=
  ⟨by decide, C6_role_conflict_error docC6 optsExt (by decide)⟩

/-- C9: buffers whose packed byte length is zero are skipped with a warning:
`json.buffers` lists exactly the non-empty buffers in order (so the
remaining indices stay correct), the logs carry one warning per skipped
buffer, only non-empty buffers record resource blobs, and the write still
completes. -/
theorem C9_empty_buffer_skip (doc : Document) (opts : WriterOptions)
    (hok : ∀ i, i < doc.buffers.length → (categorize doc i).isOk = true) :
    ∃ res, GLTFWriter.write doc opts = Except.ok res ∧
      res.nativeDoc.json.buffers.map (fun d => d.base)
        = (nonEmptyBuffers doc opts 0 doc.buffers).map
            (fun b => createPropertyDef b.common) ∧
      res.logs = (emptyBuffers doc opts 0 doc.buffers).map
        (fun b => warnEmptyBuffer b.common.name) ∧
      (∃ entries : List (String × List ByteSeg),
        res.nativeDoc.resources = entries.foldl (fun rs p => recordSet rs p.1 p.2) [] ∧
        entries.length
          = (if (opts.isGLB || opts.embedded) = true then 0 else doc.textures.length)
            + (if opts.embedded = true then 0
               else (nonEmptyBuffers doc opts 0 doc.buffers).length)) := by
  obtain ⟨res, hw⟩ := write_ok_total doc opts hok
  obtain ⟨_, _, _, hbase, _, hlogs, ⟨entries, hres, hlen, _⟩, _, _, _, _, _, _, _, _,
    _, _, _⟩ := write_spec doc opts res hw
  exact ⟨res, hw, hbase, hlogs, ⟨entries, hres, hlen⟩⟩

/-- C9 witness: `docC9`'s second buffer is empty; the write succeeds and the
skip facts hold. -/
theorem C9_empty_buffer_skip_witness :
    (∀ i, i < docC9.buffers.length → (categorize docC9 i).isOk = true) ∧
    (∃ res, GLTFWriter.write docC9 optsExt = Except.ok res ∧
      res.nativeDoc.json.buffers.map (fun d => d.base)
        = (nonEmptyBuffers docC9 optsExt 0 docC9.buffers).map
            (fun b => createPropertyDef b.common) ∧
      res.logs = (emptyBuffers docC9 optsExt 0 docC9.buffers).map
        (fun b => warnEmptyBuffer b.common.name) ∧
      (∃ entries : List (String × List ByteSeg),
        res.nativeDoc.resources = entries.foldl (fun rs p => recordSet rs p.1 p.2) [] ∧
        entries.length
          = (if (optsExt.isGLB || optsExt.embedded) = true then 0
             else docC9.textures.length)
            + (if optsExt.embedded = true then 0
               else (nonEmptyBuffers docC9 optsExt 0 docC9.buffers).length))) :=
  ⟨by decide, C9_empty_buffer_skip docC9 optsExt (by decide)⟩

/-- C8: within one write, sampler defs are deduplicated by structural
equality of (magFilter, minFilter, wrapS, wrapT) and texture defs by
(image source, sampler index): `json.samplers` and `json.textures` are
duplicate-free (one entry per distinct canonical key, with the sampler
keys exactly those the slots produce); any two slots with equal sampler
data get texture defs referencing the same sampler index, and any two
slots with equal (source, sampler) pairs get texture-info defs referencing
the same texture index. -/
theorem C8_texture_dedup (doc : Document) (opts : WriterOptions) (res : WriteResult)
    (h : GLTFWriter.write doc opts = Except.ok res) :
    res.nativeDoc.json.samplers.Nodup ∧
    res.nativeDoc.json.textures.Nodup ∧
    (∀ d, d ∈ res.nativeDoc.json.samplers ↔
      d ∈ (doc.materials.flatMap (fun m => m.textureSlots)).map slotSamplerDef) ∧
    (∀ k1 k2,
      k1 < (doc.materials.flatMap (fun m => m.textureSlots)).length →
      k2 < (doc.materials.flatMap (fun m => m.textureSlots)).length →
      slotSamplerDef ((doc.materials.flatMap (fun m => m.textureSlots)).getD k1 dummySlot)
        = slotSamplerDef ((doc.materials.flatMap (fun m => m.textureSlots)).getD k2 dummySlot) →
      (res.nativeDoc.json.textures.getD
          ((res.nativeDoc.json.materials.flatMap (fun d => d.textureSlots)).getD k1
            dummyInfo).index dummyTextureDef).sampler
        = (res.nativeDoc.json.textures.getD
          ((res.nativeDoc.json.materials.flatMap (fun d => d.textureSlots)).getD k2
            dummyInfo).index dummyTextureDef).sampler) ∧
    (∀ k1 k2,
      k1 < (doc.materials.flatMap (fun m => m.textureSlots)).length →
      k2 < (doc.materials.flatMap (fun m => m.textureSlots)).length →
      ((doc.materials.flatMap (fun m => m.textureSlots)).getD k1 dummySlot).texture
        = ((doc.materials.flatMap (fun m => m.textureSlots)).getD k2 dummySlot).texture →
      (res.nativeDoc.json.textures.getD
          ((res.nativeDoc.json.materials.flatMap (fun d => d.textureSlots)).getD k1
            dummyInfo).index dummyTextureDef).sampler
        = (res.nativeDoc.json.textures.getD
          ((res.nativeDoc.json.materials.flatMap (fun d => d.textureSlots)).getD k2
            dummyInfo).index dummyTextureDef).sampler →
      ((res.nativeDoc.json.materials.flatMap (fun d => d.textureSlots)).getD k1
          dummyInfo).index
        = ((res.nativeDoc.json.materials.flatMap (fun d => d.textureSlots)).getD k2
          dummyInfo).index) := by
  obtain ⟨_, _, _, _, _, _, _, _, _, ⟨mdefs, hmats, _, hinfos⟩, hsamp, htexs, _, _, _,
    _, _, _⟩ := write_spec doc opts res h
  have hnodup := slotsFold_nodup ([], [])
    (doc.materials.flatMap (fun m => m.textureSlots)) (by simp) (by simp)
  have key : ∀ k, k < (doc.materials.flatMap (fun m => m.textureSlots)).length →
      (slotsFold ([], []) (doc.materials.flatMap (fun m => m.textureSlots))).1.2.getD
        (((slotsFold ([], []) (doc.materials.flatMap (fun m => m.textureSlots))).2.getD k
          dummyInfo).index) dummyTextureDef
      = finalTextureDef
          (slotsFold ([], []) (doc.materials.flatMap (fun m => m.textureSlots))).1.1
          ((doc.materials.flatMap (fun m => m.textureSlots)).getD k dummySlot) := by
    intro k hk
    obtain ⟨hsd, htd, hinfo⟩ := slotsFold_infos ([], [])
      (doc.materials.flatMap (fun m => m.textureSlots)) k hk
    rw [hinfo]
    cases hfi : firstIdx
        (slotsFold ([], []) (doc.materials.flatMap (fun m => m.textureSlots))).1.2
        (finalTextureDef
          (slotsFold ([], []) (doc.materials.flatMap (fun m => m.textureSlots))).1.1
          ((doc.materials.flatMap (fun m => m.textureSlots)).getD k dummySlot)) with
    | none => exact absurd htd ((firstIdx_eq_none_iff _ _).mp hfi)
    | some j =>
      simp only [Option.getD_some]
      exact getD_firstIdx _ _ _ _ hfi
  refine ⟨?_, ?_, ?_, ?_, ?_⟩
  · rw [hsamp]
    exact hnodup.1
  · rw [htexs]
    exact hnodup.2
  · intro d
    rw [hsamp]
    have := slotsFold_mem_samplers ([], [])
      (doc.materials.flatMap (fun m => m.textureSlots)) d
    simpa using this
  · intro k1 k2 h1 h2 heq
    rw [hmats, hinfos, htexs, key k1 h1, key k2 h2]
    simp only [finalTextureDef, heq]
  · intro k1 k2 h1 h2 hsrc hsampidx
    rw [hmats, hinfos, htexs] at hsampidx
    rw [hmats, hinfos]
    rw [key k1 h1, key k2 h2] at hsampidx
    obtain ⟨hsd1, htd1, hinfo1⟩ := slotsFold_infos ([], [])
      (doc.materials.flatMap (fun m => m.textureSlots)) k1 h1
    obtain ⟨hsd2, htd2, hinfo2⟩ := slotsFold_infos ([], [])
      (doc.materials.flatMap (fun m => m.textureSlots)) k2 h2
    rw [hinfo1, hinfo2]
    have htdeq : finalTextureDef
          (slotsFold ([], []) (doc.materials.flatMap (fun m => m.textureSlots))).1.1
          ((doc.materials.flatMap (fun m => m.textureSlots)).getD k1 dummySlot)
        = finalTextureDef
          (slotsFold ([], []) (doc.materials.flatMap (fun m => m.textureSlots))).1.1
          ((doc.materials.flatMap (fun m => m.textureSlots)).getD k2 dummySlot) := by
      simp only [finalTextureDef] at hsampidx ⊢
      rw [hsrc, hsampidx]
    rw [htdeq]

/-- C8 witness: `docC8`'s two materials carry identical slots; the dedup
theorem applies to its successful write. -/
theorem C8_texture_dedup_witness :
    ∃ res, GLTFWriter.write docC8 optsExt = Except.ok res ∧
      (res.nativeDoc.json.samplers.Nodup ∧
      res.nativeDoc.json.textures.Nodup ∧
      (∀ d, d ∈ res.nativeDoc.json.samplers ↔
        d ∈ (docC8.materials.flatMap (fun m => m.textureSlots)).map slotSamplerDef) ∧
      (∀ k1 k2,
        k1 < (docC8.materials.flatMap (fun m => m.textureSlots)).length →
        k2 < (docC8.materials.flatMap (fun m => m.textureSlots)).length →
        slotSamplerDef ((docC8.materials.flatMap (fun m => m.textureSlots)).getD k1 dummySlot)
          = slotSamplerDef ((docC8.materials.flatMap (fun m => m.textureSlots)).getD k2 dummySlot) →
        (res.nativeDoc.json.textures.getD
            ((res.nativeDoc.json.materials.flatMap (fun d => d.textureSlots)).getD k1
              dummyInfo).index dummyTextureDef).sampler
          = (res.nativeDoc.json.textures.getD
            ((res.nativeDoc.json.materials.flatMap (fun d => d.textureSlots)).getD k2
              dummyInfo).index dummyTextureDef).sampler) ∧
      (∀ k1 k2,
        k1 < (docC8.materials.flatMap (fun m => m.textureSlots)).length →
        k2 < (docC8.materials.flatMap (fun m => m.textureSlots)).length →
        ((docC8.materials.flatMap (fun m => m.textureSlots)).getD k1 dummySlot).texture
          = ((docC8.materials.flatMap (fun m => m.textureSlots)).getD k2 dummySlot).texture →
        (res.nativeDoc.json.textures.getD
            ((res.nativeDoc.json.materials.flatMap (fun d => d.textureSlots)).getD k1
              dummyInfo).index dummyTextureDef).sampler
          = (res.nativeDoc.json.textures.getD
            ((res.nativeDoc.json.materials.flatMap (fun d => d.textureSlots)).getD k2
              dummyInfo).index dummyTextureDef).sampler →
        ((res.nativeDoc.json.materials.flatMap (fun d => d.textureSlots)).getD k1
            dummyInfo).index
          = ((res.nativeDoc.json.materials.flatMap (fun d => d.textureSlots)).getD k2
            dummyInfo).index)) :=
  ⟨_, rfl, C8_texture_dedup docC8 optsExt _ rfl⟩
